import Mathlib

/-! # stagerunner: admission queue, TriggerPipeline, execute and the memory store

A shallow embedding of `domain/queue.go`, `domain/pipelinerun.go`,
`domain/pipeline.go`, `domain/stage.go`, of `TriggerPipeline`, the event loop
of `Start`, the workers, `execute` and the three stage executors in
`domain/executor.go`, of the pipeline and run methods of
`store/memory_store.go`, and of the handlers `createPipeline` and
`updatePipeline` with `createPipelineResponse` in `http/pipeline.go`.

Modelling conventions
* Go `*PipelineRun` values are addresses (`Ptr`) into a `Heap`; every address
  holds an object (Go has no dangling pointers) and `nil` is not an address.
* Go `map[string]T` is `GoMap T`, an association list read at the first entry
  of a key and written by `set` and `delete`, which leave at most one entry of
  the key; `get?` is the two-value read `v, ok := m[k]`, `index` the one-value
  read `m[k]` (the zero value when the key is absent).
* Go `int` is `Int`.  The only arithmetic is `pipelineCounts[k]++`, executed
  only when the count is below `maxQueuedPerPipeline` (itself an `int`), and
  `pipelineCounts[k]--`, executed in reachable states only on counts `≥ 1`
  (`countsMatch_runOps` below), so no operation leaves the 64-bit range.
* Every queue method holds `q.mu` for its whole body, so a method call is one
  atomic transition of the queue state; the mutex itself is not modelled.
* `uuid.New()`, `time.Now()` and `rand.Float64()` are inputs of the functions
  that call them.
* `execute` runs in a worker while other goroutines use the store.  What they
  do reaches `execute` only through the results of its store calls, so the
  store is a parameter (`Store σ`): the memory store, a scripted store, or any
  other.  The waiting loop of `execute` runs for at most `fuel` rounds.
* Several workers at once are a `System`: the shared state and the place of
  every worker, advanced one step of one goroutine at a time
  (`System.step`); a worker alone takes the steps of `execute`
  (`System.run_alone`).
-/

set_option linter.dupNamespace false

namespace Stagerunner

/-! ## Go maps with string keys -/

/-- Go `map[string]β`. -/
structure GoMap (β : Type) where
  entries : List (String × β)
deriving DecidableEq, Repr

namespace GoMap

/-- Result of `make(map[string]β)`. -/
def empty {β : Type} : GoMap β := ⟨[]⟩

/-- Lookup on the entry list. -/
def lookup {β : Type} : List (String × β) → String → Option β
  | [], _ => none
  | (k', v) :: rest, k => if k' = k then some v else lookup rest k

/-- Two-value read `v, ok := m[k]`. -/
def get? {β : Type} (m : GoMap β) (k : String) : Option β := lookup m.entries k

/-- Builtin `delete(m, k)`. -/
def delete {β : Type} (m : GoMap β) (k : String) : GoMap β :=
  ⟨m.entries.filter (fun e => decide (e.1 ≠ k))⟩

/-- Assignment `m[k] = v`. -/
def set {β : Type} (m : GoMap β) (k : String) (v : β) : GoMap β :=
  ⟨(k, v) :: (m.delete k).entries⟩

/-- One-value read `m[k]` of a `map[string]int`: `0` when `k` is absent. -/
def index (m : GoMap Int) (k : String) : Int := (m.get? k).getD 0

end GoMap

/-! ## Errors -/

/-- Go `error` values produced by the modelled code.  The three sentinels are
the package variables of `domain/pipeline.go`; the other constructors are the
`fmt.Errorf` sites, carrying the arguments of their format strings. -/
inductive Error where
  /-- Sentinel `errors.New("queue is empty")`. -/
  | ErrQueueEmpty
  /-- Sentinel `errors.New("not found")`. -/
  | ErrNotFound
  /-- Sentinel `errors.New("already exists")`. -/
  | ErrAlreadyExists
  /-- Error of `queue.go:37`, "queue is full - can not enqueue more than %d runs, ...". -/
  | QueueFull (queueSize : Int)
  /-- Error of `queue.go:42`, "pipeline %s has reached its maximum queued runs - ...". -/
  | PipelineQuotaExceeded (pipelineID : String) (maxQueuedPerPipeline : Int)
  /-- Wrapping `fmt.Errorf("%w: ...", sentinel, ...)` of the memory store; `msg` is
  the formatted text after the colon. -/
  | wrap (inner : Error) (msg : String)
  /-- Any other error value, identified by its message. -/
  | other (msg : String)
deriving DecidableEq, Repr

/-! ## Pipeline runs and the heap -/

def StatusPending : String := "pending"
def StatusRunning : String := "running"
def StatusSuccess : String := "success"
def StatusFailed : String := "failed"

/-- Struct `PipelineRun` of `domain/pipelinerun.go`; instants are `Nat`. -/
structure PipelineRun where
  ID : String
  PipelineID : String
  GitRef : String
  RunStatus : String
  BuildStatus : String
  DeployStatus : String
  Status : String
  CreatedAt : Nat
  UpdatedAt : Nat
  Logs : GoMap String
deriving DecidableEq, Repr

/-- Address of a `PipelineRun` object (a non-nil `*PipelineRun`). -/
abbrev Ptr := Nat

/-- Memory holding the `PipelineRun` objects; `next` is the next address that
an allocation returns. -/
structure Heap where
  mem : Ptr → PipelineRun
  next : Ptr

/-- Allocation `&PipelineRun{...}`: stores `v` at a new address. -/
def Heap.alloc (h : Heap) (v : PipelineRun) : Heap × Ptr :=
  ({ mem := fun p => if p = h.next then v else h.mem p, next := h.next + 1 }, h.next)

/-- Write through a pointer: `p.field = ...`, given as the new object. -/
def Heap.store (h : Heap) (p : Ptr) (v : PipelineRun) : Heap :=
  { h with mem := fun p' => if p' = p then v else h.mem p' }

/-- Function `NewPipelineRun(pipelineID, gitRef)`, with the generated uuid and the
current time as inputs. -/
def NewPipelineRun (h : Heap) (uuid : String) (now : Nat) (pipelineID gitRef : String) :
    Heap × Ptr :=
  h.alloc
    { ID := uuid
      PipelineID := pipelineID
      GitRef := gitRef
      RunStatus := StatusPending
      BuildStatus := StatusPending
      DeployStatus := StatusPending
      Status := StatusPending
      CreatedAt := now
      UpdatedAt := now
      Logs := GoMap.empty }

/-! ## The admission queue (`domain/queue.go`) -/

/-- Struct `queue`; the `container/list` of `*PipelineRun` is a `List Ptr` with
the front of the list first. -/
structure queue where
  queueSize : Int
  maxQueuedPerPipeline : Int
  queue : List Ptr
  pipelineCounts : GoMap Int
deriving DecidableEq, Repr

/-- Function `newQueue(queueSize, maxQueuedPerPipeline)`. -/
def newQueue (queueSize maxQueuedPerPipeline : Int) : queue :=
  { queueSize := queueSize
    maxQueuedPerPipeline := maxQueuedPerPipeline
    queue := []
    pipelineCounts := GoMap.empty }

/-- Method `(*queue).Enqueue(item)`: the new queue state and the returned error
(`none` for `nil`). -/
def Enqueue (h : Heap) (q : queue) (item : Ptr) : queue × Option Error :=
  -- Check if the overall queue is full
  if (q.queue.length : Int) ≥ q.queueSize then
    (q, some (Error.QueueFull q.queueSize))
  -- Check if the pipeline has exceeded its maximum queued runs
  else if q.pipelineCounts.index (h.mem item).PipelineID ≥ q.maxQueuedPerPipeline then
    (q, some (Error.PipelineQuotaExceeded (h.mem item).PipelineID q.maxQueuedPerPipeline))
  else
    -- Add item to the queue
    ({ q with
        queue := q.queue ++ [item]
        pipelineCounts :=
          q.pipelineCounts.set (h.mem item).PipelineID
            (q.pipelineCounts.index (h.mem item).PipelineID + 1) },
      none)

/-- Method `(*queue).Dequeue()`: the new queue state and `(item, nil)` as `.ok item`
or `(nil, err)` as `.error err`. -/
def Dequeue (h : Heap) (q : queue) : queue × Except Error Ptr :=
  match q.queue with
  | [] => (q, .error Error.ErrQueueEmpty)
  | element :: rest =>
    let pid := (h.mem element).PipelineID
    let counts := q.pipelineCounts.set pid (q.pipelineCounts.index pid - 1)
    -- Remove pipeline entry if count is zero
    let counts := if counts.index pid = 0 then counts.delete pid else counts
    ({ q with queue := rest, pipelineCounts := counts }, .ok element)

/-! ## Call sequences on a queue -/

/-- One call on the queue. -/
inductive Op where
  | enqueue (item : Ptr)
  | dequeue
deriving DecidableEq, Repr

/-- What a call returned. -/
inductive Outcome where
  | enqueue (item : Ptr) (err : Option Error)
  | dequeue (res : Except Error Ptr)

/-- Performs one call. -/
def step (h : Heap) (q : queue) : Op → queue × Outcome
  | .enqueue item => ((Enqueue h q item).1, .enqueue item (Enqueue h q item).2)
  | .dequeue => ((Dequeue h q).1, .dequeue (Dequeue h q).2)

/-- Performs the calls from left to right; returns the final state and what
each call returned.  `PipelineID` is assigned only in `NewPipelineRun`, so the
whole sequence reads it from one heap. -/
def runOps (h : Heap) (q : queue) : List Op → queue × List Outcome
  | [] => (q, [])
  | op :: ops =>
    ((runOps h (step h q op).1 ops).1, (step h q op).2 :: (runOps h (step h q op).1 ops).2)

/-- The runs whose `Enqueue` returned `nil`, oldest first. -/
def enqueuedRuns : List Outcome → List Ptr
  | [] => []
  | .enqueue item none :: os => item :: enqueuedRuns os
  | _ :: os => enqueuedRuns os

/-- The runs returned by the successful `Dequeue` calls, oldest first. -/
def dequeuedRuns : List Outcome → List Ptr
  | [] => []
  | .dequeue (.ok item) :: os => item :: dequeuedRuns os
  | _ :: os => dequeuedRuns os

/-- Number of queued runs whose `PipelineID` is `p`. -/
def queuedFor (h : Heap) (q : queue) (p : String) : Nat :=
  (q.queue.filter (fun item => decide ((h.mem item).PipelineID = p))).length

/-! ## Reference definition of `Enqueue` -/

/-- The queue as the specification describes it: the ordered sequence of queued
runs and the queued-count of every pipeline. -/
structure AbstractQueue where
  runs : List Ptr
  queuedCount : String → Int

/-- The view of a queue state: its sequence and, for every pipeline, the value
of `pipelineCounts[p]`. -/
def viewOf (q : queue) : AbstractQueue :=
  { runs := q.queue, queuedCount := fun p => q.pipelineCounts.index p }

/-- Reference `Enqueue` in the words of the specification: `QueueFull` when the
number of queued runs is at least `queueSize`; otherwise `PipelineQuotaExceeded`
when the queued-count of the run's pipeline is at least `maxQueuedPerPipeline`;
otherwise the run goes to the tail and only its pipeline's count grows by one. -/
def EnqueueReference (queueSize maxQueuedPerPipeline : Int) (pipelineID : String)
    (run : Ptr) (a : AbstractQueue) : AbstractQueue × Option Error :=
  if queueSize ≤ (a.runs.length : Int) then
    (a, some (Error.QueueFull queueSize))
  else if maxQueuedPerPipeline ≤ a.queuedCount pipelineID then
    (a, some (Error.PipelineQuotaExceeded pipelineID maxQueuedPerPipeline))
  else
    ({ runs := a.runs ++ [run]
       queuedCount := Function.update a.queuedCount pipelineID (a.queuedCount pipelineID + 1) },
      none)

/-! ## The dispatcher branch of `Start` -/

/-- What one iteration of the event loop of `Start` does with the result of
`Dequeue`: sleep a second and retry, panic, or offer the run to the workers. -/
inductive DispatchAction where
  | sleep
  | fatal (err : Error)
  | handoff (run : Ptr)
deriving DecidableEq, Repr

/-- Lines 68-77 of `executor.go`: the `Dequeue` call of one iteration of the
event loop and the branch on its error. -/
def dispatch (h : Heap) (q : queue) : queue × DispatchAction :=
  match Dequeue h q with
  | (q', .error err) =>
    if err = Error.ErrQueueEmpty then (q', .sleep) else (q', .fatal err)
  | (q', .ok pipelineRun) => (q', .handoff pipelineRun)

/-! ## Stages (`domain/stage.go`) -/

def StageRun : String := "run"
def StageBuild : String := "build"
def StageDeploy : String := "deploy"

/-- Method `Error()` of an error value: its message. -/
def Error.Error : Error → String
  | .ErrQueueEmpty => "queue is empty"
  | .ErrNotFound => "not found"
  | .ErrAlreadyExists => "already exists"
  | .QueueFull queueSize =>
    "queue is full - can not enqueue more than " ++ toString queueSize ++
      " runs, consider using more workers"
  | .PipelineQuotaExceeded pipelineID maxQueuedPerPipeline =>
    "pipeline " ++ pipelineID ++
      " has reached its maximum queued runs - can not enqueue more than " ++
      toString maxQueuedPerPipeline ++ " runs per pipeline"
  | .wrap inner msg => inner.Error ++ ": " ++ msg
  | .other msg => msg

/-- The data fields of struct `RunStage`. -/
structure RunStageFields where
  Name : String
  Command : String
  ContOnError : Bool
deriving DecidableEq, Repr

/-- Struct `RunStage`; `Validator` is `none` for `nil`, and a validator function
reads the data fields of the stage it is given. -/
structure RunStage extends RunStageFields where
  Validator : Option (RunStageFields → Option Error)

/-- The data fields of struct `BuildStage`. -/
structure BuildStageFields where
  Name : String
  DockerfilePath : String
  ContOnError : Bool
deriving DecidableEq, Repr

/-- Struct `BuildStage`. -/
structure BuildStage extends BuildStageFields where
  Validator : Option (BuildStageFields → Option Error)

/-- The data fields of struct `DeployStage`. -/
structure DeployStageFields where
  Name : String
  ClusterName : String
  ManifestPath : String
  ContOnError : Bool
deriving DecidableEq, Repr

/-- Struct `DeployStage`. -/
structure DeployStage extends DeployStageFields where
  Validator : Option (DeployStageFields → Option Error)

/-- Function `defaultRunStageValidator`. -/
def defaultRunStageValidator (s : RunStageFields) : Option Error :=
  if s.Command = "" then some (Error.other "command is required for run stage") else none

/-- Function `defaultBuildStageValidator`. -/
def defaultBuildStageValidator (s : BuildStageFields) : Option Error :=
  if s.DockerfilePath = "" then some (Error.other "dockerfile path is required for build stage")
  else none

/-- Function `defaultDeployStageValidator`. -/
def defaultDeployStageValidator (s : DeployStageFields) : Option Error :=
  if s.ClusterName = "" then some (Error.other "cluster name is required for deploy stage")
  else if s.ManifestPath = "" then
    some (Error.other "manifest path is required for deploy stage")
  else none

/-- Function `NewRunStage(name, command, continueOnError)`. -/
def NewRunStage (name command : String) (continueOnError : Bool) : RunStage :=
  { Name := name, Command := command, Validator := some defaultRunStageValidator,
    ContOnError := continueOnError }

/-- Function `NewBuildStage(name, dockerfilePath, continueOnError)`. -/
def NewBuildStage (name dockerfilePath : String) (continueOnError : Bool) : BuildStage :=
  { Name := name, DockerfilePath := dockerfilePath,
    Validator := some defaultBuildStageValidator, ContOnError := continueOnError }

/-- Function `NewDeployStage(name, clusterName, manifestPath, continueOnError)`. -/
def NewDeployStage (name clusterName manifestPath : String) (continueOnError : Bool) :
    DeployStage :=
  { Name := name, ClusterName := clusterName, ManifestPath := manifestPath,
    Validator := some defaultDeployStageValidator, ContOnError := continueOnError }

/-- Method `(*RunStage).Validate()`. -/
def RunStage.Validate (s : RunStage) : Option Error :=
  match s.Validator with
  | some validator => validator s.toRunStageFields
  | none => none

/-- Method `(*RunStage).ContinueOnError()`. -/
def RunStage.ContinueOnError (s : RunStage) : Bool := s.ContOnError

/-- Method `(*BuildStage).Validate()`. -/
def BuildStage.Validate (s : BuildStage) : Option Error :=
  match s.Validator with
  | some validator => validator s.toBuildStageFields
  | none => none

/-- Method `(*BuildStage).ContinueOnError()`. -/
def BuildStage.ContinueOnError (s : BuildStage) : Bool := s.ContOnError

/-- Method `(*DeployStage).Validate()`. -/
def DeployStage.Validate (s : DeployStage) : Option Error :=
  match s.Validator with
  | some validator => validator s.toDeployStageFields
  | none => none

/-- Method `(*DeployStage).ContinueOnError()`. -/
def DeployStage.ContinueOnError (s : DeployStage) : Bool := s.ContOnError

/-- A value of interface type `Stage`: a pointer to one of the three stage structs. -/
inductive Stage where
  | run (s : RunStage)
  | build (s : BuildStage)
  | deploy (s : DeployStage)

/-! ## The store -/

/-- Struct `Pipeline` of `domain/pipeline.go`. -/
structure Pipeline where
  ID : String
  Name : String
  Repository : String
  Stages : GoMap Stage

/-- The methods of the `Store` interface that `TriggerPipeline` and `execute` call,
for a store whose state has type `σ`.  A method may read the runs behind pointers
and returns the new store state and its results.  `ListPipelineRuns` returns the
listed runs as the caller reads them right after the call, and both of its
results, since `execute` uses the list also when the error is `ErrNotFound`. -/
structure Store (σ : Type) where
  CreatePipelineRun : σ → Heap → Ptr → σ × Option Error
  UpdatePipelineRun : σ → Heap → Ptr → σ × Option Error
  GetPipeline : σ → String → σ × Except Error Pipeline
  ListPipelineRuns : σ → Heap → σ × List PipelineRun × Option Error

/-- Struct `MemoryStore` of `store/memory_store.go`; `pipelineRuns` maps a run ID to
the pointer that was stored. -/
structure MemoryStore where
  pipelines : GoMap Pipeline
  pipelineRuns : GoMap Ptr

/-- Function `NewMemoryStore()`. -/
def NewMemoryStore : MemoryStore :=
  { pipelines := GoMap.empty, pipelineRuns := GoMap.empty }

/-- Method `(*MemoryStore).CreatePipelineRun`. -/
def MemoryStore.CreatePipelineRun (s : MemoryStore) (h : Heap) (pipelineRun : Ptr) :
    MemoryStore × Option Error :=
  match s.pipelineRuns.get? (h.mem pipelineRun).ID with
  | some _ =>
    (s, some (Error.wrap Error.ErrAlreadyExists
      ("pipeline run with ID " ++ (h.mem pipelineRun).ID ++ " already exists")))
  | none =>
    ({ s with pipelineRuns := s.pipelineRuns.set (h.mem pipelineRun).ID pipelineRun }, none)

/-- Method `(*MemoryStore).GetPipelineRun`. -/
def MemoryStore.GetPipelineRun (s : MemoryStore) (id : String) : Except Error Ptr :=
  match s.pipelineRuns.get? id with
  | none => .error (Error.wrap Error.ErrNotFound ("pipeline run with ID " ++ id ++ " not found"))
  | some pipelineRun => .ok pipelineRun

/-- Method `(*MemoryStore).UpdatePipelineRun`. -/
def MemoryStore.UpdatePipelineRun (s : MemoryStore) (h : Heap) (run : Ptr) :
    MemoryStore × Option Error :=
  match s.pipelineRuns.get? (h.mem run).ID with
  | none =>
    (s, some (Error.wrap Error.ErrNotFound
      ("pipeline run with ID " ++ (h.mem run).ID ++ " not found")))
  | some _ =>
    ({ s with pipelineRuns := s.pipelineRuns.set (h.mem run).ID run }, none)

/-- Method `(*MemoryStore).GetPipeline`. -/
def MemoryStore.GetPipeline (s : MemoryStore) (id : String) : Except Error Pipeline :=
  match s.pipelines.get? id with
  | none => .error (Error.wrap Error.ErrNotFound ("pipeline with ID " ++ id ++ " not found"))
  | some pipeline => .ok pipeline

/-- Method `(*MemoryStore).ListPipelineRuns`: the stored runs in the order of the
entry list (Go ranges over the map in an unspecified order), never an error. -/
def MemoryStore.ListPipelineRuns (s : MemoryStore) (h : Heap) : List PipelineRun :=
  s.pipelineRuns.entries.map (fun entry => h.mem entry.2)

/-- The memory store behind the `Store` interface. -/
def memoryStore : Store MemoryStore :=
  { CreatePipelineRun := MemoryStore.CreatePipelineRun
    UpdatePipelineRun := MemoryStore.UpdatePipelineRun
    GetPipeline := fun s id => (s, s.GetPipeline id)
    ListPipelineRuns := fun s h => (s, s.ListPipelineRuns h, none) }

/-! ## `TriggerPipeline` -/

/-- Struct `Executor`, with the state of the store behind the `Store` field.  The
three stage executor fields are assigned only in `NewExecutor`, to the closures
that the three constructors build from `failureRate` and `delay`; the struct
keeps these two captured values in their place.  `failureRate` and the random
draws are finite `float64` values, compared as the rationals they denote;
`delay` is a `time.Duration`.  The handoff channel is left out. -/
structure Executor (σ : Type) where
  Store : σ
  workers : Int
  queue : queue
  failureRate : ℚ
  delay : Int

/-- A call that `TriggerPipeline` makes on the store or on the queue. -/
inductive Call where
  | CreatePipelineRun (run : Ptr)
  | Enqueue (run : Ptr)
  | UpdatePipelineRun (run : Ptr)
deriving DecidableEq, Repr

/-- Result of a `TriggerPipeline` call: the two returned values (`none` is `nil`),
the memory and the executor after the call, and the calls made, in order. -/
structure TriggerResult (σ : Type) where
  run : Option Ptr
  err : Option Error
  heap : Heap
  executor : Executor σ
  calls : List Call

/-- Method `(*Executor).TriggerPipeline(ctx, pipeline, gitRef)`, run without
another goroutine acting in between; `uuid` and `now` are what `uuid.New()` and
`time.Now()` return inside `NewPipelineRun`. -/
def TriggerPipeline {σ : Type} (S : Store σ) (h : Heap) (e : Executor σ) (pipeline : Pipeline)
    (gitRef : String) (uuid : String) (now : Nat) : TriggerResult σ :=
  let h1 := (NewPipelineRun h uuid now pipeline.ID gitRef).1
  let pipelineRun := (NewPipelineRun h uuid now pipeline.ID gitRef).2
  match S.CreatePipelineRun e.Store h1 pipelineRun with
  | (s1, some err) =>
    { run := none
      err := some err
      heap := h1
      executor := { e with Store := s1 }
      calls := [Call.CreatePipelineRun pipelineRun] }
  | (s1, none) =>
    match Enqueue h1 e.queue pipelineRun with
    | (q1, some err) =>
      let h2 := h1.store pipelineRun { h1.mem pipelineRun with Status := StatusFailed }
      { run := none
        err := some err
        heap := h2
        executor := { e with Store := (S.UpdatePipelineRun s1 h2 pipelineRun).1, queue := q1 }
        calls := [Call.CreatePipelineRun pipelineRun, Call.Enqueue pipelineRun,
          Call.UpdatePipelineRun pipelineRun] }
    | (q1, none) =>
      { run := some pipelineRun
        err := none
        heap := h1
        executor := { e with Store := s1, queue := q1 }
        calls := [Call.CreatePipelineRun pipelineRun, Call.Enqueue pipelineRun] }

/-- Function `NewExecutor`, for the fields kept in `Executor`. -/
def NewExecutor {σ : Type} (store : σ) (workers queueSize maxQueuedPerPipeline : Int)
    (failureRate : ℚ) (delay : Int) : Executor σ :=
  { Store := store, workers := workers, queue := newQueue queueSize maxQueuedPerPipeline,
    failureRate := failureRate, delay := delay }

/-! ## `execute` and the stage executors (`domain/executor.go`)

The worker runs `execute` on the run it received.  The model records what
happens in a trace of events, so that statements can speak of calls and of
assignments.  Console output (`log.Println`) is not modelled. -/

/-- One-value read `m[k]` of a `map[string]string`: `""` when `k` is absent. -/
def GoMap.indexString (m : GoMap String) (k : String) : String := (m.get? k).getD ""

/-- What `execute` and the stage executors do, in order. -/
inductive Event where
  /-- Call `e.Store.GetPipeline(ctx, id)`. -/
  | GetPipeline (id : String)
  /-- Call `e.Store.ListPipelineRuns(ctx)`. -/
  | ListPipelineRuns
  /-- Call `e.Store.UpdatePipelineRun(ctx, pipelineRun)`: the run as it is at the call
  and the error returned. -/
  | UpdatePipelineRun (run : PipelineRun) (err : Option Error)
  /-- Call of the executor of the named stage. -/
  | stageExecutor (stage : String)
  /-- Return of the executor of the named stage with the given error. -/
  | stageReturn (stage : String) (err : Option Error)
  /-- Assignment `pipelineRun.Status = v`. -/
  | Status (v : String)
  /-- Assignment of `v` to `RunStatus`, `BuildStatus` or `DeployStatus`, by stage name. -/
  | stageStatus (stage : String) (v : String)
  /-- Call `addLog(pipelineRun, stage, status, content)`. -/
  | addLog (stage status content : String)
  /-- Assignment `pipelineRun.Logs[stage] = v`. -/
  | Logs (stage : String) (v : String)
  /-- Call `rand.Float64()` returning `r`. -/
  | Float64 (r : ℚ)
  /-- Call `time.Sleep(d)`. -/
  | Sleep (d : Int)
deriving DecidableEq

/-- How a call of `execute` ends: it returns, or a type assertion on a stage
panics. -/
inductive Completion where
  | returned
  | panicked
deriving DecidableEq, Repr

/-- What `execute` takes from outside the program: the instants returned by the
successive `time.Now()` calls and the value that `rand.Float64()` returns in
each stage executor (a value in `[0, 1)`). -/
structure Inputs where
  now : Nat → Nat
  randRun : ℚ
  randBuild : ℚ
  randDeploy : ℚ

/-- The state that `execute` works on: the memory, the executor (with the store
state), the trace so far and the number of `time.Now()` calls made. -/
structure ExecState (σ : Type) where
  heap : Heap
  executor : Executor σ
  trace : List Event
  clock : Nat

/-- One second as a `time.Duration` (nanoseconds). -/
def Second : Int := 1000000000

/-- Value of `fmt.Sprintf(logTmpl, pipelineID, runID, stage, status, content)`. -/
def logTmpl (pipelineID runID stage status content : String) : String :=
  "Pipeline: " ++ pipelineID ++ ", Run: " ++ runID ++ ", Stage: " ++ stage ++ ", Status: " ++
    status ++ " - " ++ content ++ "\n"

/-- Function `addLog(pipelineRun, stage, status, content)`. -/
def addLog {σ : Type} (st : ExecState σ) (pipelineRun : Ptr) (stage status content : String) :
    ExecState σ :=
  { st with
    heap := st.heap.store pipelineRun
      { st.heap.mem pipelineRun with
        Logs := (st.heap.mem pipelineRun).Logs.set stage
          ((st.heap.mem pipelineRun).Logs.indexString stage ++
            logTmpl (st.heap.mem pipelineRun).PipelineID (st.heap.mem pipelineRun).ID stage
              status content) }
    trace := st.trace ++ [Event.addLog stage status content] }

/-- Assignment `pipelineRun.Status = v`. -/
def setStatus {σ : Type} (st : ExecState σ) (pipelineRun : Ptr) (v : String) : ExecState σ :=
  { st with
    heap := st.heap.store pipelineRun { st.heap.mem pipelineRun with Status := v }
    trace := st.trace ++ [Event.Status v] }

/-- Assignment `pipelineRun.UpdatedAt = time.Now()`. -/
def setUpdatedAt {σ : Type} (inp : Inputs) (st : ExecState σ) (pipelineRun : Ptr) :
    ExecState σ :=
  { st with
    heap := st.heap.store pipelineRun
      { st.heap.mem pipelineRun with UpdatedAt := inp.now st.clock }
    clock := st.clock + 1 }

/-- Statement `if err := e.Store.UpdatePipelineRun(ctx, pipelineRun); err != nil
{ log.Println(err) }`. -/
def updatePipelineRun {σ : Type} (S : Store σ) (st : ExecState σ) (pipelineRun : Ptr) :
    ExecState σ :=
  { st with
    executor :=
      { st.executor with
        Store := (S.UpdatePipelineRun st.executor.Store st.heap pipelineRun).1 }
    trace := st.trace ++
      [Event.UpdatePipelineRun (st.heap.mem pipelineRun)
        (S.UpdatePipelineRun st.executor.Store st.heap pipelineRun).2] }

/-- The closure returned by `runExecFuncConstructor(failureRate, delay)`, applied to
`(ctx, pipelineRun, runStage)`; `r` is what `rand.Float64()` returns if called. -/
def runExecFuncConstructor {σ : Type} (failureRate : ℚ) (delay : Int) (r : ℚ)
    (st : ExecState σ) (pipelineRun : Ptr) (runStage : RunStage) : ExecState σ × Option Error :=
  match runStage.Validate with
  | some err =>
    ({ st with
        heap := st.heap.store pipelineRun
          { st.heap.mem pipelineRun with
            Logs := (st.heap.mem pipelineRun).Logs.set StageRun err.Error
            RunStatus := StatusFailed }
        trace := st.trace ++
          [Event.Logs StageRun err.Error, Event.stageStatus StageRun StatusFailed] },
      some err)
  | none =>
    let st1 := addLog st pipelineRun StageRun StatusRunning "starting..."
    let st2 := addLog st1 pipelineRun StageRun StatusRunning ("command: " ++ runStage.Command)
    let st3 := { st2 with trace := st2.trace ++ [Event.Float64 r] }
    -- simulate a failure
    if r < failureRate then
      let st4 := addLog st3 pipelineRun StageRun StatusFailed "failed"
      ({ st4 with
          heap := st4.heap.store pipelineRun
            { st4.heap.mem pipelineRun with RunStatus := StatusFailed }
          trace := st4.trace ++ [Event.stageStatus StageRun StatusFailed] },
        some (Error.other "failed"))
    else
      -- simulate a long running command
      let st4 := { st3 with trace := st3.trace ++ [Event.Sleep delay] }
      let st5 := addLog st4 pipelineRun StageRun StatusSuccess "finished"
      ({ st5 with
          heap := st5.heap.store pipelineRun
            { st5.heap.mem pipelineRun with RunStatus := StatusSuccess }
          trace := st5.trace ++ [Event.stageStatus StageRun StatusSuccess] },
        none)

/-- The closure returned by `buildExecFuncConstructor(failureRate, delay)`. -/
def buildExecFuncConstructor {σ : Type} (failureRate : ℚ) (delay : Int) (r : ℚ)
    (st : ExecState σ) (pipelineRun : Ptr) (buildStage : BuildStage) :
    ExecState σ × Option Error :=
  match buildStage.Validate with
  | some err =>
    ({ st with
        heap := st.heap.store pipelineRun
          { st.heap.mem pipelineRun with
            Logs := (st.heap.mem pipelineRun).Logs.set StageBuild err.Error
            BuildStatus := StatusFailed }
        trace := st.trace ++
          [Event.Logs StageBuild err.Error, Event.stageStatus StageBuild StatusFailed] },
      some err)
  | none =>
    let st1 := addLog st pipelineRun StageBuild StatusRunning "starting..."
    let st2 := addLog st1 pipelineRun StageBuild StatusRunning
      ("dockerfile path: " ++ buildStage.DockerfilePath)
    let st3 := { st2 with trace := st2.trace ++ [Event.Float64 r] }
    -- simulate a failure
    if r < failureRate then
      let st4 := addLog st3 pipelineRun StageBuild StatusFailed "failed"
      ({ st4 with
          heap := st4.heap.store pipelineRun
            { st4.heap.mem pipelineRun with BuildStatus := StatusFailed }
          trace := st4.trace ++ [Event.stageStatus StageBuild StatusFailed] },
        some (Error.other "failed"))
    else
      -- simulate a long running command
      let st4 := { st3 with trace := st3.trace ++ [Event.Sleep delay] }
      let st5 := addLog st4 pipelineRun StageBuild StatusSuccess "finished"
      ({ st5 with
          heap := st5.heap.store pipelineRun
            { st5.heap.mem pipelineRun with BuildStatus := StatusSuccess }
          trace := st5.trace ++ [Event.stageStatus StageBuild StatusSuccess] },
        none)

/-- The closure returned by `deployExecFuncConstructor(failureRate, delay)`. -/
def deployExecFuncConstructor {σ : Type} (failureRate : ℚ) (delay : Int) (r : ℚ)
    (st : ExecState σ) (pipelineRun : Ptr) (deployStage : DeployStage) :
    ExecState σ × Option Error :=
  match deployStage.Validate with
  | some err =>
    ({ st with
        heap := st.heap.store pipelineRun
          { st.heap.mem pipelineRun with
            Logs := (st.heap.mem pipelineRun).Logs.set StageDeploy err.Error
            DeployStatus := StatusFailed }
        trace := st.trace ++
          [Event.Logs StageDeploy err.Error, Event.stageStatus StageDeploy StatusFailed] },
      some err)
  | none =>
    let st1 := addLog st pipelineRun StageDeploy StatusRunning "starting..."
    let st2 := addLog st1 pipelineRun StageDeploy StatusRunning
      ("deploying to cluster name: " ++ deployStage.ClusterName)
    let st3 := { st2 with trace := st2.trace ++ [Event.Float64 r] }
    -- simulate a failure
    if r < failureRate then
      let st4 := addLog st3 pipelineRun StageDeploy StatusFailed "failed"
      ({ st4 with
          heap := st4.heap.store pipelineRun
            { st4.heap.mem pipelineRun with DeployStatus := StatusFailed }
          trace := st4.trace ++ [Event.stageStatus StageDeploy StatusFailed] },
        some (Error.other "failed"))
    else
      -- simulate a long running command
      let st4 := { st3 with trace := st3.trace ++ [Event.Sleep delay] }
      let st5 := addLog st4 pipelineRun StageDeploy StatusSuccess "finished"
      ({ st5 with
          heap := st5.heap.store pipelineRun
            { st5.heap.mem pipelineRun with DeployStatus := StatusSuccess }
          trace := st5.trace ++ [Event.stageStatus StageDeploy StatusSuccess] },
        none)

/-- The statements `pipelineRun.UpdatedAt = time.Now()` and the `UpdatePipelineRun`
call that follow a stage which does not end the run. -/
def persistStage {σ : Type} (S : Store σ) (inp : Inputs) (st : ExecState σ) (pipelineRun : Ptr) :
    ExecState σ :=
  updatePipelineRun S (setUpdatedAt inp st pipelineRun) pipelineRun

/-- Lines 199-213 of `execute`: the deploy stage and the final status. -/
def executeDeployStage {σ : Type} (S : Store σ) (inp : Inputs) (pipelineRun : Ptr)
    (pipeline : Pipeline) (st : ExecState σ) : ExecState σ × Completion :=
  -- the type assertion `pipeline.Stages[StageDeploy].(*DeployStage)`
  match pipeline.Stages.get? StageDeploy with
  | some (Stage.deploy deployStage) =>
    let res := deployExecFuncConstructor st.executor.failureRate st.executor.delay
      inp.randDeploy { st with trace := st.trace ++ [Event.stageExecutor StageDeploy] }
      pipelineRun deployStage
    let st1 := { res.1 with trace := res.1.trace ++ [Event.stageReturn StageDeploy res.2] }
    match res.2 with
    | some _ =>
      (updatePipelineRun S (setUpdatedAt inp (setStatus st1 pipelineRun StatusFailed)
        pipelineRun) pipelineRun, Completion.returned)
    | none =>
      (updatePipelineRun S (setUpdatedAt inp (setStatus st1 pipelineRun StatusSuccess)
        pipelineRun) pipelineRun, Completion.returned)
  | _ => (st, Completion.panicked)

/-- Lines 182-213 of `execute`: the build stage and what follows it. -/
def executeBuildStage {σ : Type} (S : Store σ) (inp : Inputs) (pipelineRun : Ptr)
    (pipeline : Pipeline) (st : ExecState σ) : ExecState σ × Completion :=
  -- the type assertion `pipeline.Stages[StageBuild].(*BuildStage)`
  match pipeline.Stages.get? StageBuild with
  | some (Stage.build buildStage) =>
    let res := buildExecFuncConstructor st.executor.failureRate st.executor.delay
      inp.randBuild { st with trace := st.trace ++ [Event.stageExecutor StageBuild] }
      pipelineRun buildStage
    let st1 := { res.1 with trace := res.1.trace ++ [Event.stageReturn StageBuild res.2] }
    match res.2 with
    | some _ =>
      if buildStage.ContinueOnError = false then
        (updatePipelineRun S (setUpdatedAt inp (setStatus st1 pipelineRun StatusFailed)
          pipelineRun) pipelineRun, Completion.returned)
      else
        executeDeployStage S inp pipelineRun pipeline (persistStage S inp st1 pipelineRun)
    | none =>
      executeDeployStage S inp pipelineRun pipeline (persistStage S inp st1 pipelineRun)
  | _ => (st, Completion.panicked)

/-- Lines 163-213 of `execute`: the status becomes running, then the run stage and
what follows it. -/
def executeStages {σ : Type} (S : Store σ) (inp : Inputs) (pipelineRun : Ptr)
    (pipeline : Pipeline) (st : ExecState σ) : ExecState σ × Completion :=
  let st0 := setStatus st pipelineRun StatusRunning
  -- the type assertion `pipeline.Stages[StageRun].(*RunStage)`
  match pipeline.Stages.get? StageRun with
  | some (Stage.run runStage) =>
    let res := runExecFuncConstructor st0.executor.failureRate st0.executor.delay
      inp.randRun { st0 with trace := st0.trace ++ [Event.stageExecutor StageRun] }
      pipelineRun runStage
    let st1 := { res.1 with trace := res.1.trace ++ [Event.stageReturn StageRun res.2] }
    match res.2 with
    | some _ =>
      let st2 := setUpdatedAt inp st1 pipelineRun
      if runStage.ContinueOnError = false then
        (updatePipelineRun S (setStatus st2 pipelineRun StatusFailed) pipelineRun,
          Completion.returned)
      else
        executeBuildStage S inp pipelineRun pipeline (persistStage S inp st2 pipelineRun)
    | none =>
      executeBuildStage S inp pipelineRun pipeline (persistStage S inp st1 pipelineRun)
  | _ => (st0, Completion.panicked)

/-- The inner loop over `otherPipelineRuns` (lines 145-160): the first listed run
with another ID, the pipeline's ID and status running, at which the loop breaks. -/
def findRunning (runID pipelineID : String) : List PipelineRun → Option PipelineRun
  | [] => none
  | run :: rest =>
    if run.ID = runID then findRunning runID pipelineID rest
    else if run.PipelineID = pipelineID ∧ run.Status = StatusRunning then some run
    else findRunning runID pipelineID rest

/-- The listing error on which `execute` gives up: one that is not `nil` and not
`ErrNotFound` (lines 133-134). -/
def fatalListingError : Option Error → Option Error
  | some err => if err ≠ Error.ErrNotFound then some err else none
  | none => none

/-- The loop `for repeat` of `execute` (lines 130-161), for at most `fuel` rounds.
The result is `none` when the rounds are used up, else the state and whether
`execute` goes on to the stages (`true`) or has marked the run failed and
returns (`false`). -/
def executeWaitLoop {σ : Type} (S : Store σ) (pipelineRun : Ptr) (pipeline : Pipeline) :
    Nat → ExecState σ → Option (ExecState σ × Bool)
  | 0, _ => none
  | fuel + 1, st =>
    let listed := S.ListPipelineRuns st.executor.Store st.heap
    let st1 : ExecState σ :=
      { st with
        executor := { st.executor with Store := listed.1 }
        trace := st.trace ++ [Event.ListPipelineRuns] }
    match fatalListingError listed.2.2 with
    | some err =>
      some (updatePipelineRun S
        (setStatus
          (addLog st1 pipelineRun StageRun StatusFailed
            ("error getting other pipeline runs from store: " ++ err.Error))
          pipelineRun StatusFailed)
        pipelineRun, false)
    | none =>
      match findRunning (st1.heap.mem pipelineRun).ID pipeline.ID listed.2.1 with
      | some run =>
        -- the other run for this pipeline is not finished: wait for it
        let st2 := addLog st1 pipelineRun StageRun StatusPending
          ("waiting for previous run " ++ run.ID ++ " to finish")
        executeWaitLoop S pipelineRun pipeline fuel
          { st2 with trace := st2.trace ++ [Event.Sleep (1 * Second)] }
      | none => some (st1, true)

/-- Method `(*Executor).execute(ctx, pipelineRun)` with at most `fuel` rounds of
waiting; `none` when the rounds are used up.  The trace starts empty. -/
def execute {σ : Type} (S : Store σ) (inp : Inputs) (fuel : Nat) (h : Heap) (e : Executor σ)
    (pipelineRun : Ptr) : Option (ExecState σ × Completion) :=
  -- get the pipeline definition from the store
  let got := S.GetPipeline e.Store (h.mem pipelineRun).PipelineID
  let st : ExecState σ :=
    { heap := h
      executor := { e with Store := got.1 }
      trace := [Event.GetPipeline (h.mem pipelineRun).PipelineID]
      clock := 0 }
  match got.2 with
  | .error err =>
    some (updatePipelineRun S
      (setStatus
        (addLog st pipelineRun StageRun StatusFailed
          ("error getting pipeline from store: " ++ err.Error))
        pipelineRun StatusFailed)
      pipelineRun, Completion.returned)
  | .ok pipeline =>
    -- if we find another run for this pipeline which is not finished, wait for it
    match executeWaitLoop S pipelineRun pipeline fuel st with
    | none => none
    | some (st1, false) => some (st1, Completion.returned)
    | some (st1, true) => some (executeStages S inp pipelineRun pipeline st1)

/-- A store that answers from a script: the result of `GetPipeline`, the results
of the successive `ListPipelineRuns` calls and the errors of the successive
`UpdatePipelineRun` calls (no error once the script is used up). -/
structure Script where
  pipeline : Except Error Pipeline
  listings : List (List PipelineRun × Option Error)
  updates : List (Option Error)

/-- The scripted store behind the `Store` interface. -/
def scriptedStore : Store Script :=
  { CreatePipelineRun := fun s _ _ => (s, none)
    UpdatePipelineRun := fun s _ _ =>
      ({ s with updates := s.updates.tail }, (s.updates.head?).getD none)
    GetPipeline := fun s _ => (s, s.pipeline)
    ListPipelineRuns := fun s _ =>
      ({ s with listings := s.listings.tail }, (s.listings.head?).getD ([], none)) }

/-! ## Reading a trace -/

/-- The values assigned to `pipelineRun.Status`, in order. -/
def statusWrites (trace : List Event) : List String :=
  trace.filterMap (fun ev => match ev with
    | Event.Status v => some v
    | _ => none)

/-- The stages whose executor was called, in order. -/
def stageCalls (trace : List Event) : List String :=
  trace.filterMap (fun ev => match ev with
    | Event.stageExecutor stage => some stage
    | _ => none)

/-- The stage executors that returned, each with the error it returned, in order. -/
def stageReturns (trace : List Event) : List (String × Option Error) :=
  trace.filterMap (fun ev => match ev with
    | Event.stageReturn stage err => some (stage, err)
    | _ => none)

/-- The values assigned to the per-stage statuses, each with its stage, in order. -/
def stageStatusWrites (trace : List Event) : List (String × String) :=
  trace.filterMap (fun ev => match ev with
    | Event.stageStatus stage v => some (stage, v)
    | _ => none)

/-- The `UpdatePipelineRun` calls, each with the run passed and the error returned,
in order. -/
def updateCalls (trace : List Event) : List (PipelineRun × Option Error) :=
  trace.filterMap (fun ev => match ev with
    | Event.UpdatePipelineRun run err => some (run, err)
    | _ => none)

/-- The status that a stage executor assigns to its stage when it returns `err`. -/
def statusOf : Option Error → String
  | none => StatusSuccess
  | some _ => StatusFailed

/-- The events that make up the control skeleton of a trace: assignments to
`Status` and to the per-stage statuses, and calls and returns of stage
executors. -/
def isControl : Event → Bool
  | Event.Status _ => true
  | Event.stageExecutor _ => true
  | Event.stageReturn _ _ => true
  | Event.stageStatus _ _ => true
  | _ => false

/-- The control skeleton of a trace. -/
def control (trace : List Event) : List Event := trace.filter isControl

/-- The identity and the four statuses of a run. -/
structure RunStatuses where
  ID : String
  PipelineID : String
  Status : String
  RunStatus : String
  BuildStatus : String
  DeployStatus : String
deriving DecidableEq, Repr

/-- The identity and the four statuses of `run`. -/
def statusesOf (run : PipelineRun) : RunStatuses :=
  { ID := run.ID, PipelineID := run.PipelineID, Status := run.Status,
    RunStatus := run.RunStatus, BuildStatus := run.BuildStatus,
    DeployStatus := run.DeployStatus }

/-- The invariant of the data model: the pipeline holds a run, a build and a
deploy stage under their names, so that no type assertion of `execute` panics. -/
def hasStages (pipeline : Pipeline) : Prop :=
  (∃ rs, pipeline.Stages.get? StageRun = some (Stage.run rs)) ∧
    (∃ bs, pipeline.Stages.get? StageBuild = some (Stage.build bs)) ∧
    (∃ ds, pipeline.Stages.get? StageDeploy = some (Stage.deploy ds))

/-- Two execution states over two stores agree on everything that `execute` reads
except the store, whose states are related by `R`. -/
def sameButStore {σ₁ σ₂ : Type} (R : σ₁ → σ₂ → Prop) (a : ExecState σ₁) (b : ExecState σ₂) :
    Prop :=
  a.heap = b.heap ∧ a.clock = b.clock ∧ a.executor.failureRate = b.executor.failureRate ∧
    a.executor.delay = b.executor.delay ∧ R a.executor.Store b.executor.Store

/-- Two stores give `execute` the same pipeline and the same listings in states
related by `R`, and every call keeps the states related; the errors of
`UpdatePipelineRun` are not compared. -/
def agreeButUpdateErrors {σ₁ σ₂ : Type} (S₁ : Store σ₁) (S₂ : Store σ₂) (R : σ₁ → σ₂ → Prop) :
    Prop :=
  (∀ s₁ s₂ id, R s₁ s₂ →
      (S₁.GetPipeline s₁ id).2 = (S₂.GetPipeline s₂ id).2 ∧
      R (S₁.GetPipeline s₁ id).1 (S₂.GetPipeline s₂ id).1) ∧
    (∀ s₁ s₂ h, R s₁ s₂ →
      (S₁.ListPipelineRuns s₁ h).2 = (S₂.ListPipelineRuns s₂ h).2 ∧
      R (S₁.ListPipelineRuns s₁ h).1 (S₂.ListPipelineRuns s₂ h).1) ∧
    (∀ s₁ s₂ h p, R s₁ s₂ →
      R (S₁.UpdatePipelineRun s₁ h p).1 (S₂.UpdatePipelineRun s₂ h p).1)

/-- The tracked counts agree with the queue: a pipeline with no queued run has
no entry, any other pipeline maps to its number of queued runs. -/
def countsMatch (h : Heap) (q : queue) : Prop :=
  ∀ p : String, q.pipelineCounts.get? p =
    if queuedFor h q p = 0 then none else some (queuedFor h q p : Int)

/-- Both limits hold: the queue is no longer than `queueSize` and no tracked
count is above `maxQueuedPerPipeline`. -/
def withinLimits (q : queue) : Prop :=
  (q.queue.length : Int) ≤ q.queueSize ∧
    ∀ p : String, q.pipelineCounts.index p ≤ q.maxQueuedPerPipeline

/-! ## Example states -/

/-- A pending run as `NewPipelineRun(pipelineID, "main")` makes it. -/
def exampleRun (id pipelineID : String) : PipelineRun :=
  { ID := id
    PipelineID := pipelineID
    GitRef := "main"
    RunStatus := StatusPending
    BuildStatus := StatusPending
    DeployStatus := StatusPending
    Status := StatusPending
    CreatedAt := 0
    UpdatedAt := 0
    Logs := GoMap.empty }

/-- Memory of the test "queue size limit": the runs at addresses 0, 1 and 2 belong
to three different pipelines. -/
def threePipelinesHeap : Heap :=
  { mem := fun p =>
      if p = 0 then exampleRun "run1" "pipeline1"
      else if p = 1 then exampleRun "run2" "pipeline2"
      else exampleRun "run3" "pipeline3"
    next := 3 }

/-- Memory of the test "per-pipeline limit": every run belongs to `pipeline1`. -/
def onePipelineHeap : Heap :=
  { mem := fun _ => exampleRun "run" "pipeline1", next := 3 }

/-- The pipeline of the executor test. -/
def testPipeline : Pipeline :=
  { ID := "test-pipeline", Name := "Test Pipeline", Repository := "github.com/test/repo",
    Stages :=
      ((GoMap.empty.set StageRun
          (Stage.run { Name := StageRun, Command := "go test ./...", ContOnError := false,
                       Validator := none })).set StageBuild
          (Stage.build { Name := StageBuild, DockerfilePath := "Dockerfile",
                         ContOnError := false, Validator := none })).set StageDeploy
          (Stage.deploy { Name := StageDeploy, ClusterName := "test-cluster",
                          ManifestPath := "k8s/", ContOnError := false, Validator := none }) }

/-- The executor of the executor test: queue size 5, quota 2, two workers, an
empty memory store, failure rate 0 and a delay of 10 ms. -/
def testExecutor : Executor MemoryStore := NewExecutor NewMemoryStore 2 5 2 0 10000000

/-- An executor whose queue admits nothing (queue size 0). -/
def fullExecutor : Executor MemoryStore := NewExecutor NewMemoryStore 2 0 2 0 10000000

/-- An executor whose store already holds a run with ID `run-1`. -/
def collidingExecutor : Executor MemoryStore :=
  NewExecutor { pipelines := GoMap.empty, pipelineRuns := GoMap.set GoMap.empty "run-1" 0 } 2 5 2
    0 10000000

/-! ## Example states for `execute` -/

/-- A memory store that holds the test pipeline. -/
def pipelineStore : MemoryStore :=
  { pipelines := GoMap.empty.set "test-pipeline" testPipeline, pipelineRuns := GoMap.empty }

/-- The executor of the executor test after the test pipeline was stored. -/
def readyExecutor : Executor MemoryStore := NewExecutor pipelineStore 2 5 2 0 10000000

/-- Inputs with every random draw `0` and the clock at 8, 9, 10, ... -/
def exampleInputs : Inputs :=
  { now := fun k => 8 + k, randRun := 0, randBuild := 0, randDeploy := 0 }

/-- The first trigger of the test pipeline: the run gets address 3. -/
def firstTrigger : TriggerResult MemoryStore :=
  TriggerPipeline memoryStore threePipelinesHeap readyExecutor testPipeline "main" "run-1" 7

/-- The second trigger of the test pipeline: the run gets address 4. -/
def secondTrigger : TriggerResult MemoryStore :=
  TriggerPipeline memoryStore firstTrigger.heap firstTrigger.executor testPipeline "dev"
    "run-2" 8

/-- The dispatcher takes the first run from the queue. -/
def afterDispatch : queue × DispatchAction :=
  dispatch secondTrigger.heap secondTrigger.executor.queue

/-- The third trigger of the test pipeline, after the dispatcher took the first run. -/
def thirdTrigger : TriggerResult MemoryStore :=
  TriggerPipeline memoryStore secondTrigger.heap
    { secondTrigger.executor with queue := afterDispatch.1 } testPipeline "feature" "run-3" 9

/-- A pipeline whose run stage has the default validator and an empty command, so
that the run stage fails validation; `continueOnError` is the flag of the run
stage.  The build and deploy stages are valid. -/
def runFailsPipeline (continueOnError : Bool) : Pipeline :=
  { ID := "test-pipeline", Name := "Test Pipeline", Repository := "github.com/test/repo",
    Stages :=
      ((GoMap.empty.set StageRun (Stage.run (NewRunStage StageRun "" continueOnError))).set
          StageBuild (Stage.build (NewBuildStage StageBuild "Dockerfile" false))).set
          StageDeploy (Stage.deploy (NewDeployStage StageDeploy "test-cluster" "k8s/" false)) }

/-- A pipeline whose deploy stage fails validation (no cluster name) and is set to
continue on error. -/
def deployFailsPipeline : Pipeline :=
  { ID := "test-pipeline", Name := "Test Pipeline", Repository := "github.com/test/repo",
    Stages :=
      ((GoMap.empty.set StageRun (Stage.run (NewRunStage StageRun "go test ./..." false))).set
          StageBuild (Stage.build (NewBuildStage StageBuild "Dockerfile" false))).set
          StageDeploy (Stage.deploy (NewDeployStage StageDeploy "" "k8s/" true)) }

/-- An executor (failure rate 0) whose memory store holds `pipeline`. -/
def executorWith (pipeline : Pipeline) : Executor MemoryStore :=
  NewExecutor { pipelines := GoMap.empty.set pipeline.ID pipeline, pipelineRuns := GoMap.empty }
    2 5 2 0 10000000

/-- One trigger of `pipeline` on `executorWith pipeline`: the run gets address 3. -/
def triggerOf (pipeline : Pipeline) : TriggerResult MemoryStore :=
  TriggerPipeline memoryStore threePipelinesHeap (executorWith pipeline) pipeline "main"
    "run-1" 7

/-- The end of `execute` on the run triggered for `pipeline`, with one round of
waiting allowed. -/
def executionOf (pipeline : Pipeline) : ExecState MemoryStore × Completion :=
  (execute memoryStore exampleInputs 1 (triggerOf pipeline).heap (triggerOf pipeline).executor
    3).getD
    ({ heap := (triggerOf pipeline).heap, executor := (triggerOf pipeline).executor,
       trace := [], clock := 0 }, Completion.panicked)

/-- The end of `execute` on a run whose pipeline is not in the store. -/
def executionWithoutPipeline : ExecState MemoryStore × Completion :=
  (execute memoryStore exampleInputs 1 threePipelinesHeap testExecutor 0).getD
    ({ heap := threePipelinesHeap, executor := testExecutor, trace := [], clock := 0 },
      Completion.panicked)

/-- The end of `execute` on a run just made by `NewPipelineRun`, with the test
pipeline in the store. -/
def executionOfNewRun : ExecState MemoryStore × Completion :=
  (execute memoryStore exampleInputs 1
    (NewPipelineRun threePipelinesHeap "run-1" 7 "test-pipeline" "main").1 readyExecutor
    (NewPipelineRun threePipelinesHeap "run-1" 7 "test-pipeline" "main").2).getD
    ({ heap := threePipelinesHeap, executor := readyExecutor, trace := [], clock := 0 },
      Completion.panicked)

/-- A script in which every `UpdatePipelineRun` call succeeds. -/
def quietScript : Script :=
  { pipeline := .ok testPipeline, listings := [], updates := [] }

/-- The same script with failing `UpdatePipelineRun` calls. -/
def failingUpdatesScript : Script :=
  { pipeline := .ok testPipeline, listings := [],
    updates := [some (Error.other "disk full"), none, some (Error.other "disk full"),
      some (Error.other "disk full")] }

/-- Two scripts agree on the pipeline and on the listings. -/
def sameScriptButUpdates (s₁ s₂ : Script) : Prop :=
  s₁.pipeline = s₂.pipeline ∧ s₁.listings = s₂.listings

/-! ## The pipeline methods of the memory store (`store/memory_store.go`)

The store keeps `*Pipeline` values; no modelled code writes through such a
pointer between the store calls of one statement below, so a stored pipeline is
kept as a value. -/

/-- Function `errors.Is(err, target)`: `err` or an error in the chain it wraps is
`target`.  A value made by `fmt.Errorf` is a new object, equal to no sentinel. -/
def Error.Is : Stagerunner.Error → Stagerunner.Error → Bool
  | .wrap inner msg, target =>
    decide (Stagerunner.Error.wrap inner msg = target) || inner.Is target
  | err, target => decide (err = target)

/-- Method `(*MemoryStore).CreatePipeline`. -/
def MemoryStore.CreatePipeline (s : MemoryStore) (pipeline : Pipeline) :
    MemoryStore × Option Error :=
  match s.pipelines.get? pipeline.ID with
  | some _ =>
    (s, some (Error.wrap Error.ErrAlreadyExists
      ("pipeline with ID " ++ pipeline.ID ++ " already exists")))
  | none => ({ s with pipelines := s.pipelines.set pipeline.ID pipeline }, none)

/-- Method `(*MemoryStore).UpdatePipeline`. -/
def MemoryStore.UpdatePipeline (s : MemoryStore) (pipeline : Pipeline) :
    MemoryStore × Option Error :=
  match s.pipelines.get? pipeline.ID with
  | none =>
    (s, some (Error.wrap Error.ErrNotFound
      ("pipeline with ID " ++ pipeline.ID ++ " not found")))
  | some _ => ({ s with pipelines := s.pipelines.set pipeline.ID pipeline }, none)

/-- Method `(*MemoryStore).DeletePipeline`. -/
def MemoryStore.DeletePipeline (s : MemoryStore) (id : String) : MemoryStore × Option Error :=
  match s.pipelines.get? id with
  | none => (s, some (Error.wrap Error.ErrNotFound ("pipeline with ID " ++ id ++ " not found")))
  | some _ => ({ s with pipelines := s.pipelines.delete id }, none)

/-! ## `NewPipeline` and the pipeline handlers (`domain/pipeline.go`, `http/pipeline.go`) -/

/-- Function `NewPipeline(repository)`, with the generated uuid as an input: three
stages with empty fields and no validator. -/
def NewPipeline (uuid repository : String) : Pipeline :=
  { ID := uuid
    Name := ""
    Repository := repository
    Stages :=
      ((GoMap.empty.set StageRun
          (Stage.run { Name := StageRun, Command := "", ContOnError := false,
                       Validator := none })).set StageBuild
          (Stage.build { Name := StageBuild, DockerfilePath := "", ContOnError := false,
                         Validator := none })).set StageDeploy
          (Stage.deploy { Name := StageDeploy, ClusterName := "", ManifestPath := "",
                          ContOnError := false, Validator := none }) }

/-- Struct `RunStage` of package `http`. -/
structure http.RunStage where
  Command : String
  ContinueOnErr : Bool
deriving DecidableEq, Repr

/-- Struct `BuildStage` of package `http`. -/
structure http.BuildStage where
  DockerfilePath : String
  ContinueOnErr : Bool
deriving DecidableEq, Repr

/-- Struct `DeployStage` of package `http`. -/
structure http.DeployStage where
  ClusterName : String
  ManifestPath : String
  ContinueOnErr : Bool
deriving DecidableEq, Repr

/-- Struct `Stages` of package `http`. -/
structure http.Stages where
  RunStage : http.RunStage
  BuildStage : http.BuildStage
  DeployStage : http.DeployStage
deriving DecidableEq, Repr

/-- Struct `PipelineRequest`: a decoded request body. -/
structure http.PipelineRequest where
  Name : String
  Repository : String
  Stages : http.Stages
deriving DecidableEq, Repr

/-- Struct `PipelineResponse`. -/
structure http.PipelineResponse where
  ID : String
  Name : String
  Repository : String
  RunStage : http.RunStage
  BuildStage : http.BuildStage
  DeployStage : http.DeployStage
deriving DecidableEq, Repr

/-- What a handler writes: `respondWithError(w, code, message)` or
`respondWithJSON(w, code, payload)`. -/
inductive http.Response (α : Type) where
  | error (code : Nat) (message : String)
  | json (code : Nat) (payload : α)

/-- Function `createPipelineResponse(pipeline)`; `none` when one of its type
assertions panics. -/
def http.createPipelineResponse (pipeline : Pipeline) : Option http.PipelineResponse :=
  match pipeline.Stages.get? StageRun, pipeline.Stages.get? StageBuild,
    pipeline.Stages.get? StageDeploy with
  | some (Stage.run runStage), some (Stage.build buildStage), some (Stage.deploy deployStage) =>
    some
      { ID := pipeline.ID
        Name := pipeline.Name
        Repository := pipeline.Repository
        RunStage := { Command := runStage.Command, ContinueOnErr := runStage.ContOnError }
        BuildStage :=
          { DockerfilePath := buildStage.DockerfilePath, ContinueOnErr := buildStage.ContOnError }
        DeployStage :=
          { ClusterName := deployStage.ClusterName, ManifestPath := deployStage.ManifestPath,
            ContinueOnErr := deployStage.ContOnError } }
  | _, _, _ => none

/-- The assignments that both pipeline handlers make after the request passed
validation (lines 129-133 and 199-203 of `http/pipeline.go`): name, repository
and the three stages. -/
def http.assignStages (pipeline : Pipeline) (req : http.PipelineRequest)
    (runStage : Stagerunner.RunStage) (buildStage : Stagerunner.BuildStage)
    (deployStage : Stagerunner.DeployStage) : Pipeline :=
  { pipeline with
    Name := req.Name
    Repository := req.Repository
    Stages :=
      ((pipeline.Stages.set StageRun (Stage.run runStage)).set StageBuild
        (Stage.build buildStage)).set StageDeploy (Stage.deploy deployStage) }

/-- Handler `(*API).createPipeline` over the memory store, for a request body
that decoded to `req`; `uuid` is what `uuid.New()` returns inside `NewPipeline`.
The payload of the 201 response is the ID of the new pipeline. -/
def http.createPipeline (s : MemoryStore) (uuid : String) (req : http.PipelineRequest) :
    MemoryStore × http.Response String :=
  -- validate request
  let runStage := NewRunStage StageRun req.Stages.RunStage.Command req.Stages.RunStage.ContinueOnErr
  match runStage.Validate with
  | some err => (s, .error 400 err.Error)
  | none =>
    let buildStage := NewBuildStage StageBuild req.Stages.BuildStage.DockerfilePath
      req.Stages.BuildStage.ContinueOnErr
    match buildStage.Validate with
    | some err => (s, .error 400 err.Error)
    | none =>
      let deployStage := NewDeployStage StageDeploy req.Stages.DeployStage.ClusterName
        req.Stages.DeployStage.ManifestPath req.Stages.DeployStage.ContinueOnErr
      match deployStage.Validate with
      | some err => (s, .error 400 err.Error)
      | none =>
        let pipeline := http.assignStages (NewPipeline uuid req.Repository) req runStage
          buildStage deployStage
        match s.CreatePipeline pipeline with
        | (s1, some err) => (s1, .error 500 err.Error)
        | (s1, none) => (s1, .json 201 pipeline.ID)

/-- Handler `(*API).updatePipeline` over the memory store, for the path variable
`id` and a request body that decoded to `req`. -/
def http.updatePipeline (s : MemoryStore) (id : String) (req : http.PipelineRequest) :
    MemoryStore × http.Response Pipeline :=
  -- get pipeline from store
  match s.GetPipeline id with
  | .error err =>
    if err.Is Error.ErrNotFound then (s, .error 404 "Pipeline not found")
    else (s, .error 500 err.Error)
  | .ok pipeline =>
    -- validate request
    let runStage := NewRunStage StageRun req.Stages.RunStage.Command
      req.Stages.RunStage.ContinueOnErr
    match runStage.Validate with
    | some err => (s, .error 400 err.Error)
    | none =>
      let buildStage := NewBuildStage StageBuild req.Stages.BuildStage.DockerfilePath
        req.Stages.BuildStage.ContinueOnErr
      match buildStage.Validate with
      | some err => (s, .error 400 err.Error)
      | none =>
        let deployStage := NewDeployStage StageDeploy req.Stages.DeployStage.ClusterName
          req.Stages.DeployStage.ManifestPath req.Stages.DeployStage.ContinueOnErr
        match deployStage.Validate with
        | some err => (s, .error 400 err.Error)
        | none =>
          -- Update pipeline fields
          let pipeline := http.assignStages pipeline req runStage buildStage deployStage
          match s.UpdatePipeline pipeline with
          | (s1, some err) => (s1, .error 500 err.Error)
          | (s1, none) => (s1, .json 200 pipeline)

/-- The sum of the values of `pipelineCounts`. -/
def sumCounts (q : queue) : Int := (q.pipelineCounts.entries.map (fun entry => entry.2)).sum

/-! ## Reading the logs of a trace -/

/-- The text that the `addLog` calls of a trace append to the log of `stage`, in
order, for a run with the given `PipelineID` and `ID`. -/
def appendedTo (pipelineID runID stage : String) : List Event → String
  | [] => ""
  | Event.addLog stage' status content :: rest =>
    (if stage' = stage then logTmpl pipelineID runID stage status content else "") ++
      appendedTo pipelineID runID stage rest
  | _ :: rest => appendedTo pipelineID runID stage rest

/-- The effect of one event on the log of `stage`: `addLog` appends its line, the
assignment `Logs[stage] = v` replaces the log, any other event keeps it. -/
def logStep (pipelineID runID stage : String) (log : String) : Event → String
  | Event.addLog stage' status content =>
    if stage' = stage then log ++ logTmpl pipelineID runID stage status content else log
  | Event.Logs stage' v => if stage' = stage then v else log
  | _ => log

/-- The run behind `p` has the given identity and its log of `stage` is what the
events of the trace make of `log0`. -/
def logsTrack {σ : Type} (p : Ptr) (pipelineID runID stage log0 : String) (st : ExecState σ) :
    Prop :=
  (st.heap.mem p).PipelineID = pipelineID ∧ (st.heap.mem p).ID = runID ∧
    (st.heap.mem p).Logs.indexString stage =
      st.trace.foldl (logStep pipelineID runID stage) log0

/-- The stage of `pipeline` stored under the name `stage` passes validation, if
there is one of the kind that `execute` expects under that name. -/
def passesValidation (pipeline : Pipeline) (stage : String) : Prop :=
  (stage = StageRun →
      ∀ rs, pipeline.Stages.get? StageRun = some (Stage.run rs) → rs.Validate = none) ∧
    (stage = StageBuild →
      ∀ bs, pipeline.Stages.get? StageBuild = some (Stage.build bs) → bs.Validate = none) ∧
    (stage = StageDeploy →
      ∀ ds, pipeline.Stages.get? StageDeploy = some (Stage.deploy ds) → ds.Validate = none)

/-- A listed run that makes the run `runID` of pipeline `pipelineID` wait: another
run of that pipeline whose status is running. -/
def otherRunning (runID pipelineID : String) (run : PipelineRun) : Prop :=
  run.ID ≠ runID ∧ run.PipelineID = pipelineID ∧ run.Status = StatusRunning

/-! ## Workers running concurrently (`Start`, `worker`, `execute`)

The goroutines of `Start` take steps in some order.  A step of a worker is one
of the pieces of `execute` below, run without interruption; the pieces are cut
where `execute` calls the store to list the runs and where it assigns
`Status`.  Cancellation of the context is left out. -/

/-- Lines 165-213 of `execute`: the run stage and what follows it, from the state
`st0` in which `Status` has been set to running. -/
def executeRunStage {σ : Type} (S : Store σ) (inp : Inputs) (pipelineRun : Ptr)
    (pipeline : Pipeline) (st0 : ExecState σ) : ExecState σ × Completion :=
  -- the type assertion `pipeline.Stages[StageRun].(*RunStage)`
  match pipeline.Stages.get? StageRun with
  | some (Stage.run runStage) =>
    let res := runExecFuncConstructor st0.executor.failureRate st0.executor.delay
      inp.randRun { st0 with trace := st0.trace ++ [Event.stageExecutor StageRun] }
      pipelineRun runStage
    let st1 := { res.1 with trace := res.1.trace ++ [Event.stageReturn StageRun res.2] }
    match res.2 with
    | some _ =>
      let st2 := setUpdatedAt inp st1 pipelineRun
      if runStage.ContinueOnError = false then
        (updatePipelineRun S (setStatus st2 pipelineRun StatusFailed) pipelineRun,
          Completion.returned)
      else
        executeBuildStage S inp pipelineRun pipeline (persistStage S inp st2 pipelineRun)
    | none =>
      executeBuildStage S inp pipelineRun pipeline (persistStage S inp st1 pipelineRun)
  | _ => (st0, Completion.panicked)

/-- Where a worker goroutine stands between two of its steps. -/
inductive Location where
  /-- At the `select` of `worker` (line 95), waiting for a run. -/
  | idle
  /-- In `execute` before the `GetPipeline` call (line 119). -/
  | lookup (pipelineRun : Ptr)
  /-- In `execute` before a `ListPipelineRuns` call (line 132). -/
  | listing (pipelineRun : Ptr) (pipeline : Pipeline)
  /-- In `execute` before the assignment `Status = StatusRunning` (line 163). -/
  | start (pipelineRun : Ptr) (pipeline : Pipeline)
  /-- In `execute` before the run stage (line 166). -/
  | stages (pipelineRun : Ptr) (pipeline : Pipeline)
  /-- A type assertion of `execute` has panicked. -/
  | crashed

/-- The goroutines of `Start` and what they share: the memory, the executor with
its store and queue (in `state`), the channel `runChan` of capacity 1, the run
that the dispatcher has dequeued and not yet sent, and the place of every
worker. -/
structure System (σ : Type) where
  state : ExecState σ
  runChan : Option Ptr
  pending : Option Ptr
  workers : List Location

/-- A goroutine of `Start`: the event loop or one of the workers. -/
inductive Thread where
  | dispatcher
  | worker (i : Nat)
deriving DecidableEq, Repr

/-- The state in which `Start` has started `e.workers` workers. -/
def System.start {σ : Type} (h : Heap) (e : Executor σ) : System σ :=
  { state := { heap := h, executor := e, trace := [], clock := 0 }
    runChan := none
    pending := none
    workers := List.replicate e.workers.toNat Location.idle }

/-- One step of the event loop of `Start` (lines 66-88): the `Dequeue` call, or the
send of the dequeued run on `runChan`, which waits while the channel is full. -/
def dispatcherStep {σ : Type} (sys : System σ) : System σ :=
  match sys.pending with
  | some pipelineRun =>
    match sys.runChan with
    | none => { sys with runChan := some pipelineRun, pending := none }
    | some _ => sys
  | none =>
    match dispatch sys.state.heap sys.state.executor.queue with
    | (q, DispatchAction.handoff pipelineRun) =>
      { sys with
        state := { sys.state with executor := { sys.state.executor with queue := q } }
        pending := some pipelineRun }
    | (q, _) =>
      { sys with state := { sys.state with executor := { sys.state.executor with queue := q } } }

/-- One step of a worker at `loc`: the shared state after it and the worker's next
place.  An idle worker receives the run in `runChan` if there is one; a worker
in `execute` runs up to its next place. -/
def workerStep {σ : Type} (S : Store σ) (inp : Inputs) (sys : System σ) :
    Location → System σ × Location
  | Location.idle =>
    match sys.runChan with
    | some pipelineRun => ({ sys with runChan := none }, Location.lookup pipelineRun)
    | none => (sys, Location.idle)
  | Location.lookup pipelineRun =>
    -- get the pipeline definition from the store
    let got := S.GetPipeline sys.state.executor.Store (sys.state.heap.mem pipelineRun).PipelineID
    let st : ExecState σ :=
      { sys.state with
        executor := { sys.state.executor with Store := got.1 }
        trace := sys.state.trace ++
          [Event.GetPipeline (sys.state.heap.mem pipelineRun).PipelineID] }
    match got.2 with
    | .error err =>
      ({ sys with
          state := updatePipelineRun S
            (setStatus
              (addLog st pipelineRun StageRun StatusFailed
                ("error getting pipeline from store: " ++ err.Error))
              pipelineRun StatusFailed)
            pipelineRun },
        Location.idle)
    | .ok pipeline => ({ sys with state := st }, Location.listing pipelineRun pipeline)
  | Location.listing pipelineRun pipeline =>
    -- one round of the loop `for repeat`
    let listed := S.ListPipelineRuns sys.state.executor.Store sys.state.heap
    let st1 : ExecState σ :=
      { sys.state with
        executor := { sys.state.executor with Store := listed.1 }
        trace := sys.state.trace ++ [Event.ListPipelineRuns] }
    match fatalListingError listed.2.2 with
    | some err =>
      ({ sys with
          state := updatePipelineRun S
            (setStatus
              (addLog st1 pipelineRun StageRun StatusFailed
                ("error getting other pipeline runs from store: " ++ err.Error))
              pipelineRun StatusFailed)
            pipelineRun },
        Location.idle)
    | none =>
      match findRunning (st1.heap.mem pipelineRun).ID pipeline.ID listed.2.1 with
      | some run =>
        let st2 := addLog st1 pipelineRun StageRun StatusPending
          ("waiting for previous run " ++ run.ID ++ " to finish")
        ({ sys with state := { st2 with trace := st2.trace ++ [Event.Sleep (1 * Second)] } },
          Location.listing pipelineRun pipeline)
      | none => ({ sys with state := st1 }, Location.start pipelineRun pipeline)
  | Location.start pipelineRun pipeline =>
    ({ sys with state := setStatus sys.state pipelineRun StatusRunning },
      Location.stages pipelineRun pipeline)
  | Location.stages pipelineRun pipeline =>
    match executeRunStage S inp pipelineRun pipeline sys.state with
    | (st, Completion.returned) => ({ sys with state := st }, Location.idle)
    | (st, Completion.panicked) => ({ sys with state := st }, Location.crashed)
  | Location.crashed => (sys, Location.crashed)

/-- One step of the thread `t`; worker `i` draws its inputs from `inp i`.  A step of
a worker that does not exist changes nothing. -/
def System.step {σ : Type} (S : Store σ) (inp : Nat → Inputs) (sys : System σ) :
    Thread → System σ
  | Thread.dispatcher => dispatcherStep sys
  | Thread.worker i =>
    match sys.workers.get? i with
    | none => sys
    | some loc =>
      { (workerStep S (inp i) sys loc).1 with
        workers := sys.workers.set i (workerStep S (inp i) sys loc).2 }

/-- The steps of a schedule, from left to right. -/
def System.run {σ : Type} (S : Store σ) (inp : Nat → Inputs) (sys : System σ) :
    List Thread → System σ
  | [] => sys
  | t :: rest => System.run S inp (System.step S inp sys t) rest

/-- The statuses of the runs behind the given pointers. -/
def statusesAt {σ : Type} (sys : System σ) (runs : List Ptr) : List String :=
  runs.map (fun p => (sys.state.heap.mem p).Status)

/-- The log of a stage after its executor ran on a valid stage: the log of the
run `before` the call, then the "starting..." line, the parameter line and the
line of the outcome. -/
def stageLog (before : PipelineRun) (stage parameter outcomeStatus outcome : String) : String :=
  before.Logs.indexString stage ++
    logTmpl before.PipelineID before.ID stage StatusRunning "starting..." ++
    logTmpl before.PipelineID before.ID stage StatusRunning parameter ++
    logTmpl before.PipelineID before.ID stage outcomeStatus outcome

/-! ## Example requests -/

/-- A request with the three stages of the test pipeline. -/
def validRequest : http.PipelineRequest :=
  { Name := "Test Pipeline"
    Repository := "github.com/test/repo"
    Stages :=
      { RunStage := { Command := "go test ./...", ContinueOnErr := false }
        BuildStage := { DockerfilePath := "Dockerfile", ContinueOnErr := false }
        DeployStage :=
          { ClusterName := "test-cluster", ManifestPath := "k8s/", ContinueOnErr := false } } }

/-- The same request without a command for the run stage. -/
def emptyCommandRequest : http.PipelineRequest :=
  { validRequest with
    Stages := { validRequest.Stages with RunStage := { Command := "", ContinueOnErr := false } } }

/-! ## Example states for a run that waits -/

/-- Another run of the test pipeline, in status running. -/
def runningRun : PipelineRun :=
  { exampleRun "run-0" "test-pipeline" with Status := StatusRunning }

/-- A script for a run that waits once: the first listing shows the running run
of the same pipeline, the second shows it finished.  The pipeline is the one
whose run stage fails validation. -/
def waitingScript : Script :=
  { pipeline := .ok (runFailsPipeline false)
    listings :=
      [([runningRun], none), ([{ runningRun with Status := StatusSuccess }], none)]
    updates := [] }

/-- An executor over the scripted store with that script. -/
def waitingExecutor : Executor Script := NewExecutor waitingScript 2 5 2 0 10000000

/-- The state of `execute` on run 3 of `firstTrigger` right after `GetPipeline`. -/
def waitingState : ExecState Script :=
  { heap := firstTrigger.heap, executor := waitingExecutor,
    trace := [Event.GetPipeline "test-pipeline"], clock := 0 }

/-- The end of `execute` on run 3 of `firstTrigger` over the scripted store. -/
def waitingExecution : ExecState Script × Completion :=
  (execute scriptedStore exampleInputs 2 firstTrigger.heap waitingExecutor 3).getD
    ({ heap := firstTrigger.heap, executor := waitingExecutor, trace := [], clock := 0 },
      Completion.panicked)

/-- The same script with the test pipeline, whose stages pass validation. -/
def patientScript : Script := { waitingScript with pipeline := .ok testPipeline }

/-- An executor over the scripted store with that script. -/
def patientExecutor : Executor Script := NewExecutor patientScript 2 5 2 0 10000000

/-- The end of `execute` on run 3 of `firstTrigger` over that store. -/
def patientExecution : ExecState Script × Completion :=
  (execute scriptedStore exampleInputs 2 firstTrigger.heap patientExecutor 3).getD
    ({ heap := firstTrigger.heap, executor := patientExecutor, trace := [], clock := 0 },
      Completion.panicked)

/-- The pipeline whose run stage fails validation, stored without a deploy
stage. -/
def noDeployPipeline : Pipeline :=
  { runFailsPipeline false with Stages := (runFailsPipeline false).Stages.delete StageDeploy }

/-- The test pipeline stored without a deploy stage. -/
def testPipelineWithoutDeploy : Pipeline :=
  { testPipeline with Stages := testPipeline.Stages.delete StageDeploy }

/-! ## Example schedule for two workers -/

/-- A schedule for the executor of the test after two triggers of the test
pipeline (runs 3 and 4): the event loop hands run 3 to worker 0 and run 4 to
worker 1; both workers get the pipeline, both list the runs, and then both
assign the status running. -/
def raceSchedule : List Thread :=
  [Thread.dispatcher, Thread.dispatcher, Thread.worker 0, Thread.dispatcher, Thread.dispatcher,
    Thread.worker 1, Thread.worker 0, Thread.worker 1, Thread.worker 0, Thread.worker 1,
    Thread.worker 0, Thread.worker 1]

/-- The system after the first `n` steps of `raceSchedule`, started after the two
triggers. -/
def raceAfter (n : Nat) : System MemoryStore :=
  System.run memoryStore (fun _ => exampleInputs)
    (System.start secondTrigger.heap secondTrigger.executor) (raceSchedule.take n)

/-- The pipeline whose run stage fails validation and continues on error, stored
without a build stage. -/
def noBuildPipeline : Pipeline :=
  { runFailsPipeline true with Stages := (runFailsPipeline true).Stages.delete StageBuild }

/-! ## Facts about maps -/

theorem GoMap.lookup_filter_ne {β : Type} (l : List (String × β)) (k k' : String) :
    GoMap.lookup (l.filter (fun e => decide (e.1 ≠ k))) k' =
      if k' = k then none else GoMap.lookup l k' := by
  induction l with
  | nil => simp [GoMap.lookup]
  | cons e l ih =>
    obtain ⟨a, v⟩ := e
    simp only [ne_eq, decide_not] at ih ⊢
    by_cases hak : a = k
    · subst hak
      by_cases hk : k' = a
      · subst hk; simp [List.filter, GoMap.lookup, ih]
      · have hk2 : ¬ a = k' := fun e => hk e.symm
        simp [List.filter, GoMap.lookup, ih, hk, hk2]
    · by_cases hk : k' = k
      · subst hk
        simp [List.filter, GoMap.lookup, ih, hak]
      · by_cases hak2 : a = k'
        · subst hak2; simp [List.filter, GoMap.lookup, hak]
        · simp [List.filter, GoMap.lookup, ih, hak, hk, hak2]

theorem GoMap.get?_empty {β : Type} (k : String) : (GoMap.empty : GoMap β).get? k = none := rfl

theorem GoMap.get?_delete {β : Type} (m : GoMap β) (k k' : String) :
    (m.delete k).get? k' = if k' = k then none else m.get? k' := by
  simp only [GoMap.get?, GoMap.delete]
  exact GoMap.lookup_filter_ne m.entries k k'

theorem GoMap.get?_set {β : Type} (m : GoMap β) (k k' : String) (v : β) :
    (m.set k v).get? k' = if k' = k then some v else m.get? k' := by
  have hd := GoMap.get?_delete m k k'
  simp only [GoMap.get?] at hd
  by_cases hk : k' = k
  · subst hk; simp [GoMap.get?, GoMap.set, GoMap.lookup]
  · have hk2 : ¬ k = k' := fun e => hk e.symm
    simp [GoMap.get?, GoMap.set, GoMap.lookup, hk, hk2, hd]

theorem GoMap.index_set (m : GoMap Int) (k k' : String) (v : Int) :
    (m.set k v).index k' = if k' = k then v else m.index k' := by
  simp only [GoMap.index, GoMap.get?_set]
  split <;> rfl

theorem GoMap.index_delete (m : GoMap Int) (k k' : String) :
    (m.delete k).index k' = if k' = k then 0 else m.index k' := by
  simp only [GoMap.index, GoMap.get?_delete]
  split <;> rfl

/-! ## Facts about `Enqueue` and `Dequeue` -/

theorem Enqueue_full (h : Heap) (q : queue) (item : Ptr)
    (hfull : (q.queue.length : Int) ≥ q.queueSize) :
    Enqueue h q item = (q, some (Error.QueueFull q.queueSize)) := by
  simp [Enqueue, hfull]

theorem Enqueue_quota (h : Heap) (q : queue) (item : Ptr)
    (hroom : (q.queue.length : Int) < q.queueSize)
    (hquota : q.pipelineCounts.index (h.mem item).PipelineID ≥ q.maxQueuedPerPipeline) :
    Enqueue h q item =
      (q, some (Error.PipelineQuotaExceeded (h.mem item).PipelineID q.maxQueuedPerPipeline)) := by
  have h1 : ¬ (q.queue.length : Int) ≥ q.queueSize := not_le.mpr hroom
  simp only [Enqueue, if_neg h1, if_pos hquota]

theorem Enqueue_ok (h : Heap) (q : queue) (item : Ptr)
    (hroom : (q.queue.length : Int) < q.queueSize)
    (hquota : q.pipelineCounts.index (h.mem item).PipelineID < q.maxQueuedPerPipeline) :
    Enqueue h q item =
      ({ q with
          queue := q.queue ++ [item]
          pipelineCounts :=
            q.pipelineCounts.set (h.mem item).PipelineID
              (q.pipelineCounts.index (h.mem item).PipelineID + 1) },
        none) := by
  have h1 : ¬ (q.queue.length : Int) ≥ q.queueSize := not_le.mpr hroom
  have h2 : ¬ q.pipelineCounts.index (h.mem item).PipelineID ≥ q.maxQueuedPerPipeline :=
    not_le.mpr hquota
  simp only [Enqueue, if_neg h1, if_neg h2]

/-- The three cases of `Enqueue`. -/
theorem Enqueue_cases (h : Heap) (q : queue) (item : Ptr) :
    ((q.queue.length : Int) ≥ q.queueSize ∧
        Enqueue h q item = (q, some (Error.QueueFull q.queueSize))) ∨
    ((q.queue.length : Int) < q.queueSize ∧
        q.pipelineCounts.index (h.mem item).PipelineID ≥ q.maxQueuedPerPipeline ∧
        Enqueue h q item =
          (q, some (Error.PipelineQuotaExceeded (h.mem item).PipelineID
            q.maxQueuedPerPipeline))) ∨
    ((q.queue.length : Int) < q.queueSize ∧
        q.pipelineCounts.index (h.mem item).PipelineID < q.maxQueuedPerPipeline ∧
        Enqueue h q item =
          ({ q with
              queue := q.queue ++ [item]
              pipelineCounts :=
                q.pipelineCounts.set (h.mem item).PipelineID
                  (q.pipelineCounts.index (h.mem item).PipelineID + 1) },
            none)) := by
  by_cases h1 : (q.queue.length : Int) ≥ q.queueSize
  · exact Or.inl ⟨h1, Enqueue_full h q item h1⟩
  · have h1' := not_le.mp h1
    by_cases h2 : q.pipelineCounts.index (h.mem item).PipelineID ≥ q.maxQueuedPerPipeline
    · exact Or.inr (Or.inl ⟨h1', h2, Enqueue_quota h q item h1' h2⟩)
    · exact Or.inr (Or.inr ⟨h1', not_le.mp h2, Enqueue_ok h q item h1' (not_le.mp h2)⟩)

theorem Dequeue_nil (h : Heap) (q : queue) (hq : q.queue = []) :
    Dequeue h q = (q, .error Error.ErrQueueEmpty) := by
  simp [Dequeue, hq]

theorem Dequeue_cons (h : Heap) (q : queue) (element : Ptr) (rest : List Ptr)
    (hq : q.queue = element :: rest) :
    Dequeue h q =
      ({ q with
          queue := rest
          pipelineCounts :=
            if ((q.pipelineCounts.set (h.mem element).PipelineID
                  (q.pipelineCounts.index (h.mem element).PipelineID - 1)).index
                (h.mem element).PipelineID) = 0
            then (q.pipelineCounts.set (h.mem element).PipelineID
                  (q.pipelineCounts.index (h.mem element).PipelineID - 1)).delete
                (h.mem element).PipelineID
            else q.pipelineCounts.set (h.mem element).PipelineID
                  (q.pipelineCounts.index (h.mem element).PipelineID - 1) },
        .ok element) := by
  simp [Dequeue, hq]

theorem Enqueue_queueSize (h : Heap) (q : queue) (item : Ptr) :
    (Enqueue h q item).1.queueSize = q.queueSize ∧
      (Enqueue h q item).1.maxQueuedPerPipeline = q.maxQueuedPerPipeline := by
  rcases Enqueue_cases h q item with ⟨_, e⟩ | ⟨_, _, e⟩ | ⟨_, _, e⟩ <;> rw [e] <;> exact ⟨rfl, rfl⟩

theorem Dequeue_queueSize (h : Heap) (q : queue) :
    (Dequeue h q).1.queueSize = q.queueSize ∧
      (Dequeue h q).1.maxQueuedPerPipeline = q.maxQueuedPerPipeline := by
  cases hq : q.queue with
  | nil => rw [Dequeue_nil h q hq]; exact ⟨rfl, rfl⟩
  | cons element rest => rw [Dequeue_cons h q element rest hq]; exact ⟨rfl, rfl⟩

theorem step_queueSize (h : Heap) (q : queue) (op : Op) :
    (step h q op).1.queueSize = q.queueSize ∧
      (step h q op).1.maxQueuedPerPipeline = q.maxQueuedPerPipeline := by
  cases op with
  | enqueue item => exact Enqueue_queueSize h q item
  | dequeue => exact Dequeue_queueSize h q

theorem runOps_queueSize (h : Heap) (ops : List Op) (q : queue) :
    (runOps h q ops).1.queueSize = q.queueSize ∧
      (runOps h q ops).1.maxQueuedPerPipeline = q.maxQueuedPerPipeline := by
  induction ops generalizing q with
  | nil => exact ⟨rfl, rfl⟩
  | cons op ops ih =>
    have h1 := ih (step h q op).1
    have h2 := step_queueSize h q op
    simp only [runOps]
    exact ⟨h1.1.trans h2.1, h1.2.trans h2.2⟩

/-! ## The counts invariant -/

theorem countsMatch_index (h : Heap) (q : queue) (hc : countsMatch h q) (p : String) :
    q.pipelineCounts.index p = (queuedFor h q p : Int) := by
  unfold GoMap.index
  rw [hc p]
  by_cases h0 : queuedFor h q p = 0
  · simp [h0]
  · simp [h0]

theorem countsMatch_newQueue (h : Heap) (n m : Int) : countsMatch h (newQueue n m) := by
  intro p
  simp [newQueue, queuedFor, GoMap.get?_empty]

theorem countsMatch_Enqueue (h : Heap) (q : queue) (item : Ptr) (hc : countsMatch h q) :
    countsMatch h (Enqueue h q item).1 := by
  rcases Enqueue_cases h q item with ⟨_, e⟩ | ⟨_, _, e⟩ | ⟨_, _, e⟩
  · rw [e]; exact hc
  · rw [e]; exact hc
  · rw [e]
    intro p
    have hi := countsMatch_index h q hc (h.mem item).PipelineID
    have hp := hc p
    simp only [queuedFor] at hi hp ⊢
    simp only [GoMap.get?_set, List.filter_append, List.length_append]
    by_cases hpp : p = (h.mem item).PipelineID
    · subst hpp
      simp [List.filter, hi]
    · have hpp2 : ¬ (h.mem item).PipelineID = p := fun e => hpp e.symm
      simp [List.filter, hpp, hpp2, hp]

theorem countsMatch_Dequeue (h : Heap) (q : queue) (hc : countsMatch h q) :
    countsMatch h (Dequeue h q).1 := by
  cases hq : q.queue with
  | nil => rw [Dequeue_nil h q hq]; exact hc
  | cons element rest =>
    rw [Dequeue_cons h q element rest hq]
    intro p
    have hi := countsMatch_index h q hc (h.mem element).PipelineID
    have hp := hc p
    simp only [queuedFor, hq] at hi hp ⊢
    simp only [GoMap.index_set, if_true] at *
    by_cases hpp : p = (h.mem element).PipelineID
    · subst hpp
      simp only [List.filter_cons, decide_True, if_true, List.length_cons] at hi
      rw [hi]
      by_cases h0 : (List.filter (fun item => decide ((h.mem item).PipelineID =
          (h.mem element).PipelineID)) rest).length = 0
      · simp [h0, GoMap.get?_delete]
      · have h0' : ¬ ((List.filter (fun item => decide ((h.mem item).PipelineID =
          (h.mem element).PipelineID)) rest).length : Int) = 0 := by
          exact_mod_cast h0
        simp [h0, h0', GoMap.get?_set]
    · have hpp2 : ¬ (h.mem element).PipelineID = p := fun e => hpp e.symm
      simp only [List.filter_cons, hpp2, decide_False, if_false] at hp
      split
      · simp [GoMap.get?_delete, GoMap.get?_set, hpp, hp]
      · simp [GoMap.get?_set, hpp, hp]

theorem countsMatch_step (h : Heap) (q : queue) (op : Op) (hc : countsMatch h q) :
    countsMatch h (step h q op).1 := by
  cases op with
  | enqueue item => exact countsMatch_Enqueue h q item hc
  | dequeue => exact countsMatch_Dequeue h q hc

/-- The counts invariant holds after every call sequence. -/
theorem countsMatch_runOps (h : Heap) (ops : List Op) (q : queue) (hc : countsMatch h q) :
    countsMatch h (runOps h q ops).1 := by
  induction ops generalizing q with
  | nil => exact hc
  | cons op ops ih => exact ih (step h q op).1 (countsMatch_step h q op hc)

/-! ## Order of the queue -/

/-- Runs enter at the back and leave at the front: the queue before the calls
followed by the admitted runs is the returned runs followed by the queue after
the calls. -/
theorem runOps_fifo (h : Heap) (ops : List Op) (q : queue) :
    q.queue ++ enqueuedRuns (runOps h q ops).2 =
      dequeuedRuns (runOps h q ops).2 ++ (runOps h q ops).1.queue := by
  induction ops generalizing q with
  | nil => simp [runOps, enqueuedRuns, dequeuedRuns]
  | cons op ops ih =>
    have ih1 := ih (step h q op).1
    cases op with
    | enqueue item =>
      rcases Enqueue_cases h q item with ⟨_, e⟩ | ⟨_, _, e⟩ | ⟨_, _, e⟩
      · simp only [runOps, step, e, enqueuedRuns, dequeuedRuns] at ih1 ⊢
        exact ih1
      · simp only [runOps, step, e, enqueuedRuns, dequeuedRuns] at ih1 ⊢
        exact ih1
      · simp only [runOps, step, e, enqueuedRuns, dequeuedRuns] at ih1 ⊢
        rw [← ih1]
        simp
    | dequeue =>
      cases hq : q.queue with
      | nil =>
        have e := Dequeue_nil h q hq
        simp only [runOps, step, e, enqueuedRuns, dequeuedRuns] at ih1 ⊢
        rw [← hq]
        exact ih1
      | cons element rest =>
        have e := Dequeue_cons h q element rest hq
        simp only [runOps, step, e, enqueuedRuns, dequeuedRuns] at ih1 ⊢
        rw [List.cons_append, ih1]
        rfl

theorem dequeuedRuns_enqueues (h : Heap) (items : List Ptr) (q : queue) :
    dequeuedRuns (runOps h q (items.map Op.enqueue)).2 = [] := by
  induction items generalizing q with
  | nil => rfl
  | cons x xs ih =>
    simp only [List.map_cons, runOps, step, dequeuedRuns]
    exact ih _

/-- Dequeuing as often as there are queued runs returns the queue front to back. -/
theorem runOps_drain (h : Heap) (l : List Ptr) (q : queue) (hq : q.queue = l) :
    (runOps h q (List.replicate l.length Op.dequeue)).2 =
      l.map (fun x => Outcome.dequeue (.ok x)) := by
  induction l generalizing q with
  | nil => rfl
  | cons x xs ih =>
    have e := Dequeue_cons h q x xs hq
    simp only [List.length_cons, List.replicate_succ, runOps, step, e, List.map_cons]
    rw [ih _ rfl]

/-- Runs of one pipeline are all admitted while both limits leave room. -/
theorem runOps_enqueues_ok (h : Heap) (pid : String) (items : List Ptr) (q : queue)
    (hc : countsMatch h q)
    (hpid : ∀ x ∈ items, (h.mem x).PipelineID = pid)
    (hroom : (q.queue.length : Int) + items.length ≤ q.queueSize)
    (hquota : (queuedFor h q pid : Int) + items.length ≤ q.maxQueuedPerPipeline) :
    (runOps h q (items.map Op.enqueue)).2 = items.map (fun x => Outcome.enqueue x none) ∧
      (runOps h q (items.map Op.enqueue)).1.queue = q.queue ++ items := by
  induction items generalizing q with
  | nil => simp [runOps]
  | cons x xs ih =>
    have hx : (h.mem x).PipelineID = pid := hpid x (List.mem_cons_self x xs)
    have hi := countsMatch_index h q hc pid
    simp only [List.length_cons, Nat.cast_add, Nat.cast_one] at hroom hquota
    have h1 : (q.queue.length : Int) < q.queueSize := by omega
    have h2 : q.pipelineCounts.index (h.mem x).PipelineID < q.maxQueuedPerPipeline := by
      rw [hx, hi]; omega
    have e := Enqueue_ok h q x h1 h2
    have hc1 := countsMatch_Enqueue h q x hc
    rw [e] at hc1
    have hq1 : queuedFor h { q with
          queue := q.queue ++ [x]
          pipelineCounts :=
            q.pipelineCounts.set (h.mem x).PipelineID
              (q.pipelineCounts.index (h.mem x).PipelineID + 1) } pid =
        queuedFor h q pid + 1 := by
      simp [queuedFor, List.filter_append, List.filter, hx]
    have ih1 := ih _ hc1 (fun y hy => hpid y (List.mem_cons_of_mem x hy))
      (by simp only [List.length_append, List.length_singleton, Nat.cast_add, Nat.cast_one]
          omega)
      (by rw [hq1]; push_cast; omega)
    simp only [List.map_cons, runOps, step, e]
    refine ⟨?_, ?_⟩
    · rw [ih1.1]
    · rw [ih1.2]; simp

/-! ## The two limits -/

theorem withinLimits_Enqueue (h : Heap) (q : queue) (item : Ptr) (hw : withinLimits q) :
    withinLimits (Enqueue h q item).1 := by
  rcases Enqueue_cases h q item with ⟨_, e⟩ | ⟨_, _, e⟩ | ⟨h1, h2, e⟩
  · rw [e]; exact hw
  · rw [e]; exact hw
  · rw [e]
    refine ⟨?_, ?_⟩
    · simp only [List.length_append, List.length_singleton, Nat.cast_add, Nat.cast_one]
      omega
    · intro p
      simp only [GoMap.index_set]
      split
      · omega
      · exact hw.2 p

theorem withinLimits_Dequeue (h : Heap) (q : queue) (hw : withinLimits q) :
    withinLimits (Dequeue h q).1 := by
  cases hq : q.queue with
  | nil => rw [Dequeue_nil h q hq]; exact hw
  | cons element rest =>
    rw [Dequeue_cons h q element rest hq]
    have hlen := hw.1
    rw [hq] at hlen
    simp only [List.length_cons, Nat.cast_add, Nat.cast_one] at hlen
    refine ⟨?_, ?_⟩
    · show (rest.length : Int) ≤ q.queueSize
      omega
    · intro p
      have hp := hw.2 p
      have hpid := hw.2 (h.mem element).PipelineID
      show GoMap.index (if _ then _ else _) p ≤ q.maxQueuedPerPipeline
      simp only [GoMap.index_set, if_true]
      split
      · rename_i h0
        simp only [GoMap.index_delete, GoMap.index_set]
        split
        · omega
        · exact hp
      · simp only [GoMap.index_set]
        split
        · omega
        · exact hp

theorem withinLimits_runOps (h : Heap) (ops : List Op) (q : queue) (hw : withinLimits q) :
    withinLimits (runOps h q ops).1 := by
  induction ops generalizing q with
  | nil => exact hw
  | cons op ops ih =>
    apply ih
    cases op with
    | enqueue item => exact withinLimits_Enqueue h q item hw
    | dequeue => exact withinLimits_Dequeue h q hw

theorem GoMap.index_of_get? (m : GoMap Int) (k : String) (c : Int) (hk : m.get? k = some c) :
    m.index k = c := by
  simp [GoMap.index, hk]

/-! ## Claims on the queue -/

/-- C1: on a queue made by `newQueue N M`, after a sequence of `Enqueue` calls (no
`Dequeue`) of which `N` returned no error, the next `Enqueue` returns the
`QueueFull` error and leaves the queue as it is, whatever the `PipelineID`s of
the queued runs and of the new run are. -/
theorem Enqueue_full_after_queueSize_admitted (h : Heap) (N M : Int) (items : List Ptr)
    (next : Ptr)
    (hN : ((enqueuedRuns (runOps h (newQueue N M) (items.map Op.enqueue)).2).length : Int)
      = N) :
    Enqueue h (runOps h (newQueue N M) (items.map Op.enqueue)).1 next =
      ((runOps h (newQueue N M) (items.map Op.enqueue)).1, some (Error.QueueFull N)) := by
  have hf := runOps_fifo h (items.map Op.enqueue) (newQueue N M)
  rw [dequeuedRuns_enqueues] at hf
  have hs := (runOps_queueSize h (items.map Op.enqueue) (newQueue N M)).1
  have hs' : (runOps h (newQueue N M) (items.map Op.enqueue)).1.queueSize = N := hs
  have hf' : enqueuedRuns (runOps h (newQueue N M) (items.map Op.enqueue)).2 =
      (runOps h (newQueue N M) (items.map Op.enqueue)).1.queue := hf
  have hlen : ((runOps h (newQueue N M) (items.map Op.enqueue)).1.queue.length : Int) = N := by
    rw [← hf']
    exact hN
  have hfull := Enqueue_full h (runOps h (newQueue N M) (items.map Op.enqueue)).1 next
    (by rw [hs', hlen])
  rw [hfull, hs']

/-- The test "queue size limit": a queue of size 2 holding runs of two pipelines
rejects the run of a third pipeline with `QueueFull`. -/
theorem Enqueue_full_after_queueSize_admitted_witness :
    ((enqueuedRuns
        (runOps threePipelinesHeap (newQueue 2 2) ([0, 1].map Op.enqueue)).2).length : Int) = 2 ∧
      Enqueue threePipelinesHeap
          (runOps threePipelinesHeap (newQueue 2 2) ([0, 1].map Op.enqueue)).1 2 =
        ((runOps threePipelinesHeap (newQueue 2 2) ([0, 1].map Op.enqueue)).1,
          some (Error.QueueFull 2)) :=
  ⟨by decide, Enqueue_full_after_queueSize_admitted threePipelinesHeap 2 2 [0, 1] 2 (by decide)⟩

/-- C2: on a new queue with per-pipeline quota `M` and queue size `N > M`, `M`
consecutive `Enqueue` calls for runs of one pipeline all return no error, the
next `Enqueue` for that pipeline returns the `PipelineQuotaExceeded` error, and
the queue then holds `M` runs, fewer than `N`. -/
theorem Enqueue_quota_after_M_of_one_pipeline (h : Heap) (N : Int) (M : Nat) (pid : String)
    (items : List Ptr) (next : Ptr)
    (hNM : (M : Int) < N) (hlen : items.length = M)
    (hpid : ∀ x ∈ items, (h.mem x).PipelineID = pid)
    (hnext : (h.mem next).PipelineID = pid) :
    (runOps h (newQueue N M) (items.map Op.enqueue)).2 =
        items.map (fun x => Outcome.enqueue x none) ∧
      Enqueue h (runOps h (newQueue N M) (items.map Op.enqueue)).1 next =
        ((runOps h (newQueue N M) (items.map Op.enqueue)).1,
          some (Error.PipelineQuotaExceeded pid M)) ∧
      ((runOps h (newQueue N M) (items.map Op.enqueue)).1.queue.length : Int) = M ∧
      ((runOps h (newQueue N M) (items.map Op.enqueue)).1.queue.length : Int) < N := by
  have hok := runOps_enqueues_ok h pid items (newQueue N M) (countsMatch_newQueue h N M) hpid
    (by simp only [newQueue, List.length_nil]; omega)
    (by simp only [newQueue, queuedFor, List.filter_nil, List.length_nil]; omega)
  have hsz := runOps_queueSize h (items.map Op.enqueue) (newQueue N M)
  have hc := countsMatch_runOps h (items.map Op.enqueue) (newQueue N M)
    (countsMatch_newQueue h N M)
  have hq : (runOps h (newQueue N M) (items.map Op.enqueue)).1.queue = items := by
    rw [hok.2]; rfl
  have hl : ((runOps h (newQueue N M) (items.map Op.enqueue)).1.queue.length : Int) = M := by
    rw [hq, hlen]
  have hcount : queuedFor h (runOps h (newQueue N M) (items.map Op.enqueue)).1 pid = M := by
    unfold queuedFor
    rw [hq, List.filter_eq_self.mpr, hlen]
    intro x hx
    simp [hpid x hx]
  have hi := countsMatch_index h _ hc pid
  rw [hcount] at hi
  refine ⟨hok.1, ?_, hl, by rw [hl]; exact hNM⟩
  have e := Enqueue_quota h (runOps h (newQueue N M) (items.map Op.enqueue)).1 next
    (by rw [hl, hsz.1]; exact hNM)
    (by rw [hnext, hi, hsz.2]; exact le_refl _)
  rw [e, hnext, hsz.2]
  rfl

/-- The test "per-pipeline limit": with queue size 10 and quota 2, the third run
of `pipeline1` is rejected with `PipelineQuotaExceeded`. -/
theorem Enqueue_quota_after_M_of_one_pipeline_witness :
    ((2 : Nat) : Int) < 10 ∧ ([0, 1] : List Ptr).length = 2 ∧
      (∀ x ∈ ([0, 1] : List Ptr), (onePipelineHeap.mem x).PipelineID = "pipeline1") ∧
      (onePipelineHeap.mem 2).PipelineID = "pipeline1" ∧
      Enqueue onePipelineHeap
          (runOps onePipelineHeap (newQueue 10 (2 : Nat)) ([0, 1].map Op.enqueue)).1 2 =
        ((runOps onePipelineHeap (newQueue 10 (2 : Nat)) ([0, 1].map Op.enqueue)).1,
          some (Error.PipelineQuotaExceeded "pipeline1" (2 : Nat))) :=
  ⟨by decide, rfl, fun _ _ => rfl, rfl,
    (Enqueue_quota_after_M_of_one_pipeline onePipelineHeap 10 2 "pipeline1" [0, 1] 2
      (by decide) rfl (fun _ _ => rfl) rfl).2.1⟩

/-- C3: on a new queue, after any sequence of `Enqueue` and `Dequeue` calls, the
admitted runs in admission order are the returned runs in return order followed
by the queue; the next `Dequeue` returns the oldest admitted run not yet
returned (`ErrQueueEmpty` when there is none); and dequeuing all remaining runs
returns them in admission order. -/
theorem Dequeue_is_fifo (h : Heap) (N M : Int) (ops : List Op) :
    enqueuedRuns (runOps h (newQueue N M) ops).2 =
        dequeuedRuns (runOps h (newQueue N M) ops).2 ++ (runOps h (newQueue N M) ops).1.queue ∧
      (Dequeue h (runOps h (newQueue N M) ops).1).2 =
        (match (enqueuedRuns (runOps h (newQueue N M) ops).2).drop
            (dequeuedRuns (runOps h (newQueue N M) ops).2).length with
          | [] => .error Error.ErrQueueEmpty
          | oldest :: _ => .ok oldest) ∧
      (runOps h (runOps h (newQueue N M) ops).1
          (List.replicate
            ((enqueuedRuns (runOps h (newQueue N M) ops).2).length -
              (dequeuedRuns (runOps h (newQueue N M) ops).2).length) Op.dequeue)).2 =
        ((enqueuedRuns (runOps h (newQueue N M) ops).2).drop
          (dequeuedRuns (runOps h (newQueue N M) ops).2).length).map
            (fun x => Outcome.dequeue (.ok x)) := by
  have hf : enqueuedRuns (runOps h (newQueue N M) ops).2 =
      dequeuedRuns (runOps h (newQueue N M) ops).2 ++ (runOps h (newQueue N M) ops).1.queue :=
    runOps_fifo h ops (newQueue N M)
  have hd : (enqueuedRuns (runOps h (newQueue N M) ops).2).drop
      (dequeuedRuns (runOps h (newQueue N M) ops).2).length =
      (runOps h (newQueue N M) ops).1.queue := by
    rw [hf]; exact List.drop_left _ _
  have hl : (enqueuedRuns (runOps h (newQueue N M) ops).2).length -
      (dequeuedRuns (runOps h (newQueue N M) ops).2).length =
      (runOps h (newQueue N M) ops).1.queue.length := by
    rw [hf, List.length_append]; omega
  refine ⟨hf, ?_, ?_⟩
  · rw [hd]
    cases hq : (runOps h (newQueue N M) ops).1.queue with
    | nil => rw [Dequeue_nil h _ hq]
    | cons element rest => rw [Dequeue_cons h _ element rest hq]
  · rw [hd, hl]
    exact runOps_drain h _ _ rfl

/-- C4: `Enqueue` refines the reference definition: seen through the view (sequence
and per-pipeline counts) it returns what `EnqueueReference` returns and moves to
the state `EnqueueReference` moves to; the two limits never change; and a failing
`Enqueue` leaves the whole queue state as it was. -/
theorem Enqueue_refines_reference (h : Heap) (q : queue) (item : Ptr) :
    (viewOf (Enqueue h q item).1, (Enqueue h q item).2) =
        EnqueueReference q.queueSize q.maxQueuedPerPipeline (h.mem item).PipelineID item (viewOf q) ∧
      (Enqueue h q item).1.queueSize = q.queueSize ∧
      (Enqueue h q item).1.maxQueuedPerPipeline = q.maxQueuedPerPipeline ∧
      ((Enqueue h q item).2 ≠ none → (Enqueue h q item).1 = q) := by
  refine ⟨?_, (Enqueue_queueSize h q item).1, (Enqueue_queueSize h q item).2, ?_⟩
  · rcases Enqueue_cases h q item with ⟨h1, e⟩ | ⟨h1, h2, e⟩ | ⟨h1, h2, e⟩
    · have h1' : q.queueSize ≤ ((viewOf q).runs.length : Int) := h1
      rw [e]
      simp only [EnqueueReference, if_pos h1']
    · have h1' : ¬ q.queueSize ≤ ((viewOf q).runs.length : Int) := not_le.mpr h1
      have h2' : q.maxQueuedPerPipeline ≤ (viewOf q).queuedCount (h.mem item).PipelineID := h2
      rw [e]
      simp only [EnqueueReference, if_neg h1', if_pos h2']
    · have h1' : ¬ q.queueSize ≤ ((viewOf q).runs.length : Int) := not_le.mpr h1
      have h2' : ¬ q.maxQueuedPerPipeline ≤ (viewOf q).queuedCount (h.mem item).PipelineID :=
        not_le.mpr h2
      rw [e]
      simp only [EnqueueReference, if_neg h1', if_neg h2']
      refine Prod.ext ?_ rfl
      show viewOf _ = _
      simp only [viewOf]
      congr 1
      funext p
      rw [GoMap.index_set]
      by_cases hp : p = (h.mem item).PipelineID
      · subst hp; simp
      · simp [Function.update, hp]
  · intro hne
    rcases Enqueue_cases h q item with ⟨_, e⟩ | ⟨_, _, e⟩ | ⟨_, _, e⟩
    · rw [e]
    · rw [e]
    · rw [e] at hne; exact absurd rfl hne

/-- A full queue of size 0 rejects a run and stays as it is. -/
theorem Enqueue_refines_reference_witness :
    (Enqueue threePipelinesHeap (newQueue 0 2) 0).2 ≠ none ∧
      (Enqueue threePipelinesHeap (newQueue 0 2) 0).1 = newQueue 0 2 :=
  ⟨by decide,
    (Enqueue_refines_reference threePipelinesHeap (newQueue 0 2) 0).2.2.2 (by decide)⟩

/-- C5: on a queue made by `newQueue N M` with `0 ≤ N` and `0 ≤ M`, after every
sequence of `Enqueue` and `Dequeue` calls the queue holds at most `N` runs, the
count read for any pipeline is at most `M`, and so is every entry of
`pipelineCounts`. -/
theorem limits_hold_in_every_reached_state (h : Heap) (N M : Int) (ops : List Op)
    (hN : 0 ≤ N) (hM : 0 ≤ M) :
    ((runOps h (newQueue N M) ops).1.queue.length : Int) ≤ N ∧
      (∀ p : String, (runOps h (newQueue N M) ops).1.pipelineCounts.index p ≤ M) ∧
      (∀ (p : String) (c : Int),
        (runOps h (newQueue N M) ops).1.pipelineCounts.get? p = some c → c ≤ M) := by
  have h0 : withinLimits (newQueue N M) := by
    refine ⟨?_, ?_⟩
    · simpa [newQueue] using hN
    · intro p
      simpa [newQueue, GoMap.index, GoMap.get?_empty] using hM
  have hw := withinLimits_runOps h ops (newQueue N M) h0
  have hs := runOps_queueSize h ops (newQueue N M)
  have hs1 : (runOps h (newQueue N M) ops).1.queueSize = N := hs.1
  have hs2 : (runOps h (newQueue N M) ops).1.maxQueuedPerPipeline = M := hs.2
  refine ⟨?_, ?_, ?_⟩
  · exact le_trans hw.1 (le_of_eq hs1)
  · intro p; exact le_trans (hw.2 p) (le_of_eq hs2)
  · intro p c hc
    rw [← GoMap.index_of_get? _ p c hc]
    exact le_trans (hw.2 p) (le_of_eq hs2)

/-- Three admissions attempted on a queue of size 2, then one `Dequeue`. -/
theorem limits_hold_in_every_reached_state_witness :
    (0 : Int) ≤ 2 ∧
      ((runOps threePipelinesHeap (newQueue 2 2)
        [Op.enqueue 0, Op.enqueue 1, Op.enqueue 2, Op.dequeue]).1.queue.length : Int) ≤ 2 :=
  ⟨by decide,
    (limits_hold_in_every_reached_state threePipelinesHeap 2 2
      [Op.enqueue 0, Op.enqueue 1, Op.enqueue 2, Op.dequeue] (by decide) (by decide)).1⟩

/-- C6: in every queue state `Dequeue` returns an error exactly when no run is
queued; the error is then `ErrQueueEmpty` and the state is unchanged; and the
iteration of the event loop of `Start` never takes the panic branch. -/
theorem Dequeue_fails_only_when_empty (h : Heap) (q : queue) :
    ((∃ err, (Dequeue h q).2 = .error err) ↔ q.queue = []) ∧
      (∀ err, (Dequeue h q).2 = .error err → err = Error.ErrQueueEmpty ∧ (Dequeue h q).1 = q) ∧
      (∀ err, (dispatch h q).2 ≠ DispatchAction.fatal err) := by
  cases hq : q.queue with
  | nil =>
    have e := Dequeue_nil h q hq
    refine ⟨?_, ?_, ?_⟩
    · rw [e]; exact ⟨fun _ => rfl, fun _ => ⟨_, rfl⟩⟩
    · intro err herr
      rw [e] at herr ⊢
      cases herr
      exact ⟨rfl, rfl⟩
    · intro err
      simp [dispatch, e]
  | cons element rest =>
    have e := Dequeue_cons h q element rest hq
    refine ⟨?_, ?_, ?_⟩
    · rw [e]
      constructor
      · rintro ⟨err, herr⟩; cases herr
      · intro hc; cases hc
    · intro err herr
      rw [e] at herr
      cases herr
    · intro err
      simp [dispatch, e]

/-- The test "dequeue from empty queue". -/
theorem Dequeue_fails_only_when_empty_witness :
    (Dequeue threePipelinesHeap (newQueue 5 2)).2 = .error Error.ErrQueueEmpty ∧
      (Dequeue threePipelinesHeap (newQueue 5 2)).1 = newQueue 5 2 :=
  ⟨rfl,
    ((Dequeue_fails_only_when_empty threePipelinesHeap (newQueue 5 2)).2.1
      Error.ErrQueueEmpty rfl).2⟩

/-- C7: on a new queue, after any sequence of `Enqueue` and `Dequeue` calls no key
of `pipelineCounts` maps to zero; and when the next `Dequeue` returns a run and
no run of that run's pipeline is left in the queue, the pipeline has no entry in
`pipelineCounts`. -/
theorem pipelineCounts_has_no_zero_entry (h : Heap) (N M : Int) (ops : List Op) :
    (∀ p : String, (runOps h (newQueue N M) ops).1.pipelineCounts.get? p ≠ some 0) ∧
      (∀ (q' : queue) (item : Ptr),
        Dequeue h (runOps h (newQueue N M) ops).1 = (q', .ok item) →
        (∀ x ∈ q'.queue, (h.mem x).PipelineID ≠ (h.mem item).PipelineID) →
        q'.pipelineCounts.get? (h.mem item).PipelineID = none) := by
  have hc := countsMatch_runOps h ops (newQueue N M) (countsMatch_newQueue h N M)
  refine ⟨?_, ?_⟩
  · intro p
    rw [hc p]
    split
    · simp
    · rename_i hne
      intro hz
      apply hne
      exact_mod_cast Option.some.inj hz
  · intro q' item hd hnone
    have hc' := countsMatch_Dequeue h _ hc
    rw [hd] at hc'
    rw [hc' (h.mem item).PipelineID]
    have hz : queuedFor h q' (h.mem item).PipelineID = 0 := by
      unfold queuedFor
      rw [List.length_eq_zero, List.filter_eq_nil_iff]
      intro x hx
      simpa using hnone x hx
    simp [hz]

/-- The test "pipeline count cleanup": after `Enqueue` and `Dequeue` of one run of
`pipeline1`, the key `pipeline1` is absent. -/
theorem pipelineCounts_has_no_zero_entry_witness :
    (Dequeue threePipelinesHeap
        (runOps threePipelinesHeap (newQueue 5 2) [Op.enqueue 0]).1).2 = .ok 0 ∧
      (Dequeue threePipelinesHeap
        (runOps threePipelinesHeap (newQueue 5 2) [Op.enqueue 0]).1).1.pipelineCounts.get?
          "pipeline1" = none :=
  ⟨rfl,
    (pipelineCounts_has_no_zero_entry threePipelinesHeap 5 2 [Op.enqueue 0]).2
      (Dequeue threePipelinesHeap
        (runOps threePipelinesHeap (newQueue 5 2) [Op.enqueue 0]).1).1 0 rfl
      (fun _ hx => absurd hx (List.not_mem_nil _))⟩

/-! ## Claims on `TriggerPipeline` -/

theorem NewPipelineRun_mem (h : Heap) (uuid : String) (now : Nat) (pipelineID gitRef : String) :
    (NewPipelineRun h uuid now pipelineID gitRef).1.mem
        (NewPipelineRun h uuid now pipelineID gitRef).2 =
      { ID := uuid
        PipelineID := pipelineID
        GitRef := gitRef
        RunStatus := StatusPending
        BuildStatus := StatusPending
        DeployStatus := StatusPending
        Status := StatusPending
        CreatedAt := now
        UpdatedAt := now
        Logs := GoMap.empty } := by
  simp [NewPipelineRun, Heap.alloc]

theorem MemoryStore.CreatePipelineRun_ok (s : MemoryStore) (h : Heap) (pipelineRun : Ptr)
    (hok : (s.CreatePipelineRun h pipelineRun).2 = none) :
    s.CreatePipelineRun h pipelineRun =
      ({ s with pipelineRuns := s.pipelineRuns.set (h.mem pipelineRun).ID pipelineRun }, none) := by
  unfold MemoryStore.CreatePipelineRun at hok ⊢
  cases hget : s.pipelineRuns.get? (h.mem pipelineRun).ID with
  | some x => rw [hget] at hok; cases hok
  | none => rfl

theorem Enqueue_ok_of_none (h : Heap) (q : queue) (item : Ptr)
    (hok : (Enqueue h q item).2 = none) :
    Enqueue h q item =
      ({ q with
          queue := q.queue ++ [item]
          pipelineCounts :=
            q.pipelineCounts.set (h.mem item).PipelineID
              (q.pipelineCounts.index (h.mem item).PipelineID + 1) },
        none) := by
  rcases Enqueue_cases h q item with ⟨_, e⟩ | ⟨_, _, e⟩ | ⟨_, _, e⟩
  · rw [e] at hok; cases hok
  · rw [e] at hok; cases hok
  · exact e

theorem Enqueue_unchanged_of_some (h : Heap) (q : queue) (item : Ptr) (err : Error)
    (herr : (Enqueue h q item).2 = some err) :
    Enqueue h q item = (q, some err) ∧
      (err = Error.QueueFull q.queueSize ∨
        err = Error.PipelineQuotaExceeded (h.mem item).PipelineID q.maxQueuedPerPipeline) := by
  rcases Enqueue_cases h q item with ⟨_, e⟩ | ⟨_, _, e⟩ | ⟨_, _, e⟩
  · rw [e] at herr ⊢
    cases herr
    exact ⟨rfl, Or.inl rfl⟩
  · rw [e] at herr ⊢
    cases herr
    exact ⟨rfl, Or.inr rfl⟩
  · rw [e] at herr; cases herr

/-- C8: with the memory store, when `CreatePipelineRun` accepts the new run and
`Enqueue` admits it, `TriggerPipeline` returns no error and a run whose
`PipelineID` is `pipeline.ID`, whose `GitRef` is `gitRef` and whose four statuses
are pending; the store returns that run for its ID and it is the last element
of the queue. -/
theorem TriggerPipeline_admitted (h : Heap) (e : Executor MemoryStore) (pipeline : Pipeline)
    (gitRef uuid : String) (now : Nat)
    (hstore : (MemoryStore.CreatePipelineRun e.Store
        (NewPipelineRun h uuid now pipeline.ID gitRef).1
        (NewPipelineRun h uuid now pipeline.ID gitRef).2).2 = none)
    (hqueue : (Enqueue (NewPipelineRun h uuid now pipeline.ID gitRef).1 e.queue
        (NewPipelineRun h uuid now pipeline.ID gitRef).2).2 = none) :
    (TriggerPipeline memoryStore h e pipeline gitRef uuid now).err = none ∧
      ∃ run : Ptr,
        (TriggerPipeline memoryStore h e pipeline gitRef uuid now).run = some run ∧
        ((TriggerPipeline memoryStore h e pipeline gitRef uuid now).heap.mem run).PipelineID
          = pipeline.ID ∧
        ((TriggerPipeline memoryStore h e pipeline gitRef uuid now).heap.mem run).GitRef
          = gitRef ∧
        ((TriggerPipeline memoryStore h e pipeline gitRef uuid now).heap.mem run).Status
          = StatusPending ∧
        ((TriggerPipeline memoryStore h e pipeline gitRef uuid now).heap.mem run).RunStatus
          = StatusPending ∧
        ((TriggerPipeline memoryStore h e pipeline gitRef uuid now).heap.mem run).BuildStatus
          = StatusPending ∧
        ((TriggerPipeline memoryStore h e pipeline gitRef uuid now).heap.mem run).DeployStatus
          = StatusPending ∧
        (TriggerPipeline memoryStore h e pipeline gitRef uuid now).executor.Store.GetPipelineRun
            ((TriggerPipeline memoryStore h e pipeline gitRef uuid now).heap.mem run).ID
          = .ok run ∧
        (TriggerPipeline memoryStore h e pipeline gitRef uuid now).executor.queue.queue.getLast?
          = some run := by
  have hs := MemoryStore.CreatePipelineRun_ok _ _ _ hstore
  have hq := Enqueue_ok_of_none _ _ _ hqueue
  have hm := NewPipelineRun_mem h uuid now pipeline.ID gitRef
  have hT : TriggerPipeline memoryStore h e pipeline gitRef uuid now =
      { run := some (NewPipelineRun h uuid now pipeline.ID gitRef).2
        err := none
        heap := (NewPipelineRun h uuid now pipeline.ID gitRef).1
        executor :=
          { e with
            Store := (MemoryStore.CreatePipelineRun e.Store
              (NewPipelineRun h uuid now pipeline.ID gitRef).1
              (NewPipelineRun h uuid now pipeline.ID gitRef).2).1
            queue := (Enqueue (NewPipelineRun h uuid now pipeline.ID gitRef).1 e.queue
              (NewPipelineRun h uuid now pipeline.ID gitRef).2).1 }
        calls := [Call.CreatePipelineRun (NewPipelineRun h uuid now pipeline.ID gitRef).2,
          Call.Enqueue (NewPipelineRun h uuid now pipeline.ID gitRef).2] } := by
    simp only [TriggerPipeline, memoryStore, hs, hq]
  rw [hT]
  refine ⟨rfl, (NewPipelineRun h uuid now pipeline.ID gitRef).2, rfl, ?_, ?_, ?_, ?_, ?_, ?_, ?_, ?_⟩
  · simp only [hm]
  · simp only [hm]
  · simp only [hm]
  · simp only [hm]
  · simp only [hm]
  · simp only [hm]
  · simp only [hm, hs, MemoryStore.GetPipelineRun, GoMap.get?_set, if_true]
  · simp only [hq, List.getLast?_append, List.getLast?_singleton, Option.or_some]

/-- The test "TriggerPipeline creates new run" up to the return of the call. -/
theorem TriggerPipeline_admitted_witness :
    (MemoryStore.CreatePipelineRun testExecutor.Store
        (NewPipelineRun threePipelinesHeap "run-1" 7 testPipeline.ID "main").1
        (NewPipelineRun threePipelinesHeap "run-1" 7 testPipeline.ID "main").2).2 = none ∧
      (Enqueue (NewPipelineRun threePipelinesHeap "run-1" 7 testPipeline.ID "main").1
        testExecutor.queue
        (NewPipelineRun threePipelinesHeap "run-1" 7 testPipeline.ID "main").2).2 = none ∧
      (TriggerPipeline memoryStore threePipelinesHeap testExecutor testPipeline "main" "run-1"
        7).err = none :=
  ⟨by decide, by decide,
    (TriggerPipeline_admitted threePipelinesHeap testExecutor testPipeline "main" "run-1" 7
      (by decide) (by decide)).1⟩

/-- C9: with the memory store, when `CreatePipelineRun` accepted the new run and
`Enqueue` rejects it, `TriggerPipeline` returns the error of `Enqueue` (one of
`QueueFull` and `PipelineQuotaExceeded`) and no run, and the store holds for the
new ID the run that was created, with `Status` failed. -/
theorem TriggerPipeline_rejected (h : Heap) (e : Executor MemoryStore) (pipeline : Pipeline)
    (gitRef uuid : String) (now : Nat) (err : Error)
    (hstore : (MemoryStore.CreatePipelineRun e.Store
        (NewPipelineRun h uuid now pipeline.ID gitRef).1
        (NewPipelineRun h uuid now pipeline.ID gitRef).2).2 = none)
    (hqueue : (Enqueue (NewPipelineRun h uuid now pipeline.ID gitRef).1 e.queue
        (NewPipelineRun h uuid now pipeline.ID gitRef).2).2 = some err) :
    (TriggerPipeline memoryStore h e pipeline gitRef uuid now).err = some err ∧
      (err = Error.QueueFull e.queue.queueSize ∨
        err = Error.PipelineQuotaExceeded pipeline.ID e.queue.maxQueuedPerPipeline) ∧
      (TriggerPipeline memoryStore h e pipeline gitRef uuid now).run = none ∧
      ∃ run : Ptr,
        (TriggerPipeline memoryStore h e pipeline gitRef uuid now).executor.Store.GetPipelineRun
            uuid = .ok run ∧
        ((TriggerPipeline memoryStore h e pipeline gitRef uuid now).heap.mem run).Status
          = StatusFailed ∧
        ((TriggerPipeline memoryStore h e pipeline gitRef uuid now).heap.mem run).ID = uuid ∧
        ((TriggerPipeline memoryStore h e pipeline gitRef uuid now).heap.mem run).PipelineID
          = pipeline.ID ∧
        ((TriggerPipeline memoryStore h e pipeline gitRef uuid now).heap.mem run).GitRef
          = gitRef := by
  have hs := MemoryStore.CreatePipelineRun_ok _ _ _ hstore
  have hq := Enqueue_unchanged_of_some _ _ _ err hqueue
  have hm := NewPipelineRun_mem h uuid now pipeline.ID gitRef
  have hT : TriggerPipeline memoryStore h e pipeline gitRef uuid now =
      { run := none
        err := some err
        heap := (NewPipelineRun h uuid now pipeline.ID gitRef).1.store
          (NewPipelineRun h uuid now pipeline.ID gitRef).2
          { (NewPipelineRun h uuid now pipeline.ID gitRef).1.mem
              (NewPipelineRun h uuid now pipeline.ID gitRef).2 with Status := StatusFailed }
        executor :=
          { e with
            Store := (MemoryStore.UpdatePipelineRun
              (MemoryStore.CreatePipelineRun e.Store
                (NewPipelineRun h uuid now pipeline.ID gitRef).1
                (NewPipelineRun h uuid now pipeline.ID gitRef).2).1
              ((NewPipelineRun h uuid now pipeline.ID gitRef).1.store
                (NewPipelineRun h uuid now pipeline.ID gitRef).2
                { (NewPipelineRun h uuid now pipeline.ID gitRef).1.mem
                    (NewPipelineRun h uuid now pipeline.ID gitRef).2 with
                  Status := StatusFailed })
              (NewPipelineRun h uuid now pipeline.ID gitRef).2).1
            queue := e.queue }
        calls := [Call.CreatePipelineRun (NewPipelineRun h uuid now pipeline.ID gitRef).2,
          Call.Enqueue (NewPipelineRun h uuid now pipeline.ID gitRef).2,
          Call.UpdatePipelineRun (NewPipelineRun h uuid now pipeline.ID gitRef).2] } := by
    simp only [TriggerPipeline, memoryStore, hs, hq.1]
  have herr := hq.2
  rw [hm] at herr
  rw [hT]
  refine ⟨rfl, herr, rfl, (NewPipelineRun h uuid now pipeline.ID gitRef).2, ?_, ?_, ?_, ?_, ?_⟩
  · simp [hm, hs, Heap.store, MemoryStore.UpdatePipelineRun, MemoryStore.GetPipelineRun,
      GoMap.get?_set]
  · simp [Heap.store]
  · simp [Heap.store, hm]
  · simp [Heap.store, hm]
  · simp [Heap.store, hm]

/-- A trigger on an executor whose queue admits nothing. -/
theorem TriggerPipeline_rejected_witness :
    (MemoryStore.CreatePipelineRun fullExecutor.Store
        (NewPipelineRun threePipelinesHeap "run-1" 7 testPipeline.ID "main").1
        (NewPipelineRun threePipelinesHeap "run-1" 7 testPipeline.ID "main").2).2 = none ∧
      (Enqueue (NewPipelineRun threePipelinesHeap "run-1" 7 testPipeline.ID "main").1
        fullExecutor.queue
        (NewPipelineRun threePipelinesHeap "run-1" 7 testPipeline.ID "main").2).2
          = some (Error.QueueFull 0) ∧
      (TriggerPipeline memoryStore threePipelinesHeap fullExecutor testPipeline "main" "run-1"
        7).err = some (Error.QueueFull 0) :=
  ⟨by decide, by decide,
    (TriggerPipeline_rejected threePipelinesHeap fullExecutor testPipeline "main" "run-1" 7
      (Error.QueueFull 0) (by decide) (by decide)).1⟩

/-- C10: for every store, when `CreatePipelineRun` returns an error,
`TriggerPipeline` returns that error and no run, and `CreatePipelineRun` is the
only call it makes (`Enqueue` is not called); and whenever `TriggerPipeline`
returns an error, the queue state after the call (sequence, counts and limits)
is the queue state before it. -/
theorem TriggerPipeline_error_keeps_queue {σ : Type} (S : Store σ) (h : Heap) (e : Executor σ)
    (pipeline : Pipeline) (gitRef uuid : String) (now : Nat) :
    (∀ err : Error,
        (S.CreatePipelineRun e.Store (NewPipelineRun h uuid now pipeline.ID gitRef).1
          (NewPipelineRun h uuid now pipeline.ID gitRef).2).2 = some err →
        (TriggerPipeline S h e pipeline gitRef uuid now).err = some err ∧
        (TriggerPipeline S h e pipeline gitRef uuid now).run = none ∧
        (TriggerPipeline S h e pipeline gitRef uuid now).calls =
          [Call.CreatePipelineRun (NewPipelineRun h uuid now pipeline.ID gitRef).2]) ∧
      ((TriggerPipeline S h e pipeline gitRef uuid now).err ≠ none →
        (TriggerPipeline S h e pipeline gitRef uuid now).executor.queue = e.queue) := by
  cases hc : S.CreatePipelineRun e.Store (NewPipelineRun h uuid now pipeline.ID gitRef).1
      (NewPipelineRun h uuid now pipeline.ID gitRef).2 with
  | mk s1 oerr =>
    cases oerr with
    | some cerr =>
      refine ⟨?_, ?_⟩
      · intro err herr
        cases herr
        simp [TriggerPipeline, hc]
      · intro _
        simp only [TriggerPipeline, hc]
    | none =>
      refine ⟨?_, ?_⟩
      · intro err herr
        cases herr
      · intro hne
        rcases Enqueue_cases (NewPipelineRun h uuid now pipeline.ID gitRef).1 e.queue
            (NewPipelineRun h uuid now pipeline.ID gitRef).2 with
          ⟨_, eq⟩ | ⟨_, _, eq⟩ | ⟨_, _, eq⟩
        · simp only [TriggerPipeline, hc, eq]
        · simp only [TriggerPipeline, hc, eq]
        · simp only [TriggerPipeline, hc, eq] at hne
          exact absurd rfl hne

/-- A trigger whose generated ID is already stored: the store refuses the run and
the queue is not touched. -/
theorem TriggerPipeline_error_keeps_queue_witness :
    (MemoryStore.CreatePipelineRun collidingExecutor.Store
        (NewPipelineRun threePipelinesHeap "run-1" 7 testPipeline.ID "main").1
        (NewPipelineRun threePipelinesHeap "run-1" 7 testPipeline.ID "main").2).2 =
        some (Error.wrap Error.ErrAlreadyExists "pipeline run with ID run-1 already exists") ∧
      (TriggerPipeline memoryStore threePipelinesHeap collidingExecutor testPipeline "main"
        "run-1" 7).calls = [Call.CreatePipelineRun 3] ∧
      (TriggerPipeline memoryStore threePipelinesHeap collidingExecutor testPipeline "main"
        "run-1" 7).executor.queue = collidingExecutor.queue :=
  ⟨by decide,
    ((TriggerPipeline_error_keeps_queue memoryStore threePipelinesHeap collidingExecutor
      testPipeline "main" "run-1" 7).1
      (Error.wrap Error.ErrAlreadyExists "pipeline run with ID run-1 already exists")
      (by decide)).2.2,
    (TriggerPipeline_error_keeps_queue memoryStore threePipelinesHeap collidingExecutor
      testPipeline "main" "run-1" 7).2 (by decide)⟩

/-! ## The per-pipeline quota and the dispatcher -/

/-- What `TriggerPipeline` does on the memory store when the store accepts the run
and `Enqueue` rejects it. -/
theorem TriggerPipeline_of_rejected (h : Heap) (e : Executor MemoryStore) (pipeline : Pipeline)
    (gitRef uuid : String) (now : Nat) (err : Error)
    (hstore : (MemoryStore.CreatePipelineRun e.Store
        (NewPipelineRun h uuid now pipeline.ID gitRef).1
        (NewPipelineRun h uuid now pipeline.ID gitRef).2).2 = none)
    (hqueue : (Enqueue (NewPipelineRun h uuid now pipeline.ID gitRef).1 e.queue
        (NewPipelineRun h uuid now pipeline.ID gitRef).2).2 = some err) :
    (TriggerPipeline memoryStore h e pipeline gitRef uuid now).err = some err ∧
      (TriggerPipeline memoryStore h e pipeline gitRef uuid now).run = none ∧
      (TriggerPipeline memoryStore h e pipeline gitRef uuid now).executor.Store.GetPipelineRun
          uuid = .ok (NewPipelineRun h uuid now pipeline.ID gitRef).2 ∧
      ((TriggerPipeline memoryStore h e pipeline gitRef uuid now).heap.mem
          (NewPipelineRun h uuid now pipeline.ID gitRef).2).Status = StatusFailed := by
  have hs := MemoryStore.CreatePipelineRun_ok _ _ _ hstore
  have hq := Enqueue_unchanged_of_some _ _ _ err hqueue
  have hm := NewPipelineRun_mem h uuid now pipeline.ID gitRef
  simp only [TriggerPipeline, memoryStore, hs, hq.1]
  refine ⟨?_, ?_, ?_, ?_⟩
  · simp
  · simp
  · simp [hm, Heap.store, MemoryStore.UpdatePipelineRun, MemoryStore.GetPipelineRun,
      GoMap.get?_set]
  · simp [Heap.store]

/-- The claim C11 fails when the dispatcher has dequeued a run: with quota 2, after
two triggers of the test pipeline and one `Dequeue` by the dispatcher, both runs
are still pending, and the third trigger returns no error and a pending run. -/
theorem third_trigger_admitted_after_dequeue :
    secondTrigger.executor.queue.maxQueuedPerPipeline = 2 ∧
      firstTrigger.run = some 3 ∧ secondTrigger.run = some 4 ∧
      afterDispatch.2 = DispatchAction.handoff 3 ∧
      (thirdTrigger.heap.mem 3).PipelineID = testPipeline.ID ∧
      (thirdTrigger.heap.mem 4).PipelineID = testPipeline.ID ∧
      (thirdTrigger.heap.mem 3).Status = StatusPending ∧
      (thirdTrigger.heap.mem 4).Status = StatusPending ∧
      thirdTrigger.err = none ∧ thirdTrigger.run = some 5 ∧
      (thirdTrigger.heap.mem 5).PipelineID = testPipeline.ID ∧
      (thirdTrigger.heap.mem 5).Status = StatusPending ∧
      thirdTrigger.executor.Store.GetPipelineRun "run-3" = .ok 5 := by
  refine ⟨?_, ?_, ?_, ?_, ?_, ?_, ?_, ?_, ?_, ?_, ?_, ?_, ?_⟩ <;> first | decide | rfl

/-- C11 as amended: with quota 2 on the memory store, in a queue state whose counts
match its content (as in every reachable state, `countsMatch_runOps`), when two
runs of a pipeline are in the queue (triggered and not yet dequeued), a further
trigger for that pipeline whose record the store accepts returns an error,
`QueueFull` or `PipelineQuotaExceeded`, returns no run, and the store holds the
new run with `Status` failed. -/
theorem TriggerPipeline_third_queued_run_rejected (h : Heap) (e : Executor MemoryStore)
    (pipeline : Pipeline) (gitRef uuid : String) (now : Nat)
    (hquota : e.queue.maxQueuedPerPipeline = 2)
    (hcounts : countsMatch h e.queue)
    (htwo : queuedFor h e.queue pipeline.ID = 2)
    (hstore : (MemoryStore.CreatePipelineRun e.Store
        (NewPipelineRun h uuid now pipeline.ID gitRef).1
        (NewPipelineRun h uuid now pipeline.ID gitRef).2).2 = none) :
    ∃ err : Error,
      (TriggerPipeline memoryStore h e pipeline gitRef uuid now).err = some err ∧
      (err = Error.QueueFull e.queue.queueSize ∨
        err = Error.PipelineQuotaExceeded pipeline.ID 2) ∧
      (TriggerPipeline memoryStore h e pipeline gitRef uuid now).run = none ∧
      ∃ run : Ptr,
        (TriggerPipeline memoryStore h e pipeline gitRef uuid now).executor.Store.GetPipelineRun
            uuid = .ok run ∧
        ((TriggerPipeline memoryStore h e pipeline gitRef uuid now).heap.mem run).Status
          = StatusFailed := by
  have hm := NewPipelineRun_mem h uuid now pipeline.ID gitRef
  have hi := countsMatch_index h e.queue hcounts pipeline.ID
  rw [htwo] at hi
  have hpid : ((NewPipelineRun h uuid now pipeline.ID gitRef).1.mem
      (NewPipelineRun h uuid now pipeline.ID gitRef).2).PipelineID = pipeline.ID := by
    rw [hm]
  rcases Enqueue_cases (NewPipelineRun h uuid now pipeline.ID gitRef).1 e.queue
      (NewPipelineRun h uuid now pipeline.ID gitRef).2 with ⟨_, eq⟩ | ⟨_, _, eq⟩ | ⟨_, h2, _⟩
  · have hr := TriggerPipeline_of_rejected h e pipeline gitRef uuid now _ hstore
      (by rw [eq])
    exact ⟨_, hr.1, Or.inl rfl, hr.2.1, _, hr.2.2.1, hr.2.2.2⟩
  · have hr := TriggerPipeline_of_rejected h e pipeline gitRef uuid now _ hstore
      (by rw [eq])
    refine ⟨_, hr.1, Or.inr ?_, hr.2.1, _, hr.2.2.1, hr.2.2.2⟩
    rw [hpid, hquota]
  · rw [hpid, hi, hquota] at h2
    exact absurd h2 (by decide)

/-- The quota witness state: after two triggers both runs of the test pipeline are
queued and counted. -/
theorem secondTrigger_countsMatch :
    countsMatch secondTrigger.heap secondTrigger.executor.queue := by
  have hq : secondTrigger.executor.queue =
      { queueSize := 5, maxQueuedPerPipeline := 2, queue := [3, 4],
        pipelineCounts := ⟨[("test-pipeline", 2)]⟩ } := by decide
  have h3 : (secondTrigger.heap.mem 3).PipelineID = "test-pipeline" := by decide
  have h4 : (secondTrigger.heap.mem 4).PipelineID = "test-pipeline" := by decide
  intro p
  rw [hq]
  by_cases hp : "test-pipeline" = p
  · subst hp
    simp [queuedFor, GoMap.get?, GoMap.lookup, h3, h4]
  · simp [queuedFor, GoMap.get?, GoMap.lookup, h3, h4, hp]

/-- The third trigger of the test pipeline while both earlier runs are queued. -/
theorem TriggerPipeline_third_queued_run_rejected_witness :
    secondTrigger.executor.queue.maxQueuedPerPipeline = 2 ∧
      queuedFor secondTrigger.heap secondTrigger.executor.queue testPipeline.ID = 2 ∧
      ∃ err : Error,
        (TriggerPipeline memoryStore secondTrigger.heap secondTrigger.executor testPipeline
          "feature" "run-3" 9).err = some err :=
  ⟨by decide, by decide,
    (TriggerPipeline_third_queued_run_rejected secondTrigger.heap secondTrigger.executor
      testPipeline "feature" "run-3" 9 (by decide) secondTrigger_countsMatch (by decide)
      (by decide)).imp fun _ hr => hr.1⟩

/-! ## The stage executors -/

@[simp] theorem Heap.store_mem_self (h : Heap) (p : Ptr) (v : PipelineRun) :
    (h.store p v).mem p = v := by
  simp [Heap.store]

/-- C20: when `Validate()` of its stage returns an error, each of the three stage
executors returns that error, sets the status of its stage to failed and the log
of its stage to the error message, and does nothing else: the only events are
these two assignments, so there is no `addLog` line, no random draw and no
sleep. -/
theorem stage_executors_on_validation_error {σ : Type} (failureRate : ℚ) (delay : Int) (r : ℚ)
    (st : ExecState σ) (pipelineRun : Ptr) (err : Error) :
    (∀ runStage : RunStage, runStage.Validate = some err →
        (runExecFuncConstructor failureRate delay r st pipelineRun runStage).2 = some err ∧
        ((runExecFuncConstructor failureRate delay r st pipelineRun runStage).1.heap.mem
          pipelineRun).RunStatus = StatusFailed ∧
        ((runExecFuncConstructor failureRate delay r st pipelineRun runStage).1.heap.mem
          pipelineRun).Logs.get? StageRun = some err.Error ∧
        (runExecFuncConstructor failureRate delay r st pipelineRun runStage).1.trace =
          st.trace ++ [Event.Logs StageRun err.Error, Event.stageStatus StageRun StatusFailed]) ∧
      (∀ buildStage : BuildStage, buildStage.Validate = some err →
        (buildExecFuncConstructor failureRate delay r st pipelineRun buildStage).2 = some err ∧
        ((buildExecFuncConstructor failureRate delay r st pipelineRun buildStage).1.heap.mem
          pipelineRun).BuildStatus = StatusFailed ∧
        ((buildExecFuncConstructor failureRate delay r st pipelineRun buildStage).1.heap.mem
          pipelineRun).Logs.get? StageBuild = some err.Error ∧
        (buildExecFuncConstructor failureRate delay r st pipelineRun buildStage).1.trace =
          st.trace ++
            [Event.Logs StageBuild err.Error, Event.stageStatus StageBuild StatusFailed]) ∧
      (∀ deployStage : DeployStage, deployStage.Validate = some err →
        (deployExecFuncConstructor failureRate delay r st pipelineRun deployStage).2 = some err ∧
        ((deployExecFuncConstructor failureRate delay r st pipelineRun deployStage).1.heap.mem
          pipelineRun).DeployStatus = StatusFailed ∧
        ((deployExecFuncConstructor failureRate delay r st pipelineRun deployStage).1.heap.mem
          pipelineRun).Logs.get? StageDeploy = some err.Error ∧
        (deployExecFuncConstructor failureRate delay r st pipelineRun deployStage).1.trace =
          st.trace ++
            [Event.Logs StageDeploy err.Error, Event.stageStatus StageDeploy StatusFailed]) := by
  refine ⟨?_, ?_, ?_⟩
  · intro runStage hv
    simp [runExecFuncConstructor, hv, GoMap.get?_set]
  · intro buildStage hv
    simp [buildExecFuncConstructor, hv, GoMap.get?_set]
  · intro deployStage hv
    simp [deployExecFuncConstructor, hv, GoMap.get?_set]

/-- A run stage made by `NewRunStage` with an empty command fails validation, and
its executor reports the validation error. -/
theorem stage_executors_on_validation_error_witness :
    (NewRunStage StageRun "" true).Validate =
        some (Error.other "command is required for run stage") ∧
      (runExecFuncConstructor 0 10000000 0
        ({ heap := firstTrigger.heap, executor := firstTrigger.executor, trace := [],
           clock := 0 } : ExecState MemoryStore) 3 (NewRunStage StageRun "" true)).2 =
        some (Error.other "command is required for run stage") :=
  ⟨by decide,
    ((stage_executors_on_validation_error 0 10000000 0
      ({ heap := firstTrigger.heap, executor := firstTrigger.executor, trace := [],
         clock := 0 } : ExecState MemoryStore) 3
      (Error.other "command is required for run stage")).1
      (NewRunStage StageRun "" true) (by decide)).1⟩

/-! ## What the stage executors change -/

theorem control_append (a b : List Event) : control (a ++ b) = control a ++ control b := by
  simp [control]

theorem mem_control (ev : Event) (trace : List Event) (hev : isControl ev = true) :
    ev ∈ trace ↔ ev ∈ control trace := by
  simp [control, hev]

theorem statusWrites_control (trace : List Event) :
    statusWrites trace = statusWrites (control trace) := by
  induction trace with
  | nil => rfl
  | cons ev rest ih =>
    cases ev <;> simp_all [statusWrites, control, isControl, List.filter_cons]

theorem stageStatusWrites_control (trace : List Event) :
    stageStatusWrites trace = stageStatusWrites (control trace) := by
  induction trace with
  | nil => rfl
  | cons ev rest ih =>
    cases ev <;> simp_all [stageStatusWrites, control, isControl, List.filter_cons]

/-- What the run stage executor changes: the log of the run stage and `RunStatus`,
which becomes the status of its result. -/
theorem runExec_summary {σ : Type} (failureRate : ℚ) (delay : Int) (r : ℚ)
    (st : ExecState σ) (p : Ptr) (runStage : RunStage) :
    (runExecFuncConstructor failureRate delay r st p runStage).1.executor = st.executor ∧
    control (runExecFuncConstructor failureRate delay r st p runStage).1.trace =
      control st.trace ++
        [Event.stageStatus StageRun
          (statusOf (runExecFuncConstructor failureRate delay r st p runStage).2)] ∧
    statusesOf ((runExecFuncConstructor failureRate delay r st p runStage).1.heap.mem p) =
      { statusesOf (st.heap.mem p) with
        RunStatus := statusOf (runExecFuncConstructor failureRate delay r st p runStage).2 } ∧
    ((runExecFuncConstructor failureRate delay r st p runStage).1.heap.mem p).Logs.get?
        StageBuild = (st.heap.mem p).Logs.get? StageBuild ∧
    ((runExecFuncConstructor failureRate delay r st p runStage).1.heap.mem p).Logs.get?
        StageDeploy = (st.heap.mem p).Logs.get? StageDeploy := by
  unfold runExecFuncConstructor
  split
  · simp [control, isControl, statusesOf, statusOf, GoMap.get?_set, StageRun, StageBuild,
      StageDeploy]
  · split
    · simp [control, isControl, statusesOf, statusOf, GoMap.get?_set, StageRun, StageBuild,
        StageDeploy, addLog]
    · simp [control, isControl, statusesOf, statusOf, GoMap.get?_set, StageRun, StageBuild,
        StageDeploy, addLog]

/-- What the build stage executor changes: the log of the build stage and
`BuildStatus`. -/
theorem buildExec_summary {σ : Type} (failureRate : ℚ) (delay : Int) (r : ℚ)
    (st : ExecState σ) (p : Ptr) (buildStage : BuildStage) :
    (buildExecFuncConstructor failureRate delay r st p buildStage).1.executor = st.executor ∧
    control (buildExecFuncConstructor failureRate delay r st p buildStage).1.trace =
      control st.trace ++
        [Event.stageStatus StageBuild
          (statusOf (buildExecFuncConstructor failureRate delay r st p buildStage).2)] ∧
    statusesOf ((buildExecFuncConstructor failureRate delay r st p buildStage).1.heap.mem p) =
      { statusesOf (st.heap.mem p) with
        BuildStatus := statusOf (buildExecFuncConstructor failureRate delay r st p buildStage).2 } ∧
    ((buildExecFuncConstructor failureRate delay r st p buildStage).1.heap.mem p).Logs.get?
        StageRun = (st.heap.mem p).Logs.get? StageRun ∧
    ((buildExecFuncConstructor failureRate delay r st p buildStage).1.heap.mem p).Logs.get?
        StageDeploy = (st.heap.mem p).Logs.get? StageDeploy := by
  unfold buildExecFuncConstructor
  split
  · simp [control, isControl, statusesOf, statusOf, GoMap.get?_set, StageRun, StageBuild,
      StageDeploy]
  · split
    · simp [control, isControl, statusesOf, statusOf, GoMap.get?_set, StageRun, StageBuild,
        StageDeploy, addLog]
    · simp [control, isControl, statusesOf, statusOf, GoMap.get?_set, StageRun, StageBuild,
        StageDeploy, addLog]

/-- What the deploy stage executor changes: the log of the deploy stage and
`DeployStatus`. -/
theorem deployExec_summary {σ : Type} (failureRate : ℚ) (delay : Int) (r : ℚ)
    (st : ExecState σ) (p : Ptr) (deployStage : DeployStage) :
    (deployExecFuncConstructor failureRate delay r st p deployStage).1.executor = st.executor ∧
    control (deployExecFuncConstructor failureRate delay r st p deployStage).1.trace =
      control st.trace ++
        [Event.stageStatus StageDeploy
          (statusOf (deployExecFuncConstructor failureRate delay r st p deployStage).2)] ∧
    statusesOf ((deployExecFuncConstructor failureRate delay r st p deployStage).1.heap.mem p) =
      { statusesOf (st.heap.mem p) with
        DeployStatus :=
          statusOf (deployExecFuncConstructor failureRate delay r st p deployStage).2 } ∧
    ((deployExecFuncConstructor failureRate delay r st p deployStage).1.heap.mem p).Logs.get?
        StageRun = (st.heap.mem p).Logs.get? StageRun ∧
    ((deployExecFuncConstructor failureRate delay r st p deployStage).1.heap.mem p).Logs.get?
        StageBuild = (st.heap.mem p).Logs.get? StageBuild := by
  unfold deployExecFuncConstructor
  split
  · simp [control, isControl, statusesOf, statusOf, GoMap.get?_set, StageRun, StageBuild,
      StageDeploy]
  · split
    · simp [control, isControl, statusesOf, statusOf, GoMap.get?_set, StageRun, StageBuild,
        StageDeploy, addLog]
    · simp [control, isControl, statusesOf, statusOf, GoMap.get?_set, StageRun, StageBuild,
        StageDeploy, addLog]

/-! ## The paths of `execute` -/

/-- The deploy stage and the end of `execute`: a panic of the type assertion, or
the call of the deploy executor followed by the final status. -/
theorem executeDeployStage_paths {σ : Type} (S : Store σ) (inp : Inputs) (p : Ptr)
    (pipeline : Pipeline) (st : ExecState σ) :
    ((∀ ds, pipeline.Stages.get? StageDeploy ≠ some (Stage.deploy ds)) ∧
        executeDeployStage S inp p pipeline st = (st, Completion.panicked)) ∨
      (∃ r3 : Option Error,
        (executeDeployStage S inp p pipeline st).2 = Completion.returned ∧
        control (executeDeployStage S inp p pipeline st).1.trace =
          control st.trace ++
            [Event.stageExecutor StageDeploy, Event.stageStatus StageDeploy (statusOf r3),
              Event.stageReturn StageDeploy r3, Event.Status (statusOf r3)] ∧
        statusesOf ((executeDeployStage S inp p pipeline st).1.heap.mem p) =
          { statusesOf (st.heap.mem p) with
            DeployStatus := statusOf r3, Status := statusOf r3 } ∧
        ((executeDeployStage S inp p pipeline st).1.heap.mem p).Logs.get? StageRun =
          (st.heap.mem p).Logs.get? StageRun ∧
        ((executeDeployStage S inp p pipeline st).1.heap.mem p).Logs.get? StageBuild =
          (st.heap.mem p).Logs.get? StageBuild) := by
  unfold executeDeployStage
  split
  · rename_i ds hds
    right
    have E := deployExec_summary st.executor.failureRate st.executor.delay inp.randDeploy
      { st with trace := st.trace ++ [Event.stageExecutor StageDeploy] } p ds
    generalize deployExecFuncConstructor st.executor.failureRate st.executor.delay
      inp.randDeploy { st with trace := st.trace ++ [Event.stageExecutor StageDeploy] } p ds
      = res at E ⊢
    obtain ⟨st1, r3⟩ := res
    refine ⟨r3, ?_⟩
    obtain ⟨_, E2, E3, E4, E5⟩ := E
    simp only at E2 E3 E4 E5
    cases r3 with
    | none =>
      simp [updatePipelineRun, setUpdatedAt, setStatus, control_append, E2, statusesOf] at E3 ⊢
      simp [control, isControl, statusOf, E3, E4, E5]
    | some err =>
      simp [updatePipelineRun, setUpdatedAt, setStatus, control_append, E2, statusesOf] at E3 ⊢
      simp [control, isControl, statusOf, E3, E4, E5]
  · rename_i hne
    left
    refine ⟨?_, rfl⟩
    intro ds hds
    exact hne ds hds

/-- The build stage: a panic of the type assertion, a failure that ends the run,
or the deploy stage entered from a state `mid`. -/
theorem executeBuildStage_paths {σ : Type} (S : Store σ) (inp : Inputs) (p : Ptr)
    (pipeline : Pipeline) (st : ExecState σ) :
    ((∀ bs, pipeline.Stages.get? StageBuild ≠ some (Stage.build bs)) ∧
        executeBuildStage S inp p pipeline st = (st, Completion.panicked)) ∨
      (∃ (bs : BuildStage) (e2 : Error),
        pipeline.Stages.get? StageBuild = some (Stage.build bs) ∧
        bs.ContinueOnError = false ∧
        (executeBuildStage S inp p pipeline st).2 = Completion.returned ∧
        control (executeBuildStage S inp p pipeline st).1.trace =
          control st.trace ++
            [Event.stageExecutor StageBuild, Event.stageStatus StageBuild StatusFailed,
              Event.stageReturn StageBuild (some e2), Event.Status StatusFailed] ∧
        statusesOf ((executeBuildStage S inp p pipeline st).1.heap.mem p) =
          { statusesOf (st.heap.mem p) with
            BuildStatus := StatusFailed, Status := StatusFailed } ∧
        ((executeBuildStage S inp p pipeline st).1.heap.mem p).Logs.get? StageRun =
          (st.heap.mem p).Logs.get? StageRun ∧
        ((executeBuildStage S inp p pipeline st).1.heap.mem p).Logs.get? StageDeploy =
          (st.heap.mem p).Logs.get? StageDeploy) ∨
      (∃ (bs : BuildStage) (r2 : Option Error) (mid : ExecState σ),
        pipeline.Stages.get? StageBuild = some (Stage.build bs) ∧
        (r2 = none ∨ bs.ContinueOnError = true) ∧
        executeBuildStage S inp p pipeline st = executeDeployStage S inp p pipeline mid ∧
        control mid.trace =
          control st.trace ++
            [Event.stageExecutor StageBuild, Event.stageStatus StageBuild (statusOf r2),
              Event.stageReturn StageBuild r2] ∧
        statusesOf (mid.heap.mem p) =
          { statusesOf (st.heap.mem p) with BuildStatus := statusOf r2 } ∧
        (mid.heap.mem p).Logs.get? StageRun = (st.heap.mem p).Logs.get? StageRun ∧
        (mid.heap.mem p).Logs.get? StageDeploy = (st.heap.mem p).Logs.get? StageDeploy) := by
  unfold executeBuildStage
  split
  · rename_i bs hbs
    right
    have E := buildExec_summary st.executor.failureRate st.executor.delay inp.randBuild
      { st with trace := st.trace ++ [Event.stageExecutor StageBuild] } p bs
    generalize buildExecFuncConstructor st.executor.failureRate st.executor.delay
      inp.randBuild { st with trace := st.trace ++ [Event.stageExecutor StageBuild] } p bs
      = res at E ⊢
    obtain ⟨st1, r2⟩ := res
    obtain ⟨_, E2, E3, E4, E5⟩ := E
    simp only at E2 E3 E4 E5
    cases r2 with
    | none =>
      right
      refine ⟨bs, none, _, hbs, Or.inl rfl, rfl, ?_⟩
      simp [persistStage, updatePipelineRun, setUpdatedAt, control_append, E2, statusesOf]
        at E3 ⊢
      simp [control, isControl, statusOf, E3, E4, E5]
    | some err =>
      by_cases hcoe : bs.ContinueOnError = false
      · left
        refine ⟨bs, err, hbs, hcoe, ?_⟩
        simp [hcoe, updatePipelineRun, setUpdatedAt, setStatus, control_append, E2, statusesOf]
          at E3 ⊢
        simp [control, isControl, statusOf, E3, E4, E5]
      · right
        have hcoe' : bs.ContinueOnError = true := by
          cases hb : bs.ContinueOnError
          · exact absurd hb hcoe
          · rfl
        refine ⟨bs, some err,
          persistStage S inp
            { st1 with trace := st1.trace ++ [Event.stageReturn StageBuild (some err)] } p,
          hbs, Or.inr hcoe', ?_, ?_⟩
        · simp [hcoe']
        · simp [persistStage, updatePipelineRun, setUpdatedAt, control_append, E2, statusesOf]
            at E3 ⊢
          simp [control, isControl, statusOf, E3, E4, E5]
  · rename_i hne
    left
    exact ⟨fun bs hbs => hne bs hbs, rfl⟩

/-- The run stage: a panic of the type assertion, a failure that ends the run, or
the build stage entered from a state `mid`. -/
theorem executeStages_paths {σ : Type} (S : Store σ) (inp : Inputs) (p : Ptr)
    (pipeline : Pipeline) (st : ExecState σ) :
    ((∀ rs, pipeline.Stages.get? StageRun ≠ some (Stage.run rs)) ∧
        (executeStages S inp p pipeline st).2 = Completion.panicked ∧
        control (executeStages S inp p pipeline st).1.trace =
          control st.trace ++ [Event.Status StatusRunning]) ∨
      (∃ (rs : RunStage) (e1 : Error),
        pipeline.Stages.get? StageRun = some (Stage.run rs) ∧
        rs.ContinueOnError = false ∧
        (executeStages S inp p pipeline st).2 = Completion.returned ∧
        control (executeStages S inp p pipeline st).1.trace =
          control st.trace ++
            [Event.Status StatusRunning, Event.stageExecutor StageRun,
              Event.stageStatus StageRun StatusFailed, Event.stageReturn StageRun (some e1),
              Event.Status StatusFailed] ∧
        statusesOf ((executeStages S inp p pipeline st).1.heap.mem p) =
          { statusesOf (st.heap.mem p) with
            RunStatus := StatusFailed, Status := StatusFailed } ∧
        ((executeStages S inp p pipeline st).1.heap.mem p).Logs.get? StageBuild =
          (st.heap.mem p).Logs.get? StageBuild ∧
        ((executeStages S inp p pipeline st).1.heap.mem p).Logs.get? StageDeploy =
          (st.heap.mem p).Logs.get? StageDeploy) ∨
      (∃ (rs : RunStage) (r1 : Option Error) (mid : ExecState σ),
        pipeline.Stages.get? StageRun = some (Stage.run rs) ∧
        (r1 = none ∨ rs.ContinueOnError = true) ∧
        executeStages S inp p pipeline st = executeBuildStage S inp p pipeline mid ∧
        control mid.trace =
          control st.trace ++
            [Event.Status StatusRunning, Event.stageExecutor StageRun,
              Event.stageStatus StageRun (statusOf r1), Event.stageReturn StageRun r1] ∧
        statusesOf (mid.heap.mem p) =
          { statusesOf (st.heap.mem p) with
            RunStatus := statusOf r1, Status := StatusRunning } ∧
        (mid.heap.mem p).Logs.get? StageBuild = (st.heap.mem p).Logs.get? StageBuild ∧
        (mid.heap.mem p).Logs.get? StageDeploy = (st.heap.mem p).Logs.get? StageDeploy) := by
  unfold executeStages
  simp only
  split
  · rename_i rs hrs
    right
    have E := runExec_summary (setStatus st p StatusRunning).executor.failureRate
      (setStatus st p StatusRunning).executor.delay inp.randRun
      { setStatus st p StatusRunning with
        trace := (setStatus st p StatusRunning).trace ++ [Event.stageExecutor StageRun] } p rs
    generalize runExecFuncConstructor (setStatus st p StatusRunning).executor.failureRate
      (setStatus st p StatusRunning).executor.delay inp.randRun
      { setStatus st p StatusRunning with
        trace := (setStatus st p StatusRunning).trace ++ [Event.stageExecutor StageRun] } p rs
      = res at E ⊢
    obtain ⟨st1, r1⟩ := res
    obtain ⟨_, E2, E3, E4, E5⟩ := E
    simp only at E2 E3 E4 E5
    cases r1 with
    | none =>
      right
      refine ⟨rs, none, _, hrs, Or.inl rfl, rfl, ?_⟩
      simp [persistStage, updatePipelineRun, setUpdatedAt, setStatus, control_append, E2,
        statusesOf] at E3 E4 E5 ⊢
      simp [control, isControl, statusOf, E3, E4, E5]
    | some err =>
      by_cases hcoe : rs.ContinueOnError = false
      · left
        refine ⟨rs, err, hrs, hcoe, ?_⟩
        simp [hcoe, updatePipelineRun, setUpdatedAt, setStatus, control_append, E2, statusesOf]
          at E3 E4 E5 ⊢
        simp [control, isControl, statusOf, E3, E4, E5]
      · right
        have hcoe' : rs.ContinueOnError = true := by
          cases hb : rs.ContinueOnError
          · exact absurd hb hcoe
          · rfl
        refine ⟨rs, some err,
          persistStage S inp
            (setUpdatedAt inp
              { st1 with trace := st1.trace ++ [Event.stageReturn StageRun (some err)] } p) p,
          hrs, Or.inr hcoe', ?_, ?_⟩
        · simp [hcoe']
        · simp [persistStage, updatePipelineRun, setUpdatedAt, setStatus, control_append, E2,
            statusesOf] at E3 E4 E5 ⊢
          simp [control, isControl, statusOf, E3, E4, E5]
  · rename_i hne
    left
    refine ⟨fun rs hrs => hne rs hrs, rfl, ?_⟩
    simp [setStatus, control_append, control, isControl]

/-- What the waiting loop changes: nothing of the control skeleton, the statuses
and the build and deploy logs when it lets `execute` go on; the status failed
when it gives up on a listing error. -/
theorem executeWaitLoop_frame {σ : Type} (S : Store σ) (p : Ptr) (pipeline : Pipeline)
    (fuel : Nat) (st st1 : ExecState σ) (b : Bool)
    (hw : executeWaitLoop S p pipeline fuel st = some (st1, b)) :
    control st1.trace =
        control st.trace ++ (if b = true then [] else [Event.Status StatusFailed]) ∧
      statusesOf (st1.heap.mem p) =
        (if b = true then statusesOf (st.heap.mem p)
          else { statusesOf (st.heap.mem p) with Status := StatusFailed }) ∧
      (st1.heap.mem p).Logs.get? StageBuild = (st.heap.mem p).Logs.get? StageBuild ∧
      (st1.heap.mem p).Logs.get? StageDeploy = (st.heap.mem p).Logs.get? StageDeploy ∧
      st1.executor.failureRate = st.executor.failureRate ∧
      st1.executor.delay = st.executor.delay := by
  induction fuel generalizing st with
  | zero => simp [executeWaitLoop] at hw
  | succ fuel ih =>
    unfold executeWaitLoop at hw
    simp only at hw
    split at hw
    · rename_i err herr
      simp only [Option.some.injEq, Prod.mk.injEq] at hw
      obtain ⟨hst, hb⟩ := hw
      subst hst
      subst hb
      simp [updatePipelineRun, setStatus, addLog, control_append, control, isControl, statusesOf,
        GoMap.get?_set, StageRun, StageBuild, StageDeploy]
    · split at hw
      · rename_i run hrun
        have h1 := ih _ hw
        simp [addLog, control_append, control, isControl, statusesOf, GoMap.get?_set, StageRun,
          StageBuild, StageDeploy] at h1
        simpa [control, statusesOf] using h1
      · simp only [Option.some.injEq, Prod.mk.injEq] at hw
        obtain ⟨hst, hb⟩ := hw
        subst hst
        subst hb
        simp [control_append, control, isControl]

/-- Every way a call of `execute` can end, with the control skeleton of its trace
and the statuses of the run at the end: the run is given up before the stages
(no pipeline or a listing error); a type assertion panics; a stage fails and
ends the run; or the deploy stage is reached and decides the final status. -/
theorem execute_paths {σ : Type} (S : Store σ) (inp : Inputs) (fuel : Nat) (h : Heap)
    (e : Executor σ) (p : Ptr) (st' : ExecState σ) (c : Completion)
    (hexec : execute S inp fuel h e p = some (st', c)) :
    (c = Completion.returned ∧ control st'.trace = [Event.Status StatusFailed] ∧
        statusesOf (st'.heap.mem p) = { statusesOf (h.mem p) with Status := StatusFailed } ∧
        (st'.heap.mem p).Logs.get? StageBuild = (h.mem p).Logs.get? StageBuild ∧
        (st'.heap.mem p).Logs.get? StageDeploy = (h.mem p).Logs.get? StageDeploy) ∨
    (∃ pipeline : Pipeline,
      (S.GetPipeline e.Store (h.mem p).PipelineID).2 = .ok pipeline ∧
      ((c = Completion.panicked ∧
          (∀ rs, pipeline.Stages.get? StageRun ≠ some (Stage.run rs)) ∧
          control st'.trace = [Event.Status StatusRunning]) ∨
      (∃ (rs : RunStage) (r1 : Option Error),
        pipeline.Stages.get? StageRun = some (Stage.run rs) ∧
        ((∃ e1 : Error, r1 = some e1 ∧ rs.ContinueOnError = false ∧
            c = Completion.returned ∧
            control st'.trace =
              [Event.Status StatusRunning, Event.stageExecutor StageRun,
                Event.stageStatus StageRun StatusFailed, Event.stageReturn StageRun r1,
                Event.Status StatusFailed] ∧
            statusesOf (st'.heap.mem p) =
              { statusesOf (h.mem p) with RunStatus := StatusFailed, Status := StatusFailed } ∧
            (st'.heap.mem p).Logs.get? StageBuild = (h.mem p).Logs.get? StageBuild ∧
            (st'.heap.mem p).Logs.get? StageDeploy = (h.mem p).Logs.get? StageDeploy) ∨
        ((r1 = none ∨ rs.ContinueOnError = true) ∧
          ((c = Completion.panicked ∧
              (∀ bs, pipeline.Stages.get? StageBuild ≠ some (Stage.build bs)) ∧
              control st'.trace =
                [Event.Status StatusRunning, Event.stageExecutor StageRun,
                  Event.stageStatus StageRun (statusOf r1), Event.stageReturn StageRun r1]) ∨
          (∃ (bs : BuildStage) (r2 : Option Error),
            pipeline.Stages.get? StageBuild = some (Stage.build bs) ∧
            ((∃ e2 : Error, r2 = some e2 ∧ bs.ContinueOnError = false ∧
                c = Completion.returned ∧
                control st'.trace =
                  [Event.Status StatusRunning, Event.stageExecutor StageRun,
                    Event.stageStatus StageRun (statusOf r1), Event.stageReturn StageRun r1,
                    Event.stageExecutor StageBuild, Event.stageStatus StageBuild StatusFailed,
                    Event.stageReturn StageBuild r2, Event.Status StatusFailed] ∧
                statusesOf (st'.heap.mem p) =
                  { statusesOf (h.mem p) with
                    RunStatus := statusOf r1, BuildStatus := StatusFailed,
                    Status := StatusFailed } ∧
                (st'.heap.mem p).Logs.get? StageDeploy = (h.mem p).Logs.get? StageDeploy) ∨
            ((r2 = none ∨ bs.ContinueOnError = true) ∧
              ((c = Completion.panicked ∧
                  (∀ ds, pipeline.Stages.get? StageDeploy ≠ some (Stage.deploy ds)) ∧
                  control st'.trace =
                    [Event.Status StatusRunning, Event.stageExecutor StageRun,
                      Event.stageStatus StageRun (statusOf r1), Event.stageReturn StageRun r1,
                      Event.stageExecutor StageBuild,
                      Event.stageStatus StageBuild (statusOf r2),
                      Event.stageReturn StageBuild r2]) ∨
              (∃ r3 : Option Error,
                c = Completion.returned ∧
                control st'.trace =
                  [Event.Status StatusRunning, Event.stageExecutor StageRun,
                    Event.stageStatus StageRun (statusOf r1), Event.stageReturn StageRun r1,
                    Event.stageExecutor StageBuild, Event.stageStatus StageBuild (statusOf r2),
                    Event.stageReturn StageBuild r2,
                    Event.stageExecutor StageDeploy,
                    Event.stageStatus StageDeploy (statusOf r3),
                    Event.stageReturn StageDeploy r3, Event.Status (statusOf r3)] ∧
                statusesOf (st'.heap.mem p) =
                  { statusesOf (h.mem p) with
                    RunStatus := statusOf r1, BuildStatus := statusOf r2,
                    DeployStatus := statusOf r3, Status := statusOf r3 }))))))))))) := by
  unfold execute at hexec
  simp only at hexec
  split at hexec
  · -- no pipeline
    rename_i err herr
    left
    simp only [Option.some.injEq, Prod.mk.injEq] at hexec
    obtain ⟨hst, hc⟩ := hexec
    subst hst
    subst hc
    simp [updatePipelineRun, setStatus, addLog, control_append, control, isControl, statusesOf,
      GoMap.get?_set, StageRun, StageBuild, StageDeploy]
  · rename_i pipeline hget
    split at hexec
    · cases hexec
    · -- listing error
      rename_i st1 hw
      left
      simp only [Option.some.injEq, Prod.mk.injEq] at hexec
      obtain ⟨hst, hc⟩ := hexec
      subst hst
      subst hc
      have W := executeWaitLoop_frame S p pipeline fuel _ _ _ hw
      simpa [control, isControl] using ⟨W.1, W.2.1, W.2.2.1, W.2.2.2.1⟩
    · rename_i st1 hw
      right
      refine ⟨pipeline, hget, ?_⟩
      have W := executeWaitLoop_frame S p pipeline fuel _ _ _ hw
      obtain ⟨W1, W2, W3, W4, _, _⟩ := W
      have W1' : control st1.trace = [] := by
        rw [W1]; simp [control, isControl]
      simp only [if_true] at W2 W3 W4
      simp only [Option.some.injEq] at hexec
      rcases executeStages_paths S inp p pipeline st1 with
        ⟨hno, hc, hk⟩ | ⟨rs, e1, hrs, hcoe, hc, hk, hs, hl1, hl2⟩ |
        ⟨rs, r1, mid, hrs, hr1, heq, hk, hs, hl1, hl2⟩
      · left
        rw [hexec] at hc hk
        rw [W1', List.nil_append] at hk
        exact ⟨hc, hno, hk⟩
      · right
        rw [hexec] at hc hk hs hl1 hl2
        refine ⟨rs, some e1, hrs, Or.inl ⟨e1, rfl, hcoe, hc, ?_, ?_, ?_, ?_⟩⟩
        · rw [W1', List.nil_append] at hk
          exact hk
        · rw [hs, W2]
        · rw [hl1, W3]
        · rw [hl2, W4]
      · right
        refine ⟨rs, r1, hrs, Or.inr ⟨hr1, ?_⟩⟩
        rw [W2] at hs
        rw [W3] at hl1
        rw [W4] at hl2
        have hk' : control mid.trace =
            [Event.Status StatusRunning, Event.stageExecutor StageRun,
              Event.stageStatus StageRun (statusOf r1), Event.stageReturn StageRun r1] := by
          rw [hk, W1', List.nil_append]
        rw [heq] at hexec
        rcases executeBuildStage_paths S inp p pipeline mid with
          ⟨hno, hpanic⟩ | ⟨bs, e2, hbs, hcoe, hc, hk2, hs2, hm1, hm2⟩ |
          ⟨bs, r2, mid2, hbs, hr2, heq2, hk2, hs2, hm1, hm2⟩
        · left
          rw [hpanic] at hexec
          simp only [Prod.mk.injEq] at hexec
          obtain ⟨hst, hc⟩ := hexec
          subst hst
          subst hc
          exact ⟨rfl, hno, hk'⟩
        · right
          rw [hexec] at hc hk2 hs2 hm1 hm2
          refine ⟨bs, some e2, hbs, Or.inl ⟨e2, rfl, hcoe, hc, ?_, ?_, ?_⟩⟩
          · rw [hk2, hk']; rfl
          · rw [hs2, hs]
          · rw [hm2, hl2]
        · right
          refine ⟨bs, r2, hbs, Or.inr ⟨hr2, ?_⟩⟩
          rw [hs] at hs2
          have hk2' : control mid2.trace =
              [Event.Status StatusRunning, Event.stageExecutor StageRun,
                Event.stageStatus StageRun (statusOf r1), Event.stageReturn StageRun r1,
                Event.stageExecutor StageBuild, Event.stageStatus StageBuild (statusOf r2),
                Event.stageReturn StageBuild r2] := by
            rw [hk2, hk']; rfl
          rw [heq2] at hexec
          rcases executeDeployStage_paths S inp p pipeline mid2 with
            ⟨hno, hpanic⟩ | ⟨r3, hc, hk3, hs3, _, _⟩
          · left
            rw [hpanic] at hexec
            simp only [Prod.mk.injEq] at hexec
            obtain ⟨hst, hc⟩ := hexec
            subst hst
            subst hc
            exact ⟨rfl, hno, hk2'⟩
          · right
            rw [hexec] at hc hk3 hs3
            refine ⟨r3, hc, ?_, ?_⟩
            · rw [hk3, hk2']; rfl
            · rw [hs3, hs2]

theorem stage_names_distinct :
    StageRun ≠ StageBuild ∧ StageRun ≠ StageDeploy ∧ StageBuild ≠ StageDeploy ∧
      StageBuild ≠ StageRun ∧ StageDeploy ≠ StageRun ∧ StageDeploy ≠ StageBuild := by
  decide

/-- C12: in every execution of `execute` in which the run stage executor returns an
error and the run stage does not continue on error, `execute` returns with
`Status` failed, the build and deploy executors are not called, and
`BuildStatus`, `DeployStatus` and the build and deploy logs keep the values they
had at the call (pending and absent for a run no executor has touched).  Likewise
when the build executor returns an error and the build stage does not continue
on error: `Status` is failed, the deploy executor is not called, and
`DeployStatus` and the deploy log are unchanged. -/
theorem failed_stage_without_continue_ends_run {σ : Type} (S : Store σ) (inp : Inputs)
    (fuel : Nat) (h : Heap) (e : Executor σ) (p : Ptr) (st' : ExecState σ) (c : Completion)
    (pipeline : Pipeline)
    (hexec : execute S inp fuel h e p = some (st', c))
    (hget : (S.GetPipeline e.Store (h.mem p).PipelineID).2 = .ok pipeline) :
    (∀ (rs : RunStage) (err : Error),
        pipeline.Stages.get? StageRun = some (Stage.run rs) →
        rs.ContinueOnError = false →
        Event.stageReturn StageRun (some err) ∈ st'.trace →
        c = Completion.returned ∧ (st'.heap.mem p).Status = StatusFailed ∧
        Event.stageExecutor StageBuild ∉ st'.trace ∧
        Event.stageExecutor StageDeploy ∉ st'.trace ∧
        (st'.heap.mem p).BuildStatus = (h.mem p).BuildStatus ∧
        (st'.heap.mem p).DeployStatus = (h.mem p).DeployStatus ∧
        (st'.heap.mem p).Logs.get? StageBuild = (h.mem p).Logs.get? StageBuild ∧
        (st'.heap.mem p).Logs.get? StageDeploy = (h.mem p).Logs.get? StageDeploy) ∧
      (∀ (bs : BuildStage) (err : Error),
        pipeline.Stages.get? StageBuild = some (Stage.build bs) →
        bs.ContinueOnError = false →
        Event.stageReturn StageBuild (some err) ∈ st'.trace →
        c = Completion.returned ∧ (st'.heap.mem p).Status = StatusFailed ∧
        Event.stageExecutor StageDeploy ∉ st'.trace ∧
        (st'.heap.mem p).DeployStatus = (h.mem p).DeployStatus ∧
        (st'.heap.mem p).Logs.get? StageDeploy = (h.mem p).Logs.get? StageDeploy) := by
  obtain ⟨n1, n2, n3, n4, n5, n6⟩ := stage_names_distinct
  have hp := execute_paths S inp fuel h e p st' c hexec
  refine ⟨?_, ?_⟩
  · intro rs err hrs hcoe hmem
    rw [mem_control (Event.stageReturn StageRun (some err)) _ rfl] at hmem
    rw [mem_control (Event.stageExecutor StageBuild) _ rfl,
      mem_control (Event.stageExecutor StageDeploy) _ rfl]
    rcases hp with ⟨hc, hk, hs, hl1, hl2⟩ | ⟨pl, hg, hrest⟩
    · rw [hk] at hmem; simp at hmem
    · rw [hget] at hg
      cases hg
      rcases hrest with ⟨hc, hno, hk⟩ | ⟨rs', r1, hrs', hrest⟩
      · exact absurd hrs (hno rs)
      · rw [hrs] at hrs'
        cases hrs'
        rcases hrest with ⟨e1, hr1, hcoe', hc, hk, hs, hl1, hl2⟩ | ⟨hr1, hrest⟩
        · simp [statusesOf] at hs
          refine ⟨hc, hs.2.2.1, ?_, ?_, hs.2.2.2.2.1, hs.2.2.2.2.2, hl1, hl2⟩
          · rw [hk]; simp [n1, n2, n3, n4, n5, n6]
          · rw [hk]; simp [n1, n2, n3, n4, n5, n6]
        · exfalso
          have hr : r1 = some err := by
            rcases hrest with ⟨hc, hno, hk⟩ | ⟨bs, r2, hbs, hrest⟩
            · rw [hk] at hmem; simpa [n1, n2, n3, n4, n5, n6, eq_comm] using hmem
            · rcases hrest with ⟨e2, hr2, hcoe2, hc, hk, hs, hl⟩ | ⟨hr2, hrest⟩
              · rw [hk] at hmem; simpa [n1, n2, n3, n4, n5, n6, eq_comm] using hmem
              · rcases hrest with ⟨hc, hno, hk⟩ | ⟨r3, hc, hk, hs⟩
                · rw [hk] at hmem; simpa [n1, n2, n3, n4, n5, n6, eq_comm] using hmem
                · rw [hk] at hmem; simpa [n1, n2, n3, n4, n5, n6, eq_comm] using hmem
          rcases hr1 with hnone | htrue
          · rw [hr] at hnone; cases hnone
          · rw [hcoe] at htrue; cases htrue
  · intro bs err hbs hcoe hmem
    rw [mem_control (Event.stageReturn StageBuild (some err)) _ rfl] at hmem
    rw [mem_control (Event.stageExecutor StageDeploy) _ rfl]
    rcases hp with ⟨hc, hk, hs, hl1, hl2⟩ | ⟨pl, hg, hrest⟩
    · rw [hk] at hmem; simp at hmem
    · rw [hget] at hg
      cases hg
      rcases hrest with ⟨hc, hno, hk⟩ | ⟨rs, r1, hrs, hrest⟩
      · rw [hk] at hmem; simp at hmem
      · rcases hrest with ⟨e1, hr1, hcoe', hc, hk, hs, hl1, hl2⟩ | ⟨hr1, hrest⟩
        · rw [hk] at hmem; simp [n1, n2, n3, n4, n5, n6] at hmem
        · rcases hrest with ⟨hc, hno, hk⟩ | ⟨bs', r2, hbs', hrest⟩
          · exact absurd hbs (hno bs)
          · rw [hbs] at hbs'
            cases hbs'
            rcases hrest with ⟨e2, hr2, hcoe2, hc, hk, hs, hl⟩ | ⟨hr2, hrest⟩
            · simp [statusesOf] at hs
              refine ⟨hc, hs.2.2.1, ?_, hs.2.2.2.2.2, hl⟩
              rw [hk]; simp [n1, n2, n3, n4, n5, n6]
            · exfalso
              have hr : r2 = some err := by
                rcases hrest with ⟨hc, hno, hk⟩ | ⟨r3, hc, hk, hs⟩
                · rw [hk] at hmem; simpa [n1, n2, n3, n4, n5, n6, eq_comm] using hmem
                · rw [hk] at hmem; simpa [n1, n2, n3, n4, n5, n6, eq_comm] using hmem
              rcases hr2 with hnone | htrue
              · rw [hr] at hnone; cases hnone
              · rw [hcoe] at htrue; cases htrue

/-- A run stage with an empty command and no continue-on-error: the run ends failed
after the run stage. -/
theorem failed_stage_without_continue_ends_run_witness :
    Event.stageReturn StageRun (some (Error.other "command is required for run stage")) ∈
        (executionOf (runFailsPipeline false)).1.trace ∧
      (executionOf (runFailsPipeline false)).2 = Completion.returned ∧
      ((executionOf (runFailsPipeline false)).1.heap.mem 3).Status = StatusFailed ∧
      Event.stageExecutor StageBuild ∉ (executionOf (runFailsPipeline false)).1.trace := by
  have W := (failed_stage_without_continue_ends_run memoryStore exampleInputs 1
    (triggerOf (runFailsPipeline false)).heap (triggerOf (runFailsPipeline false)).executor 3
    (executionOf (runFailsPipeline false)).1 (executionOf (runFailsPipeline false)).2
    (runFailsPipeline false) rfl rfl).1 (NewRunStage StageRun "" false)
    (Error.other "command is required for run stage") rfl rfl (by decide)
  exact ⟨by decide, W.1, W.2.1, W.2.2.1⟩

theorem statusOf_ne_pending (r : Option Error) : statusOf r ≠ StatusPending := by
  cases r with
  | none => decide
  | some err =>
    show StatusFailed ≠ StatusPending
    decide

/-- Without a deploy stage under its name, `execute` never calls the deploy
executor. -/
theorem execute_no_deploy_call {σ : Type} (S : Store σ) (inp : Inputs) (fuel : Nat)
    (h : Heap) (e : Executor σ) (p : Ptr) (st' : ExecState σ) (c : Completion)
    (pipeline : Pipeline)
    (hget : (S.GetPipeline e.Store (h.mem p).PipelineID).2 = .ok pipeline)
    (hmissing : ∀ ds, pipeline.Stages.get? StageDeploy ≠ some (Stage.deploy ds))
    (hexec : execute S inp fuel h e p = some (st', c)) :
    Event.stageExecutor StageDeploy ∉ st'.trace := by
  have hdeploy : ∀ mid : ExecState σ,
      executeDeployStage S inp p pipeline mid = (mid, Completion.panicked) := by
    intro mid
    rcases executeDeployStage_paths S inp p pipeline mid with ⟨_, hp⟩ | ⟨r3, hc, hk, _⟩
    · exact hp
    · exfalso
      unfold executeDeployStage at hc
      split at hc
      · rename_i ds hds
        exact hmissing ds hds
      · cases hc
  rw [mem_control (Event.stageExecutor StageDeploy) _ rfl]
  unfold execute at hexec
  simp only at hexec
  rw [hget] at hexec
  simp only at hexec
  split at hexec
  · cases hexec
  · rename_i st1 hw
    simp only [Option.some.injEq, Prod.mk.injEq] at hexec
    obtain ⟨hst, _⟩ := hexec
    subst hst
    have W := (executeWaitLoop_frame S p pipeline fuel _ _ _ hw).1
    rw [W]
    simp [control, isControl]
  · rename_i st1 hw
    simp only [Option.some.injEq] at hexec
    have W := (executeWaitLoop_frame S p pipeline fuel _ _ _ hw).1
    have W1 : control st1.trace = [] := by
      rw [W]; simp [control, isControl]
    rcases executeStages_paths S inp p pipeline st1 with
      ⟨_, _, hk⟩ | ⟨rs, e1, _, _, _, hk, _⟩ | ⟨rs, r1, mid, _, _, heq, hk, _⟩
    · rw [hexec] at hk
      rw [hk, W1]
      simp
    · rw [hexec] at hk
      rw [hk, W1]
      simp [stage_names_distinct.1, StageRun, StageDeploy]
    · rw [heq] at hexec
      rcases executeBuildStage_paths S inp p pipeline mid with
        ⟨_, hp⟩ | ⟨bs, e2, _, _, _, hk2, _⟩ | ⟨bs, r2, mid2, _, _, heq2, hk2, _⟩
      · rw [hp] at hexec
        simp only [Prod.mk.injEq] at hexec
        obtain ⟨hst, _⟩ := hexec
        subst hst
        rw [hk, W1]
        simp [StageRun, StageDeploy]
      · rw [hexec] at hk2
        rw [hk2, hk, W1]
        simp [StageRun, StageBuild, StageDeploy]
      · rw [heq2, hdeploy mid2] at hexec
        simp only [Prod.mk.injEq] at hexec
        obtain ⟨hst, _⟩ := hexec
        subst hst
        rw [hk2, hk, W1]
        simp [StageRun, StageBuild, StageDeploy]

/-- Once the build executor has been called, `BuildStatus` is not pending at the
end of `execute`, however `execute` ends. -/
theorem execute_build_called_status {σ : Type} (S : Store σ) (inp : Inputs) (fuel : Nat)
    (h : Heap) (e : Executor σ) (p : Ptr) (st' : ExecState σ) (c : Completion)
    (hexec : execute S inp fuel h e p = some (st', c))
    (hcall : Event.stageExecutor StageBuild ∈ st'.trace) :
    (st'.heap.mem p).BuildStatus ≠ StatusPending := by
  obtain ⟨n1, n2, n3, n4, n5, n6⟩ := stage_names_distinct
  rw [mem_control (Event.stageExecutor StageBuild) _ rfl] at hcall
  unfold execute at hexec
  simp only at hexec
  split at hexec
  · exfalso
    simp only [Option.some.injEq, Prod.mk.injEq] at hexec
    obtain ⟨hst, _⟩ := hexec
    subst hst
    simp [updatePipelineRun, setStatus, addLog, control_append, control, isControl] at hcall
  · rename_i pipeline hget
    split at hexec
    · cases hexec
    · exfalso
      rename_i st1 hw
      simp only [Option.some.injEq, Prod.mk.injEq] at hexec
      obtain ⟨hst, _⟩ := hexec
      subst hst
      rw [(executeWaitLoop_frame S p pipeline fuel _ _ _ hw).1] at hcall
      simp [control, isControl] at hcall
    · rename_i st1 hw
      simp only [Option.some.injEq] at hexec
      have W1 : control st1.trace = [] := by
        rw [(executeWaitLoop_frame S p pipeline fuel _ _ _ hw).1]; simp [control, isControl]
      rcases executeStages_paths S inp p pipeline st1 with
        ⟨_, _, hk⟩ | ⟨rs, e1, _, _, _, hk, _⟩ | ⟨rs, r1, mid, _, _, heq, hk, _⟩
      · exfalso
        rw [hexec] at hk
        rw [hk, W1] at hcall
        simp at hcall
      · exfalso
        rw [hexec] at hk
        rw [hk, W1] at hcall
        simp [n1, n2, n3, n4, n5, n6] at hcall
      · rw [heq] at hexec
        rcases executeBuildStage_paths S inp p pipeline mid with
          ⟨_, hp⟩ | ⟨bs, e2, _, _, _, _, hs2, _⟩ | ⟨bs, r2, mid2, _, _, heq2, _, hs2, _⟩
        · exfalso
          rw [hp] at hexec
          simp only [Prod.mk.injEq] at hexec
          obtain ⟨hst, _⟩ := hexec
          subst hst
          rw [hk, W1] at hcall
          simp [n1, n2, n3, n4, n5, n6] at hcall
        · rw [hexec] at hs2
          have hb := congrArg RunStatuses.BuildStatus hs2
          simp only [statusesOf] at hb
          rw [hb]
          decide
        · have hb2 : (mid2.heap.mem p).BuildStatus = statusOf r2 := by
            have hb := congrArg RunStatuses.BuildStatus hs2
            simpa [statusesOf] using hb
          rw [heq2] at hexec
          rcases executeDeployStage_paths S inp p pipeline mid2 with
            ⟨_, hp⟩ | ⟨r3, _, _, hs3, _⟩
          · rw [hp] at hexec
            simp only [Prod.mk.injEq] at hexec
            obtain ⟨hst, _⟩ := hexec
            subst hst
            rw [hb2]
            exact statusOf_ne_pending r2
          · rw [hexec] at hs3
            have hb := congrArg RunStatuses.BuildStatus hs3
            simp only [statusesOf] at hb
            rw [hb, hb2]
            exact statusOf_ne_pending r2

/-- C13 fails as stated: the stored pipeline `noBuildPipeline` has a run stage that
fails (validation error) with `ContinueOnError` true and no build stage.
`execute` on a run of it goes on after the run stage and panics at the type
assertion on the build stage: the build executor is not called and
`BuildStatus` is still pending. -/
theorem build_executor_not_called_without_build_stage :
    noBuildPipeline.Stages.get? StageRun = some (Stage.run (NewRunStage StageRun "" true)) ∧
      (NewRunStage StageRun "" true).ContinueOnError = true ∧
      noBuildPipeline.Stages.get? StageBuild = none ∧
      execute memoryStore exampleInputs 1 (triggerOf noBuildPipeline).heap
          (triggerOf noBuildPipeline).executor 3 =
        some ((executionOf noBuildPipeline).1, Completion.panicked) ∧
      Event.stageReturn StageRun (some (Error.other "command is required for run stage")) ∈
        (executionOf noBuildPipeline).1.trace ∧
      Event.stageExecutor StageBuild ∉ (executionOf noBuildPipeline).1.trace ∧
      ((executionOf noBuildPipeline).1.heap.mem 3).BuildStatus = StatusPending ∧
      ¬ (Event.stageExecutor StageBuild ∈ (executionOf noBuildPipeline).1.trace ∧
        ((executionOf noBuildPipeline).1.heap.mem 3).BuildStatus ≠ StatusPending) := by
  refine ⟨rfl, rfl, rfl, rfl, by decide, by decide, by decide, ?_⟩
  intro hboth
  exact absurd hboth.1 (by decide)

/-- C13 as amended: in every execution of `execute` in which the run stage executor
returns an error and the run stage continues on error, `execute` goes on to the
build stage, and up to there the only assignment to `Status` is the one to
running.  If `Stages["build"]` holds a `*BuildStage`, the build executor is
called and `BuildStatus` ends different from pending; if it does not, `execute`
panics at the type assertion on the build stage and the build executor is not
called.  Likewise when the build executor returns an error and the build stage
continues on error: with a `*DeployStage` under `"deploy"` the deploy executor
is called and `DeployStatus` ends different from pending, without one `execute`
panics at the type assertion and the deploy executor is not called. -/
theorem failed_stage_with_continue_goes_on {σ : Type} (S : Store σ) (inp : Inputs)
    (fuel : Nat) (h : Heap) (e : Executor σ) (p : Ptr) (st' : ExecState σ) (c : Completion)
    (pipeline : Pipeline)
    (hexec : execute S inp fuel h e p = some (st', c))
    (hget : (S.GetPipeline e.Store (h.mem p).PipelineID).2 = .ok pipeline) :
    (∀ (rs : RunStage) (err : Error),
        pipeline.Stages.get? StageRun = some (Stage.run rs) →
        rs.ContinueOnError = true →
        Event.stageReturn StageRun (some err) ∈ st'.trace →
        (∀ bs : BuildStage, pipeline.Stages.get? StageBuild = some (Stage.build bs) →
          Event.stageExecutor StageBuild ∈ st'.trace ∧
          (st'.heap.mem p).BuildStatus ≠ StatusPending ∧
          ∃ rest : List Event,
            control st'.trace =
              [Event.Status StatusRunning, Event.stageExecutor StageRun,
                Event.stageStatus StageRun StatusFailed, Event.stageReturn StageRun (some err),
                Event.stageExecutor StageBuild] ++ rest) ∧
        ((∀ bs : BuildStage, pipeline.Stages.get? StageBuild ≠ some (Stage.build bs)) →
          c = Completion.panicked ∧
          Event.stageExecutor StageBuild ∉ st'.trace ∧
          control st'.trace =
            [Event.Status StatusRunning, Event.stageExecutor StageRun,
              Event.stageStatus StageRun StatusFailed,
              Event.stageReturn StageRun (some err)])) ∧
      (∀ (bs : BuildStage) (err : Error),
        pipeline.Stages.get? StageBuild = some (Stage.build bs) →
        bs.ContinueOnError = true →
        Event.stageReturn StageBuild (some err) ∈ st'.trace →
        (∀ ds : DeployStage, pipeline.Stages.get? StageDeploy = some (Stage.deploy ds) →
          Event.stageExecutor StageDeploy ∈ st'.trace ∧
          (st'.heap.mem p).DeployStatus ≠ StatusPending ∧
          ∃ (r1 : Option Error) (rest : List Event),
            control st'.trace =
              [Event.Status StatusRunning, Event.stageExecutor StageRun,
                Event.stageStatus StageRun (statusOf r1), Event.stageReturn StageRun r1,
                Event.stageExecutor StageBuild, Event.stageStatus StageBuild StatusFailed,
                Event.stageReturn StageBuild (some err), Event.stageExecutor StageDeploy] ++
                rest) ∧
        ((∀ ds : DeployStage, pipeline.Stages.get? StageDeploy ≠ some (Stage.deploy ds)) →
          c = Completion.panicked ∧
          Event.stageExecutor StageDeploy ∉ st'.trace ∧
          ∃ r1 : Option Error,
            control st'.trace =
              [Event.Status StatusRunning, Event.stageExecutor StageRun,
                Event.stageStatus StageRun (statusOf r1), Event.stageReturn StageRun r1,
                Event.stageExecutor StageBuild, Event.stageStatus StageBuild StatusFailed,
                Event.stageReturn StageBuild (some err)])) := by
  obtain ⟨n1, n2, n3, n4, n5, n6⟩ := stage_names_distinct
  have hbuilt := execute_build_called_status S inp fuel h e p st' c hexec
  have hp := execute_paths S inp fuel h e p st' c hexec
  refine ⟨?_, ?_⟩
  · intro rs err hrs hcoe hmem
    rw [mem_control (Event.stageReturn StageRun (some err)) _ rfl] at hmem
    rw [mem_control (Event.stageExecutor StageBuild) _ rfl] at hbuilt ⊢
    rcases hp with ⟨hc, hk, hs, hl1, hl2⟩ | ⟨pl, hg, hrest⟩
    · rw [hk] at hmem; simp at hmem
    · rw [hget] at hg
      cases hg
      rcases hrest with ⟨hc, hno, hk⟩ | ⟨rs', r1, hrs', hrest⟩
      · exact absurd hrs (hno rs)
      · rw [hrs] at hrs'
        cases hrs'
        rcases hrest with ⟨e1, hr1, hcoe', hc, hk, hs, hl1, hl2⟩ | ⟨hr1, hrest⟩
        · rw [hcoe] at hcoe'; cases hcoe'
        · rcases hrest with ⟨hc, hno, hk⟩ | ⟨bs, r2, hbs, hrest⟩
          · rw [hk] at hmem
            have hr : r1 = some err := by
              simpa [n1, n2, n3, n4, n5, n6, eq_comm] using hmem
            subst hr
            refine ⟨fun bs hbs => absurd hbs (hno bs), fun _ => ⟨hc, ?_, hk⟩⟩
            rw [hk]
            simp [n1, n2, n3, n4, n5, n6]
          · rcases hrest with ⟨e2, hr2, hcoe2, hc, hk, hs, hl⟩ | ⟨hr2, hrest⟩
            · rw [hk] at hmem
              have hr : r1 = some err := by
                simpa [n1, n2, n3, n4, n5, n6, eq_comm] using hmem
              subst hr
              have hin : Event.stageExecutor StageBuild ∈ control st'.trace := by
                rw [hk]; simp
              exact ⟨fun _ _ => ⟨hin, hbuilt hin, ⟨_, hk⟩⟩, fun hno => absurd hbs (hno bs)⟩
            · rcases hrest with ⟨hc, hno, hk⟩ | ⟨r3, hc, hk, hs⟩
              · rw [hk] at hmem
                have hr : r1 = some err := by
                  simpa [n1, n2, n3, n4, n5, n6, eq_comm] using hmem
                subst hr
                have hin : Event.stageExecutor StageBuild ∈ control st'.trace := by
                  rw [hk]; simp
                exact ⟨fun _ _ => ⟨hin, hbuilt hin, ⟨_, hk⟩⟩,
                  fun hno' => absurd hbs (hno' bs)⟩
              · rw [hk] at hmem
                have hr : r1 = some err := by
                  simpa [n1, n2, n3, n4, n5, n6, eq_comm] using hmem
                subst hr
                have hin : Event.stageExecutor StageBuild ∈ control st'.trace := by
                  rw [hk]; simp
                exact ⟨fun _ _ => ⟨hin, hbuilt hin, ⟨_, hk⟩⟩, fun hno => absurd hbs (hno bs)⟩
  · intro bs err hbs hcoe hmem
    rw [mem_control (Event.stageReturn StageBuild (some err)) _ rfl] at hmem
    rw [mem_control (Event.stageExecutor StageDeploy) _ rfl]
    rcases hp with ⟨hc, hk, hs, hl1, hl2⟩ | ⟨pl, hg, hrest⟩
    · rw [hk] at hmem; simp at hmem
    · rw [hget] at hg
      cases hg
      rcases hrest with ⟨hc, hno, hk⟩ | ⟨rs, r1, hrs, hrest⟩
      · rw [hk] at hmem; simp at hmem
      · rcases hrest with ⟨e1, hr1, hcoe', hc, hk, hs, hl1, hl2⟩ | ⟨hr1, hrest⟩
        · rw [hk] at hmem; simp [n1, n2, n3, n4, n5, n6] at hmem
        · rcases hrest with ⟨hc, hno, hk⟩ | ⟨bs', r2, hbs', hrest⟩
          · exact absurd hbs (hno bs)
          · rw [hbs] at hbs'
            cases hbs'
            rcases hrest with ⟨e2, hr2, hcoe2, hc, hk, hs, hl⟩ | ⟨hr2, hrest⟩
            · rw [hcoe] at hcoe2; cases hcoe2
            · rcases hrest with ⟨hc, hno, hk⟩ | ⟨r3, hc, hk, hs⟩
              · rw [hk] at hmem
                have hr : r2 = some err := by
                  simpa [n1, n2, n3, n4, n5, n6, eq_comm] using hmem
                subst hr
                refine ⟨fun ds hds => absurd hds (hno ds), fun _ => ⟨hc, ?_, ⟨r1, hk⟩⟩⟩
                rw [hk]
                simp [n1, n2, n3, n4, n5, n6]
              · rw [hk] at hmem
                have hr : r2 = some err := by
                  simpa [n1, n2, n3, n4, n5, n6, eq_comm] using hmem
                subst hr
                simp [statusesOf] at hs
                refine ⟨fun _ _ => ⟨?_, ?_, ⟨r1, _, hk⟩⟩, fun hno => ?_⟩
                · rw [hk]; simp
                · rw [hs.2.2.2.2.2]; exact statusOf_ne_pending r3
                · exfalso
                  have hcall : Event.stageExecutor StageDeploy ∈ st'.trace := by
                    rw [mem_control (Event.stageExecutor StageDeploy) _ rfl, hk]
                    simp
                  exact execute_no_deploy_call S inp fuel h e p st' c pipeline hget hno hexec
                    hcall

/-- A run stage with an empty command that continues on error, in a pipeline with
a build stage: the build executor is called. -/
theorem failed_stage_with_continue_goes_on_witness :
    Event.stageReturn StageRun (some (Error.other "command is required for run stage")) ∈
        (executionOf (runFailsPipeline true)).1.trace ∧
      Event.stageExecutor StageBuild ∈ (executionOf (runFailsPipeline true)).1.trace ∧
      ((executionOf (runFailsPipeline true)).1.heap.mem 3).BuildStatus ≠ StatusPending := by
  have W := ((failed_stage_with_continue_goes_on memoryStore exampleInputs 1
    (triggerOf (runFailsPipeline true)).heap (triggerOf (runFailsPipeline true)).executor 3
    (executionOf (runFailsPipeline true)).1 (executionOf (runFailsPipeline true)).2
    (runFailsPipeline true) rfl rfl).1
    (NewRunStage StageRun "" true)
    (Error.other "command is required for run stage") rfl rfl (by decide)).1
    (NewBuildStage StageBuild "Dockerfile" false) rfl
  exact ⟨by decide, W.1, W.2.1⟩

/-- C14: in every execution of `execute` in which the deploy stage executor returns
an error, `execute` returns with `Status` failed (and `DeployStatus` failed);
the statement does not depend on the `ContOnError` flag of the deploy stage,
which `execute` never reads. -/
theorem deploy_failure_ends_run_failed {σ : Type} (S : Store σ) (inp : Inputs)
    (fuel : Nat) (h : Heap) (e : Executor σ) (p : Ptr) (st' : ExecState σ) (c : Completion)
    (err : Error)
    (hexec : execute S inp fuel h e p = some (st', c))
    (hmem : Event.stageReturn StageDeploy (some err) ∈ st'.trace) :
    c = Completion.returned ∧ (st'.heap.mem p).Status = StatusFailed ∧
      (st'.heap.mem p).DeployStatus = StatusFailed := by
  obtain ⟨n1, n2, n3, n4, n5, n6⟩ := stage_names_distinct
  have hp := execute_paths S inp fuel h e p st' c hexec
  rw [mem_control (Event.stageReturn StageDeploy (some err)) _ rfl] at hmem
  rcases hp with ⟨hc, hk, hs, hl1, hl2⟩ | ⟨pl, hg, hrest⟩
  · rw [hk] at hmem; simp at hmem
  · rcases hrest with ⟨hc, hno, hk⟩ | ⟨rs, r1, hrs, hrest⟩
    · rw [hk] at hmem; simp at hmem
    · rcases hrest with ⟨e1, hr1, hcoe', hc, hk, hs, hl1, hl2⟩ | ⟨hr1, hrest⟩
      · rw [hk] at hmem; simp [n1, n2, n3, n4, n5, n6] at hmem
      · rcases hrest with ⟨hc, hno, hk⟩ | ⟨bs, r2, hbs, hrest⟩
        · rw [hk] at hmem; simp [n1, n2, n3, n4, n5, n6] at hmem
        · rcases hrest with ⟨e2, hr2, hcoe2, hc, hk, hs, hl⟩ | ⟨hr2, hrest⟩
          · rw [hk] at hmem; simp [n1, n2, n3, n4, n5, n6] at hmem
          · rcases hrest with ⟨hc, hno, hk⟩ | ⟨r3, hc, hk, hs⟩
            · rw [hk] at hmem; simp [n1, n2, n3, n4, n5, n6] at hmem
            · rw [hk] at hmem
              have hr : r3 = some err := by
                simpa [n1, n2, n3, n4, n5, n6, eq_comm] using hmem
              subst hr
              simp [statusesOf] at hs
              exact ⟨hc, hs.2.2.1, hs.2.2.2.2.2⟩

/-- A deploy stage without a cluster name that is set to continue on error: the run
still ends failed. -/
theorem deploy_failure_ends_run_failed_witness :
    Event.stageReturn StageDeploy
          (some (Error.other "cluster name is required for deploy stage")) ∈
        (executionOf deployFailsPipeline).1.trace ∧
      ((executionOf deployFailsPipeline).1.heap.mem 3).Status = StatusFailed := by
  have W := deploy_failure_ends_run_failed memoryStore exampleInputs 1
    (triggerOf deployFailsPipeline).heap (triggerOf deployFailsPipeline).executor 3
    (executionOf deployFailsPipeline).1 (executionOf deployFailsPipeline).2
    (Error.other "cluster name is required for deploy stage") rfl (by decide)
  exact ⟨by decide, W.2.1⟩

/-- C15: in every execution of `execute` in which the deploy stage executor returns
no error, the final `Status` is success; and if in that execution the run stage
executor returned an error, then the run stage continues on error and
`RunStatus` is failed, and the same for the build stage and `BuildStatus`. -/
theorem stage_failure_masked_by_deploy_success {σ : Type} (S : Store σ) (inp : Inputs)
    (fuel : Nat) (h : Heap) (e : Executor σ) (p : Ptr) (st' : ExecState σ) (c : Completion)
    (pipeline : Pipeline)
    (hexec : execute S inp fuel h e p = some (st', c))
    (hget : (S.GetPipeline e.Store (h.mem p).PipelineID).2 = .ok pipeline)
    (hdeploy : Event.stageReturn StageDeploy none ∈ st'.trace) :
    c = Completion.returned ∧ (st'.heap.mem p).Status = StatusSuccess ∧
      (∀ err : Error, Event.stageReturn StageRun (some err) ∈ st'.trace →
        (st'.heap.mem p).RunStatus = StatusFailed ∧
        ∃ rs, pipeline.Stages.get? StageRun = some (Stage.run rs) ∧
          rs.ContinueOnError = true) ∧
      (∀ err : Error, Event.stageReturn StageBuild (some err) ∈ st'.trace →
        (st'.heap.mem p).BuildStatus = StatusFailed ∧
        ∃ bs, pipeline.Stages.get? StageBuild = some (Stage.build bs) ∧
          bs.ContinueOnError = true) := by
  obtain ⟨n1, n2, n3, n4, n5, n6⟩ := stage_names_distinct
  have hp := execute_paths S inp fuel h e p st' c hexec
  rw [mem_control (Event.stageReturn StageDeploy none) _ rfl] at hdeploy
  rcases hp with ⟨hc, hk, hs, hl1, hl2⟩ | ⟨pl, hg, hrest⟩
  · rw [hk] at hdeploy; simp at hdeploy
  · rw [hget] at hg
    cases hg
    rcases hrest with ⟨hc, hno, hk⟩ | ⟨rs, r1, hrs, hrest⟩
    · rw [hk] at hdeploy; simp at hdeploy
    · rcases hrest with ⟨e1, hr1, hcoe', hc, hk, hs, hl1, hl2⟩ | ⟨hr1, hrest⟩
      · rw [hk] at hdeploy; simp [n1, n2, n3, n4, n5, n6] at hdeploy
      · rcases hrest with ⟨hc, hno, hk⟩ | ⟨bs, r2, hbs, hrest⟩
        · rw [hk] at hdeploy; simp [n1, n2, n3, n4, n5, n6] at hdeploy
        · rcases hrest with ⟨e2, hr2, hcoe2, hc, hk, hs, hl⟩ | ⟨hr2, hrest⟩
          · rw [hk] at hdeploy; simp [n1, n2, n3, n4, n5, n6] at hdeploy
          · rcases hrest with ⟨hc, hno, hk⟩ | ⟨r3, hc, hk, hs⟩
            · rw [hk] at hdeploy; simp [n1, n2, n3, n4, n5, n6] at hdeploy
            · rw [hk] at hdeploy
              have hr : r3 = none := by
                simpa [n1, n2, n3, n4, n5, n6, eq_comm] using hdeploy
              subst hr
              simp [statusesOf] at hs
              refine ⟨hc, hs.2.2.1, ?_, ?_⟩
              · intro err hmem
                rw [mem_control (Event.stageReturn StageRun (some err)) _ rfl, hk] at hmem
                have hr : r1 = some err := by
                  simpa [n1, n2, n3, n4, n5, n6, eq_comm] using hmem
                subst hr
                refine ⟨hs.2.2.2.1, rs, hrs, ?_⟩
                rcases hr1 with hnone | htrue
                · cases hnone
                · exact htrue
              · intro err hmem
                rw [mem_control (Event.stageReturn StageBuild (some err)) _ rfl, hk] at hmem
                have hr : r2 = some err := by
                  simpa [n1, n2, n3, n4, n5, n6, eq_comm] using hmem
                subst hr
                refine ⟨hs.2.2.2.2.1, bs, hbs, ?_⟩
                rcases hr2 with hnone | htrue
                · cases hnone
                · exact htrue

/-- The run stage has the default validator, an empty command and continues on
error, the failure rate is 0: the run stage fails, the deploy stage succeeds,
and the run ends with `Status` success and `RunStatus` failed. -/
theorem stage_failure_masked_by_deploy_success_witness :
    Event.stageReturn StageDeploy none ∈ (executionOf (runFailsPipeline true)).1.trace ∧
      Event.stageReturn StageRun (some (Error.other "command is required for run stage")) ∈
        (executionOf (runFailsPipeline true)).1.trace ∧
      ((executionOf (runFailsPipeline true)).1.heap.mem 3).Status = StatusSuccess ∧
      ((executionOf (runFailsPipeline true)).1.heap.mem 3).RunStatus = StatusFailed := by
  have W := stage_failure_masked_by_deploy_success memoryStore exampleInputs 1
    (triggerOf (runFailsPipeline true)).heap (triggerOf (runFailsPipeline true)).executor 3
    (executionOf (runFailsPipeline true)).1 (executionOf (runFailsPipeline true)).2
    (runFailsPipeline true) rfl rfl (by decide)
  exact ⟨by decide, by decide, W.2.1,
    (W.2.2.1 (Error.other "command is required for run stage") (by decide)).1⟩

/-- C17: when `GetPipeline` returns an error for the `PipelineID` of the run,
`execute` returns (whatever the fuel); it has appended one line with status
failed to the log of the run stage, set `Status` to failed and called
`UpdatePipelineRun` once, with the run in that state; no stage executor is
called, and `RunStatus`, `BuildStatus` and `DeployStatus` keep the values they
had at the call (pending for a run no executor has touched). -/
theorem execute_without_pipeline {σ : Type} (S : Store σ) (inp : Inputs) (fuel : Nat)
    (h : Heap) (e : Executor σ) (p : Ptr) (err : Error)
    (hget : (S.GetPipeline e.Store (h.mem p).PipelineID).2 = .error err) :
    ∃ (st' : ExecState σ) (uerr : Option Error),
      execute S inp fuel h e p = some (st', Completion.returned) ∧
      st'.trace =
        [Event.GetPipeline (h.mem p).PipelineID,
          Event.addLog StageRun StatusFailed
            ("error getting pipeline from store: " ++ err.Error),
          Event.Status StatusFailed,
          Event.UpdatePipelineRun (st'.heap.mem p) uerr] ∧
      updateCalls st'.trace = [(st'.heap.mem p, uerr)] ∧
      stageCalls st'.trace = [] ∧
      (st'.heap.mem p).Logs.get? StageRun =
        some ((h.mem p).Logs.indexString StageRun ++
          logTmpl (h.mem p).PipelineID (h.mem p).ID StageRun StatusFailed
            ("error getting pipeline from store: " ++ err.Error)) ∧
      (st'.heap.mem p).Status = StatusFailed ∧
      (st'.heap.mem p).RunStatus = (h.mem p).RunStatus ∧
      (st'.heap.mem p).BuildStatus = (h.mem p).BuildStatus ∧
      (st'.heap.mem p).DeployStatus = (h.mem p).DeployStatus := by
  unfold execute
  simp only [hget]
  refine ⟨_,
    (S.UpdatePipelineRun
      (setStatus
        (addLog
          ({ heap := h
             executor := { e with Store := (S.GetPipeline e.Store (h.mem p).PipelineID).1 }
             trace := [Event.GetPipeline (h.mem p).PipelineID]
             clock := 0 } : ExecState σ)
          p StageRun StatusFailed ("error getting pipeline from store: " ++ err.Error))
        p StatusFailed).executor.Store
      (setStatus
        (addLog
          ({ heap := h
             executor := { e with Store := (S.GetPipeline e.Store (h.mem p).PipelineID).1 }
             trace := [Event.GetPipeline (h.mem p).PipelineID]
             clock := 0 } : ExecState σ)
          p StageRun StatusFailed ("error getting pipeline from store: " ++ err.Error))
        p StatusFailed).heap p).2,
    rfl, ?_, ?_, ?_, ?_, ?_, ?_, ?_, ?_⟩
  · simp [updatePipelineRun, setStatus, addLog]
  · simp [updatePipelineRun, setStatus, addLog, updateCalls]
  · simp [updatePipelineRun, setStatus, addLog, stageCalls]
  · simp [updatePipelineRun, setStatus, addLog, GoMap.get?_set]
  · simp [updatePipelineRun, setStatus, addLog]
  · simp [updatePipelineRun, setStatus, addLog]
  · simp [updatePipelineRun, setStatus, addLog]
  · simp [updatePipelineRun, setStatus, addLog]

/-- A run whose pipeline is not in the memory store. -/
theorem execute_without_pipeline_witness :
    (memoryStore.GetPipeline testExecutor.Store (threePipelinesHeap.mem 0).PipelineID).2 =
        .error (Error.wrap Error.ErrNotFound "pipeline with ID pipeline1 not found") ∧
      ∃ st' : ExecState MemoryStore,
        execute memoryStore exampleInputs 1 threePipelinesHeap testExecutor 0 =
          some (st', Completion.returned) ∧
        (st'.heap.mem 0).Status = StatusFailed := by
  have W := execute_without_pipeline memoryStore exampleInputs 1 threePipelinesHeap
    testExecutor 0 (Error.wrap Error.ErrNotFound "pipeline with ID pipeline1 not found") rfl
  obtain ⟨st', uerr, W1, W2⟩ := W
  exact ⟨rfl, st', W1, W2.2.2.2.2.1⟩

/-- C18: for a run made by `NewPipelineRun` and every execution of `execute` on it
that returns: `Status` is pending at the start; the assignments to `Status` are
failed alone, or running and then one terminal value, which is the final
`Status`; when running is assigned it is the first control event and the call
of the run stage executor follows it directly; and the assignments to the
per-stage statuses are at most one per stage, in the order run, build, deploy,
each of them success or failed. -/
theorem status_lifecycle {σ : Type} (S : Store σ) (inp : Inputs) (fuel : Nat) (h0 : Heap)
    (uuid : String) (now : Nat) (pipelineID gitRef : String) (e : Executor σ)
    (st' : ExecState σ)
    (hexec : execute S inp fuel (NewPipelineRun h0 uuid now pipelineID gitRef).1 e
      (NewPipelineRun h0 uuid now pipelineID gitRef).2 = some (st', Completion.returned)) :
    ((NewPipelineRun h0 uuid now pipelineID gitRef).1.mem
        (NewPipelineRun h0 uuid now pipelineID gitRef).2).Status = StatusPending ∧
      (statusWrites st'.trace = [StatusFailed] ∨
        statusWrites st'.trace = [StatusRunning, StatusFailed] ∨
        statusWrites st'.trace = [StatusRunning, StatusSuccess]) ∧
      (statusWrites st'.trace).getLast? =
        some (st'.heap.mem (NewPipelineRun h0 uuid now pipelineID gitRef).2).Status ∧
      (StatusRunning ∈ statusWrites st'.trace →
        ∃ rest : List Event,
          control st'.trace =
            Event.Status StatusRunning :: Event.stageExecutor StageRun :: rest) ∧
      (stageStatusWrites st'.trace).map Prod.fst <+: [StageRun, StageBuild, StageDeploy] ∧
      (∀ sv ∈ stageStatusWrites st'.trace, sv.2 = StatusSuccess ∨ sv.2 = StatusFailed) := by
  have hp := execute_paths S inp fuel _ e _ st' _ hexec
  have hm := NewPipelineRun_mem h0 uuid now pipelineID gitRef
  have hso : ∀ r : Option Error, statusOf r = StatusSuccess ∨ statusOf r = StatusFailed := by
    intro r; cases r
    · exact Or.inl rfl
    · exact Or.inr rfl
  refine ⟨by rw [hm], ?_⟩
  rw [statusWrites_control, stageStatusWrites_control]
  rcases hp with ⟨hc, hk, hs, hl1, hl2⟩ | ⟨pl, hg, hrest⟩
  · simp [statusesOf] at hs
    rw [hk]
    simp [statusWrites, stageStatusWrites, hs.2.2.1]
    decide
  · rcases hrest with ⟨hc, hno, hk⟩ | ⟨rs, r1, hrs, hrest⟩
    · cases hc
    · rcases hrest with ⟨e1, hr1, hcoe', hc, hk, hs, hl1, hl2⟩ | ⟨hr1, hrest⟩
      · simp [statusesOf] at hs
        rw [hk]
        simp [statusWrites, stageStatusWrites, hs.2.2.1]
      · rcases hrest with ⟨hc, hno, hk⟩ | ⟨bs, r2, hbs, hrest⟩
        · cases hc
        · rcases hrest with ⟨e2, hr2, hcoe2, hc, hk, hs, hl⟩ | ⟨hr2, hrest⟩
          · simp [statusesOf] at hs
            rw [hk]
            simp [statusWrites, stageStatusWrites, hs.2.2.1]
            exact hso r1
          · rcases hrest with ⟨hc, hno, hk⟩ | ⟨r3, hc, hk, hs⟩
            · cases hc
            · simp [statusesOf] at hs
              rw [hk]
              simp [statusWrites, stageStatusWrites, hs.2.2.1]
              refine ⟨?_, hso r1, hso r2, hso r3⟩
              cases r3
              · exact Or.inr rfl
              · exact Or.inl rfl

/-- A new run of the stored test pipeline: `Status` goes to running and then to
success. -/
theorem status_lifecycle_witness :
    executionOfNewRun.2 = Completion.returned ∧
      statusWrites executionOfNewRun.1.trace = [StatusRunning, StatusSuccess] ∧
      (statusWrites executionOfNewRun.1.trace).getLast? =
        some (executionOfNewRun.1.heap.mem 3).Status := by
  have W := status_lifecycle memoryStore exampleInputs 1 threePipelinesHeap "run-1" 7
    "test-pipeline" "main" readyExecutor executionOfNewRun.1 rfl
  exact ⟨rfl, by decide, W.2.2.1⟩

/-! ## Errors of `UpdatePipelineRun` do not reach the run -/

theorem sameButStore_addLog {σ₁ σ₂ : Type} (R : σ₁ → σ₂ → Prop) (a : ExecState σ₁)
    (b : ExecState σ₂) (p : Ptr) (stage status content : String) (hab : sameButStore R a b) :
    sameButStore R (addLog a p stage status content) (addLog b p stage status content) := by
  obtain ⟨h1, h2, h3, h4, h5⟩ := hab
  simp only [sameButStore, addLog, h1]
  exact ⟨trivial, h2, h3, h4, h5⟩

theorem sameButStore_setStatus {σ₁ σ₂ : Type} (R : σ₁ → σ₂ → Prop) (a : ExecState σ₁)
    (b : ExecState σ₂) (p : Ptr) (v : String) (hab : sameButStore R a b) :
    sameButStore R (setStatus a p v) (setStatus b p v) := by
  obtain ⟨h1, h2, h3, h4, h5⟩ := hab
  simp only [sameButStore, setStatus, h1]
  exact ⟨trivial, h2, h3, h4, h5⟩

theorem sameButStore_setUpdatedAt {σ₁ σ₂ : Type} (R : σ₁ → σ₂ → Prop) (inp : Inputs)
    (a : ExecState σ₁) (b : ExecState σ₂) (p : Ptr) (hab : sameButStore R a b) :
    sameButStore R (setUpdatedAt inp a p) (setUpdatedAt inp b p) := by
  obtain ⟨h1, h2, h3, h4, h5⟩ := hab
  simp only [sameButStore, setUpdatedAt, h1, h2]
  exact ⟨trivial, trivial, h3, h4, h5⟩

theorem sameButStore_trace {σ₁ σ₂ : Type} (R : σ₁ → σ₂ → Prop) (a : ExecState σ₁)
    (b : ExecState σ₂) (ta tb : List Event) (hab : sameButStore R a b) :
    sameButStore R { a with trace := ta } { b with trace := tb } := hab

theorem sameButStore_update {σ₁ σ₂ : Type} (S₁ : Store σ₁) (S₂ : Store σ₂)
    (R : σ₁ → σ₂ → Prop) (hS : agreeButUpdateErrors S₁ S₂ R) (a : ExecState σ₁)
    (b : ExecState σ₂) (p : Ptr) (hab : sameButStore R a b) :
    sameButStore R (updatePipelineRun S₁ a p) (updatePipelineRun S₂ b p) := by
  obtain ⟨h1, h2, h3, h4, h5⟩ := hab
  refine ⟨h1, h2, h3, h4, ?_⟩
  have := hS.2.2 _ _ a.heap p h5
  simp only [updatePipelineRun]
  rw [← h1]
  exact this

theorem sameButStore_persist {σ₁ σ₂ : Type} (S₁ : Store σ₁) (S₂ : Store σ₂)
    (R : σ₁ → σ₂ → Prop) (hS : agreeButUpdateErrors S₁ S₂ R) (inp : Inputs)
    (a : ExecState σ₁) (b : ExecState σ₂) (p : Ptr) (hab : sameButStore R a b) :
    sameButStore R (persistStage S₁ inp a p) (persistStage S₂ inp b p) :=
  sameButStore_update S₁ S₂ R hS _ _ p (sameButStore_setUpdatedAt R inp a b p hab)

theorem sameButStore_runExec {σ₁ σ₂ : Type} (R : σ₁ → σ₂ → Prop) (failureRate : ℚ)
    (delay : Int) (r : ℚ) (a : ExecState σ₁) (b : ExecState σ₂) (p : Ptr) (runStage : RunStage)
    (hab : sameButStore R a b) :
    sameButStore R (runExecFuncConstructor failureRate delay r a p runStage).1
        (runExecFuncConstructor failureRate delay r b p runStage).1 ∧
      (runExecFuncConstructor failureRate delay r a p runStage).2 =
        (runExecFuncConstructor failureRate delay r b p runStage).2 := by
  obtain ⟨h1, h2, h3, h4, h5⟩ := hab
  unfold runExecFuncConstructor
  cases runStage.Validate with
  | some err =>
    refine ⟨⟨?_, h2, h3, h4, h5⟩, rfl⟩
    simp [h1]
  | none =>
    by_cases hr : r < failureRate
    · simp only [hr, if_true]
      refine ⟨⟨?_, h2, h3, h4, h5⟩, trivial⟩
      simp [addLog, h1]
    · simp only [hr, if_false]
      refine ⟨⟨?_, h2, h3, h4, h5⟩, trivial⟩
      simp [addLog, h1]

theorem sameButStore_buildExec {σ₁ σ₂ : Type} (R : σ₁ → σ₂ → Prop) (failureRate : ℚ)
    (delay : Int) (r : ℚ) (a : ExecState σ₁) (b : ExecState σ₂) (p : Ptr) (buildStage : BuildStage)
    (hab : sameButStore R a b) :
    sameButStore R (buildExecFuncConstructor failureRate delay r a p buildStage).1
        (buildExecFuncConstructor failureRate delay r b p buildStage).1 ∧
      (buildExecFuncConstructor failureRate delay r a p buildStage).2 =
        (buildExecFuncConstructor failureRate delay r b p buildStage).2 := by
  obtain ⟨h1, h2, h3, h4, h5⟩ := hab
  unfold buildExecFuncConstructor
  cases buildStage.Validate with
  | some err =>
    refine ⟨⟨?_, h2, h3, h4, h5⟩, rfl⟩
    simp [h1]
  | none =>
    by_cases hr : r < failureRate
    · simp only [hr, if_true]
      refine ⟨⟨?_, h2, h3, h4, h5⟩, trivial⟩
      simp [addLog, h1]
    · simp only [hr, if_false]
      refine ⟨⟨?_, h2, h3, h4, h5⟩, trivial⟩
      simp [addLog, h1]

theorem sameButStore_deployExec {σ₁ σ₂ : Type} (R : σ₁ → σ₂ → Prop) (failureRate : ℚ)
    (delay : Int) (r : ℚ) (a : ExecState σ₁) (b : ExecState σ₂) (p : Ptr) (deployStage : DeployStage)
    (hab : sameButStore R a b) :
    sameButStore R (deployExecFuncConstructor failureRate delay r a p deployStage).1
        (deployExecFuncConstructor failureRate delay r b p deployStage).1 ∧
      (deployExecFuncConstructor failureRate delay r a p deployStage).2 =
        (deployExecFuncConstructor failureRate delay r b p deployStage).2 := by
  obtain ⟨h1, h2, h3, h4, h5⟩ := hab
  unfold deployExecFuncConstructor
  cases deployStage.Validate with
  | some err =>
    refine ⟨⟨?_, h2, h3, h4, h5⟩, rfl⟩
    simp [h1]
  | none =>
    by_cases hr : r < failureRate
    · simp only [hr, if_true]
      refine ⟨⟨?_, h2, h3, h4, h5⟩, trivial⟩
      simp [addLog, h1]
    · simp only [hr, if_false]
      refine ⟨⟨?_, h2, h3, h4, h5⟩, trivial⟩
      simp [addLog, h1]

theorem sameButStore_deployStage {σ₁ σ₂ : Type} (S₁ : Store σ₁) (S₂ : Store σ₂)
    (R : σ₁ → σ₂ → Prop) (hS : agreeButUpdateErrors S₁ S₂ R) (inp : Inputs) (p : Ptr)
    (pipeline : Pipeline) (a : ExecState σ₁) (b : ExecState σ₂) (hab : sameButStore R a b) :
    sameButStore R (executeDeployStage S₁ inp p pipeline a).1
        (executeDeployStage S₂ inp p pipeline b).1 ∧
      (executeDeployStage S₁ inp p pipeline a).2 =
        (executeDeployStage S₂ inp p pipeline b).2 := by
  have h3 := hab.2.2.1
  have h4 := hab.2.2.2.1
  unfold executeDeployStage
  cases hd : pipeline.Stages.get? StageDeploy with
  | none => exact ⟨hab, rfl⟩
  | some stage =>
    cases stage with
    | run _ => exact ⟨hab, rfl⟩
    | build _ => exact ⟨hab, rfl⟩
    | deploy ds =>
      simp only
      rw [← h3, ← h4]
      have E := sameButStore_deployExec R a.executor.failureRate a.executor.delay
        inp.randDeploy { a with trace := a.trace ++ [Event.stageExecutor StageDeploy] }
        { b with trace := b.trace ++ [Event.stageExecutor StageDeploy] } p ds
        (sameButStore_trace R a b _ _ hab)
      generalize deployExecFuncConstructor a.executor.failureRate a.executor.delay
        inp.randDeploy { a with trace := a.trace ++ [Event.stageExecutor StageDeploy] } p ds
        = ra at E ⊢
      generalize deployExecFuncConstructor a.executor.failureRate a.executor.delay
        inp.randDeploy { b with trace := b.trace ++ [Event.stageExecutor StageDeploy] } p ds
        = rb at E ⊢
      obtain ⟨sa, ea⟩ := ra
      obtain ⟨sb, eb⟩ := rb
      obtain ⟨E1, E2⟩ := E
      simp only at E1 E2
      subst E2
      cases ea with
      | none =>
        exact ⟨sameButStore_update S₁ S₂ R hS _ _ p
          (sameButStore_setUpdatedAt R inp _ _ p
            (sameButStore_setStatus R _ _ p _ (sameButStore_trace R sa sb _ _ E1))), rfl⟩
      | some err =>
        exact ⟨sameButStore_update S₁ S₂ R hS _ _ p
          (sameButStore_setUpdatedAt R inp _ _ p
            (sameButStore_setStatus R _ _ p _ (sameButStore_trace R sa sb _ _ E1))), rfl⟩

theorem sameButStore_buildStage {σ₁ σ₂ : Type} (S₁ : Store σ₁) (S₂ : Store σ₂)
    (R : σ₁ → σ₂ → Prop) (hS : agreeButUpdateErrors S₁ S₂ R) (inp : Inputs) (p : Ptr)
    (pipeline : Pipeline) (a : ExecState σ₁) (b : ExecState σ₂) (hab : sameButStore R a b) :
    sameButStore R (executeBuildStage S₁ inp p pipeline a).1
        (executeBuildStage S₂ inp p pipeline b).1 ∧
      (executeBuildStage S₁ inp p pipeline a).2 =
        (executeBuildStage S₂ inp p pipeline b).2 := by
  have h3 := hab.2.2.1
  have h4 := hab.2.2.2.1
  unfold executeBuildStage
  cases hd : pipeline.Stages.get? StageBuild with
  | none => exact ⟨hab, rfl⟩
  | some stage =>
    cases stage with
    | run _ => exact ⟨hab, rfl⟩
    | deploy _ => exact ⟨hab, rfl⟩
    | build bs =>
      simp only
      rw [← h3, ← h4]
      have E := sameButStore_buildExec R a.executor.failureRate a.executor.delay
        inp.randBuild { a with trace := a.trace ++ [Event.stageExecutor StageBuild] }
        { b with trace := b.trace ++ [Event.stageExecutor StageBuild] } p bs
        (sameButStore_trace R a b _ _ hab)
      generalize buildExecFuncConstructor a.executor.failureRate a.executor.delay
        inp.randBuild { a with trace := a.trace ++ [Event.stageExecutor StageBuild] } p bs
        = ra at E ⊢
      generalize buildExecFuncConstructor a.executor.failureRate a.executor.delay
        inp.randBuild { b with trace := b.trace ++ [Event.stageExecutor StageBuild] } p bs
        = rb at E ⊢
      obtain ⟨sa, ea⟩ := ra
      obtain ⟨sb, eb⟩ := rb
      obtain ⟨E1, E2⟩ := E
      simp only at E1 E2
      subst E2
      cases ea with
      | none =>
        exact sameButStore_deployStage S₁ S₂ R hS inp p pipeline _ _
          (sameButStore_persist S₁ S₂ R hS inp _ _ p (sameButStore_trace R sa sb _ _ E1))
      | some err =>
        simp only
        by_cases hcoe : bs.ContinueOnError = false
        · simp only [hcoe, if_true]
          exact ⟨sameButStore_update S₁ S₂ R hS _ _ p
            (sameButStore_setUpdatedAt R inp _ _ p
              (sameButStore_setStatus R _ _ p _ (sameButStore_trace R sa sb _ _ E1))), trivial⟩
        · simp only [hcoe, if_false]
          exact sameButStore_deployStage S₁ S₂ R hS inp p pipeline _ _
            (sameButStore_persist S₁ S₂ R hS inp _ _ p (sameButStore_trace R sa sb _ _ E1))

theorem sameButStore_stages {σ₁ σ₂ : Type} (S₁ : Store σ₁) (S₂ : Store σ₂)
    (R : σ₁ → σ₂ → Prop) (hS : agreeButUpdateErrors S₁ S₂ R) (inp : Inputs) (p : Ptr)
    (pipeline : Pipeline) (a : ExecState σ₁) (b : ExecState σ₂) (hab : sameButStore R a b) :
    sameButStore R (executeStages S₁ inp p pipeline a).1
        (executeStages S₂ inp p pipeline b).1 ∧
      (executeStages S₁ inp p pipeline a).2 = (executeStages S₂ inp p pipeline b).2 := by
  have hab0 := sameButStore_setStatus R a b p StatusRunning hab
  have h3 := hab0.2.2.1
  have h4 := hab0.2.2.2.1
  unfold executeStages
  simp only
  cases hd : pipeline.Stages.get? StageRun with
  | none => exact ⟨hab0, rfl⟩
  | some stage =>
    cases stage with
    | build _ => exact ⟨hab0, rfl⟩
    | deploy _ => exact ⟨hab0, rfl⟩
    | run rs =>
      simp only
      rw [← h3, ← h4]
      have E := sameButStore_runExec R (setStatus a p StatusRunning).executor.failureRate
        (setStatus a p StatusRunning).executor.delay inp.randRun
        { setStatus a p StatusRunning with
          trace := (setStatus a p StatusRunning).trace ++ [Event.stageExecutor StageRun] }
        { setStatus b p StatusRunning with
          trace := (setStatus b p StatusRunning).trace ++ [Event.stageExecutor StageRun] }
        p rs (sameButStore_trace R _ _ _ _ hab0)
      generalize runExecFuncConstructor (setStatus a p StatusRunning).executor.failureRate
        (setStatus a p StatusRunning).executor.delay inp.randRun
        { setStatus a p StatusRunning with
          trace := (setStatus a p StatusRunning).trace ++ [Event.stageExecutor StageRun] }
        p rs = ra at E ⊢
      generalize runExecFuncConstructor (setStatus a p StatusRunning).executor.failureRate
        (setStatus a p StatusRunning).executor.delay inp.randRun
        { setStatus b p StatusRunning with
          trace := (setStatus b p StatusRunning).trace ++ [Event.stageExecutor StageRun] }
        p rs = rb at E ⊢
      obtain ⟨sa, ea⟩ := ra
      obtain ⟨sb, eb⟩ := rb
      obtain ⟨E1, E2⟩ := E
      simp only at E1 E2
      subst E2
      cases ea with
      | none =>
        exact sameButStore_buildStage S₁ S₂ R hS inp p pipeline _ _
          (sameButStore_persist S₁ S₂ R hS inp _ _ p (sameButStore_trace R sa sb _ _ E1))
      | some err =>
        simp only
        by_cases hcoe : rs.ContinueOnError = false
        · simp only [hcoe, if_true]
          exact ⟨sameButStore_update S₁ S₂ R hS _ _ p
            (sameButStore_setStatus R _ _ p _
              (sameButStore_setUpdatedAt R inp _ _ p (sameButStore_trace R sa sb _ _ E1))),
            trivial⟩
        · simp only [hcoe, if_false]
          exact sameButStore_buildStage S₁ S₂ R hS inp p pipeline _ _
            (sameButStore_persist S₁ S₂ R hS inp _ _ p
              (sameButStore_setUpdatedAt R inp _ _ p (sameButStore_trace R sa sb _ _ E1)))

theorem sameButStore_waitLoop {σ₁ σ₂ : Type} (S₁ : Store σ₁) (S₂ : Store σ₂)
    (R : σ₁ → σ₂ → Prop) (hS : agreeButUpdateErrors S₁ S₂ R) (p : Ptr) (pipeline : Pipeline)
    (fuel : Nat) (a : ExecState σ₁) (b : ExecState σ₂) (hab : sameButStore R a b) :
    (executeWaitLoop S₁ p pipeline fuel a = none ∧
        executeWaitLoop S₂ p pipeline fuel b = none) ∨
      ∃ (a1 : ExecState σ₁) (b1 : ExecState σ₂) (go : Bool),
        executeWaitLoop S₁ p pipeline fuel a = some (a1, go) ∧
        executeWaitLoop S₂ p pipeline fuel b = some (b1, go) ∧ sameButStore R a1 b1 := by
  induction fuel generalizing a b with
  | zero => exact Or.inl ⟨rfl, rfl⟩
  | succ fuel ih =>
    obtain ⟨h1, h2, h3, h4, h5⟩ := hab
    have L := hS.2.1 _ _ a.heap h5
    unfold executeWaitLoop
    simp only
    rw [← h1]
    generalize S₁.ListPipelineRuns a.executor.Store a.heap = la at L ⊢
    generalize S₂.ListPipelineRuns b.executor.Store a.heap = lb at L ⊢
    obtain ⟨sa, ra⟩ := la
    obtain ⟨sb, rb⟩ := lb
    obtain ⟨L1, L2⟩ := L
    simp only at L1 L2
    subst L1
    have hab1 : sameButStore R
        ({ a with
          executor := { a.executor with Store := sa }
          trace := a.trace ++ [Event.ListPipelineRuns] } : ExecState σ₁)
        ({ heap := a.heap
           executor := { b.executor with Store := sb }
           trace := b.trace ++ [Event.ListPipelineRuns]
           clock := b.clock } : ExecState σ₂) :=
      ⟨rfl, h2, h3, h4, L2⟩
    cases hf : fatalListingError ra.2 with
    | some err =>
      right
      exact ⟨_, _, false, rfl, rfl,
        sameButStore_update S₁ S₂ R hS _ _ p
          (sameButStore_setStatus R _ _ p _ (sameButStore_addLog R _ _ p _ _ _ hab1))⟩
    | none =>
      simp only
      cases hfind : findRunning (a.heap.mem p).ID pipeline.ID ra.1 with
      | none =>
        right
        exact ⟨_, _, true, rfl, rfl, hab1⟩
      | some run =>
        exact ih _ _
          (sameButStore_trace R _ _ _ _ (sameButStore_addLog R _ _ p _ _ _ hab1))

/-- C19: errors of `UpdatePipelineRun` do not influence the run.  For two stores
that give `execute` the same pipeline and the same listings and differ at most
in what `UpdatePipelineRun` returns, two executions with the same inputs (the
same draws, hence the same stage outcomes) on the same run either both use up
the fuel, or end in the same way with the same run: the same `Status`,
`RunStatus`, `BuildStatus`, `DeployStatus` and `Logs`. -/
theorem update_errors_do_not_influence_run {σ₁ σ₂ : Type} (S₁ : Store σ₁) (S₂ : Store σ₂)
    (R : σ₁ → σ₂ → Prop) (inp : Inputs) (fuel : Nat) (h : Heap) (e₁ : Executor σ₁)
    (e₂ : Executor σ₂) (p : Ptr)
    (hS : agreeButUpdateErrors S₁ S₂ R)
    (hR : R e₁.Store e₂.Store)
    (hrate : e₁.failureRate = e₂.failureRate) (hdelay : e₁.delay = e₂.delay) :
    (execute S₁ inp fuel h e₁ p).map (fun res => (res.1.heap.mem p, res.2)) =
      (execute S₂ inp fuel h e₂ p).map (fun res => (res.1.heap.mem p, res.2)) := by
  have G := hS.1 _ _ (h.mem p).PipelineID hR
  unfold execute
  simp only
  generalize S₁.GetPipeline e₁.Store (h.mem p).PipelineID = ga at G ⊢
  generalize S₂.GetPipeline e₂.Store (h.mem p).PipelineID = gb at G ⊢
  obtain ⟨sa, ra⟩ := ga
  obtain ⟨sb, rb⟩ := gb
  obtain ⟨G1, G2⟩ := G
  simp only at G1 G2
  subst G1
  have hab : sameButStore R
      ({ heap := h, executor := { e₁ with Store := sa },
         trace := [Event.GetPipeline (h.mem p).PipelineID], clock := 0 } : ExecState σ₁)
      ({ heap := h, executor := { e₂ with Store := sb },
         trace := [Event.GetPipeline (h.mem p).PipelineID], clock := 0 } : ExecState σ₂) :=
    ⟨rfl, rfl, hrate, hdelay, G2⟩
  cases ra with
  | error err =>
    have hu := sameButStore_update S₁ S₂ R hS _ _ p
      (sameButStore_setStatus R _ _ p StatusFailed
        (sameButStore_addLog R _ _ p StageRun StatusFailed
          ("error getting pipeline from store: " ++ err.Error) hab))
    simp only [Option.map_some']
    rw [hu.1]
  | ok pipeline =>
    simp only
    rcases sameButStore_waitLoop S₁ S₂ R hS p pipeline fuel _ _ hab with
      ⟨ha, hb⟩ | ⟨a1, b1, go, ha, hb, hab1⟩
    · rw [ha, hb]
      rfl
    · rw [ha, hb]
      cases go with
      | false =>
        simp only [Option.map_some']
        rw [hab1.1]
      | true =>
        have hst := sameButStore_stages S₁ S₂ R hS inp p pipeline a1 b1 hab1
        simp only [Option.map_some']
        rw [hst.1.1, hst.2]

theorem scriptedStore_agree :
    agreeButUpdateErrors scriptedStore scriptedStore sameScriptButUpdates := by
  refine ⟨?_, ?_, ?_⟩
  · intro s₁ s₂ id hR
    exact ⟨hR.1, hR⟩
  · intro s₁ s₂ h hR
    obtain ⟨h1, h2⟩ := hR
    simp only [scriptedStore, sameScriptButUpdates, h1, h2]
    exact ⟨trivial, trivial, trivial⟩
  · intro s₁ s₂ h p hR
    exact hR

/-- Two scripted stores that differ only in the errors of `UpdatePipelineRun`. -/
theorem update_errors_do_not_influence_run_witness :
    sameScriptButUpdates quietScript failingUpdatesScript ∧
      (execute scriptedStore exampleInputs 1 threePipelinesHeap
          (NewExecutor quietScript 2 5 2 0 10000000) 0).map
          (fun res => (res.1.heap.mem 0, res.2)) =
        (execute scriptedStore exampleInputs 1 threePipelinesHeap
          (NewExecutor failingUpdatesScript 2 5 2 0 10000000) 0).map
          (fun res => (res.1.heap.mem 0, res.2)) :=
  ⟨⟨rfl, rfl⟩,
    update_errors_do_not_influence_run scriptedStore scriptedStore sameScriptButUpdates
      exampleInputs 1 threePipelinesHeap (NewExecutor quietScript 2 5 2 0 10000000)
      (NewExecutor failingUpdatesScript 2 5 2 0 10000000) 0 scriptedStore_agree ⟨rfl, rfl⟩ rfl
      rfl⟩

/-! ## A run that succeeds on the memory store -/

theorem findRunning_none (runID pipelineID : String) (runs : List PipelineRun)
    (hnone : ∀ run ∈ runs, run.ID ≠ runID → run.PipelineID = pipelineID →
      run.Status ≠ StatusRunning) :
    findRunning runID pipelineID runs = none := by
  induction runs with
  | nil => rfl
  | cons run rest ih =>
    have hrest := ih (fun r hr => hnone r (List.mem_cons_of_mem run hr))
    have hrun := hnone run (List.mem_cons_self run rest)
    unfold findRunning
    by_cases hid : run.ID = runID
    · simp only [hid, if_true]
      exact hrest
    · simp only [hid, if_false]
      by_cases hp : run.PipelineID = pipelineID ∧ run.Status = StatusRunning
      · exact absurd hp.2 (hrun hid hp.1)
      · simp only [hp, if_false]
        exact hrest

/-- The deploy stage on the memory store when the stage is valid and the draw is
not below the failure rate. -/
theorem executeDeployStage_success (inp : Inputs) (p : Ptr) (pipeline : Pipeline)
    (st : ExecState MemoryStore) (ds : DeployStage)
    (hds : pipeline.Stages.get? StageDeploy = some (Stage.deploy ds))
    (hv : ds.Validate = none) (hr : ¬ inp.randDeploy < st.executor.failureRate)
    (hstored : st.executor.Store.pipelineRuns.get? (st.heap.mem p).ID = some p) :
    (executeDeployStage memoryStore inp p pipeline st).2 = Completion.returned ∧
      statusesOf ((executeDeployStage memoryStore inp p pipeline st).1.heap.mem p) =
        { statusesOf (st.heap.mem p) with
          DeployStatus := StatusSuccess, Status := StatusSuccess } ∧
      (executeDeployStage memoryStore inp p pipeline st).1.executor.Store.pipelineRuns.get?
        (st.heap.mem p).ID = some p ∧
      (executeDeployStage memoryStore inp p pipeline st).1.trace.getLast? =
        some (Event.UpdatePipelineRun
          ((executeDeployStage memoryStore inp p pipeline st).1.heap.mem p) none) ∧
      ((executeDeployStage memoryStore inp p pipeline st).1.heap.mem p).Logs.indexString
          StageDeploy =
        (st.heap.mem p).Logs.indexString StageDeploy ++
          logTmpl (st.heap.mem p).PipelineID (st.heap.mem p).ID StageDeploy StatusRunning
            "starting..." ++
          logTmpl (st.heap.mem p).PipelineID (st.heap.mem p).ID StageDeploy StatusRunning
            ("deploying to cluster name: " ++ ds.ClusterName) ++
          logTmpl (st.heap.mem p).PipelineID (st.heap.mem p).ID StageDeploy StatusSuccess
            "finished" := by
  simp only [executeDeployStage, hds, deployExecFuncConstructor, hv, hr, if_false]
  refine ⟨trivial, ?_, ?_, ?_, ?_⟩
  · simp [updatePipelineRun, setUpdatedAt, setStatus, addLog, statusesOf]
  · simp [updatePipelineRun, setUpdatedAt, setStatus, addLog, memoryStore,
      MemoryStore.UpdatePipelineRun, hstored, GoMap.get?_set]
  · simp [updatePipelineRun, setUpdatedAt, setStatus, addLog, memoryStore,
      MemoryStore.UpdatePipelineRun, hstored, GoMap.get?_set]
  · simp [updatePipelineRun, setUpdatedAt, setStatus, addLog, GoMap.indexString,
      GoMap.get?_set]

/-- The build stage on the memory store when the stage is valid and the draw is
not below the failure rate: the deploy stage is entered from a state `mid`. -/
theorem executeBuildStage_success (inp : Inputs) (p : Ptr) (pipeline : Pipeline)
    (st : ExecState MemoryStore) (bs : BuildStage)
    (hbs : pipeline.Stages.get? StageBuild = some (Stage.build bs))
    (hv : bs.Validate = none) (hr : ¬ inp.randBuild < st.executor.failureRate)
    (hstored : st.executor.Store.pipelineRuns.get? (st.heap.mem p).ID = some p) :
    ∃ mid : ExecState MemoryStore,
      executeBuildStage memoryStore inp p pipeline st =
        executeDeployStage memoryStore inp p pipeline mid ∧
      statusesOf (mid.heap.mem p) =
        { statusesOf (st.heap.mem p) with BuildStatus := StatusSuccess } ∧
      mid.executor.Store.pipelineRuns.get? (st.heap.mem p).ID = some p ∧
      mid.executor.failureRate = st.executor.failureRate := by
  simp only [executeBuildStage, hbs, buildExecFuncConstructor, hv, hr, if_false]
  refine ⟨_, rfl, ?_, ?_, ?_⟩
  · simp [persistStage, updatePipelineRun, setUpdatedAt, addLog, statusesOf]
  · simp [persistStage, updatePipelineRun, setUpdatedAt, addLog, memoryStore,
      MemoryStore.UpdatePipelineRun, hstored, GoMap.get?_set]
  · simp [persistStage, updatePipelineRun, setUpdatedAt, addLog]

/-- The run stage on the memory store when the stage is valid and the draw is not
below the failure rate: the build stage is entered from a state `mid`. -/
theorem executeStages_success (inp : Inputs) (p : Ptr) (pipeline : Pipeline)
    (st : ExecState MemoryStore) (rs : RunStage)
    (hrs : pipeline.Stages.get? StageRun = some (Stage.run rs))
    (hv : rs.Validate = none) (hr : ¬ inp.randRun < st.executor.failureRate)
    (hstored : st.executor.Store.pipelineRuns.get? (st.heap.mem p).ID = some p) :
    ∃ mid : ExecState MemoryStore,
      executeStages memoryStore inp p pipeline st =
        executeBuildStage memoryStore inp p pipeline mid ∧
      statusesOf (mid.heap.mem p) =
        { statusesOf (st.heap.mem p) with
          Status := StatusRunning, RunStatus := StatusSuccess } ∧
      mid.executor.Store.pipelineRuns.get? (st.heap.mem p).ID = some p ∧
      mid.executor.failureRate = st.executor.failureRate := by
  have hr' : ¬ inp.randRun < (setStatus st p StatusRunning).executor.failureRate := hr
  simp only [executeStages, hrs, runExecFuncConstructor, hv, hr', if_false]
  refine ⟨_, rfl, ?_, ?_, ?_⟩
  · simp [persistStage, updatePipelineRun, setUpdatedAt, setStatus, addLog, statusesOf]
  · simp [persistStage, updatePipelineRun, setUpdatedAt, setStatus, addLog, memoryStore,
      MemoryStore.UpdatePipelineRun, hstored, GoMap.get?_set]
  · simp [persistStage, updatePipelineRun, setUpdatedAt, setStatus, addLog]

theorem logTmpl_contains (log pipelineID runID stage status content : String) :
    ∃ pre post : String,
      log ++ logTmpl pipelineID runID stage status content = pre ++ content ++ post :=
  ⟨log ++ ("Pipeline: " ++ pipelineID ++ ", Run: " ++ runID ++ ", Stage: " ++ stage ++
      ", Status: " ++ status ++ " - "), "\n", by simp [logTmpl, String.append_assoc]⟩

/-- C16: on the memory store, for a run that is in the store, whose pipeline is in
the store with three stages that pass validation, with failure rate 0 (and
draws that are not negative) and no other stored run of that pipeline in status
running, `execute` returns after one round of the waiting loop with `Status`,
`RunStatus`, `BuildStatus` and `DeployStatus` all success; the store returns the
run for its ID, the last event is an `UpdatePipelineRun` call with the run in
its final state that returned no error, and the deploy log contains
"finished". -/
theorem execute_succeeds_on_valid_pipeline (inp : Inputs) (fuel : Nat) (h : Heap)
    (e : Executor MemoryStore) (p : Ptr) (pipeline : Pipeline) (rs : RunStage)
    (bs : BuildStage) (ds : DeployStage)
    (hpipeline : e.Store.pipelines.get? (h.mem p).PipelineID = some pipeline)
    (hstored : e.Store.pipelineRuns.get? (h.mem p).ID = some p)
    (hothers : ∀ run ∈ e.Store.ListPipelineRuns h, run.ID ≠ (h.mem p).ID →
      run.PipelineID = pipeline.ID → run.Status ≠ StatusRunning)
    (hrs : pipeline.Stages.get? StageRun = some (Stage.run rs))
    (hbs : pipeline.Stages.get? StageBuild = some (Stage.build bs))
    (hds : pipeline.Stages.get? StageDeploy = some (Stage.deploy ds))
    (hvr : rs.Validate = none) (hvb : bs.Validate = none) (hvd : ds.Validate = none)
    (hrate : e.failureRate = 0)
    (hrun : 0 ≤ inp.randRun) (hbuild : 0 ≤ inp.randBuild) (hdeploy : 0 ≤ inp.randDeploy) :
    ∃ st' : ExecState MemoryStore,
      execute memoryStore inp (fuel + 1) h e p = some (st', Completion.returned) ∧
      (st'.heap.mem p).Status = StatusSuccess ∧
      (st'.heap.mem p).RunStatus = StatusSuccess ∧
      (st'.heap.mem p).BuildStatus = StatusSuccess ∧
      (st'.heap.mem p).DeployStatus = StatusSuccess ∧
      st'.executor.Store.GetPipelineRun (st'.heap.mem p).ID = .ok p ∧
      st'.trace.getLast? = some (Event.UpdatePipelineRun (st'.heap.mem p) none) ∧
      ∃ pre post : String,
        (st'.heap.mem p).Logs.indexString StageDeploy = pre ++ "finished" ++ post := by
  have hfind := findRunning_none (h.mem p).ID pipeline.ID (e.Store.ListPipelineRuns h) hothers
  have hE : execute memoryStore inp (fuel + 1) h e p =
      some (executeStages memoryStore inp p pipeline
        { heap := h, executor := e,
          trace := [Event.GetPipeline (h.mem p).PipelineID, Event.ListPipelineRuns],
          clock := 0 }) := by
    simp [execute, memoryStore, MemoryStore.GetPipeline, hpipeline, executeWaitLoop,
      fatalListingError, hfind]
  obtain ⟨mid1, h1, s1, g1, f1⟩ := executeStages_success inp p pipeline
    { heap := h, executor := e,
      trace := [Event.GetPipeline (h.mem p).PipelineID, Event.ListPipelineRuns],
      clock := 0 } rs hrs hvr (by simp only [hrate]; exact not_lt.mpr hrun) hstored
  simp only at s1 g1 f1
  have hid1 : (mid1.heap.mem p).ID = (h.mem p).ID := by
    have := congrArg RunStatuses.ID s1
    simpa [statusesOf] using this
  obtain ⟨mid2, h2, s2, g2, f2⟩ := executeBuildStage_success inp p pipeline mid1 bs hbs hvb
    (by rw [f1, hrate]; exact not_lt.mpr hbuild) (by rw [hid1]; exact g1)
  have hid2 : (mid2.heap.mem p).ID = (h.mem p).ID := by
    have := congrArg RunStatuses.ID s2
    simp [statusesOf] at this
    rw [this, hid1]
  rw [hid1] at g2
  obtain ⟨d1, d2, d3, d4, d5⟩ := executeDeployStage_success inp p pipeline mid2 ds hds hvd
    (by rw [f2, f1, hrate]; exact not_lt.mpr hdeploy) (by rw [hid2]; exact g2)
  rw [h1, h2] at hE
  rw [s2, s1] at d2
  simp [statusesOf] at d2
  obtain ⟨i1, i2, i3, i4, i5, i6⟩ := d2
  refine ⟨(executeDeployStage memoryStore inp p pipeline mid2).1, ?_, i3, i4, i5, i6, ?_, d4,
    ?_⟩
  · rw [hE, ← d1]
  · rw [i1, ← hid2]
    simp [MemoryStore.GetPipelineRun, d3]
  · rw [d5]
    exact logTmpl_contains _ _ _ _ _ _

/-- The test "TriggerPipeline creates new run": the triggered run of the test
pipeline ends with `Status` success. -/
theorem execute_succeeds_on_valid_pipeline_witness :
    firstTrigger.executor.failureRate = 0 ∧
      ∃ st' : ExecState MemoryStore,
        execute memoryStore exampleInputs 1 firstTrigger.heap firstTrigger.executor 3 =
          some (st', Completion.returned) ∧
        (st'.heap.mem 3).Status = StatusSuccess := by
  have W := execute_succeeds_on_valid_pipeline exampleInputs 0 firstTrigger.heap
    firstTrigger.executor 3 testPipeline
    { Name := StageRun, Command := "go test ./...", ContOnError := false, Validator := none }
    { Name := StageBuild, DockerfilePath := "Dockerfile", ContOnError := false,
      Validator := none }
    { Name := StageDeploy, ClusterName := "test-cluster", ManifestPath := "k8s/",
      ContOnError := false, Validator := none }
    rfl (by decide) (by decide) rfl rfl rfl rfl rfl rfl rfl (by decide) (by decide)
    (by decide)
  obtain ⟨st', W1, W2, _⟩ := W
  exact ⟨rfl, st', W1, W2⟩

/-! ## The stage executors on a valid stage -/

theorem GoMap.indexString_set (m : GoMap String) (k k' : String) (v : String) :
    (m.set k v).indexString k' = if k' = k then v else m.indexString k' := by
  simp only [GoMap.indexString, GoMap.get?_set]
  split <;> rfl

/-- C21: each stage executor on a stage that passes validation, with the random
draw `r` in `[0, 1)` as an input.  If `r < failureRate` it appends the
"starting..." line, the parameter line and the "failed" line to the log of its
stage, sets the status of its stage to failed and returns an error; otherwise it
appends "starting...", the parameter line and "finished" (after sleeping for
`delay`), sets the status of its stage to success and returns no error.  So with
failure rate 0 it returns no error and with failure rate 1 it returns one. -/
theorem stage_executors_on_valid_stage {σ : Type} (failureRate : ℚ) (delay : Int) (r : ℚ)
    (st : ExecState σ) (p : Ptr) (hr0 : 0 ≤ r) (hr1 : r < 1) :
    (∀ (runStage : RunStage) (res : ExecState σ × Option Error),
        runStage.Validate = none →
        res = runExecFuncConstructor failureRate delay r st p runStage →
        (r < failureRate →
          res.2 = some (Error.other "failed") ∧
          (res.1.heap.mem p).RunStatus = StatusFailed ∧
          (res.1.heap.mem p).Logs.indexString StageRun =
            stageLog (st.heap.mem p) StageRun ("command: " ++ runStage.Command)
              StatusFailed "failed" ∧
          res.1.trace = st.trace ++
            [Event.addLog StageRun StatusRunning "starting...",
              Event.addLog StageRun StatusRunning ("command: " ++ runStage.Command),
              Event.Float64 r, Event.addLog StageRun StatusFailed "failed",
              Event.stageStatus StageRun StatusFailed]) ∧
        (¬ r < failureRate →
          res.2 = none ∧
          (res.1.heap.mem p).RunStatus = StatusSuccess ∧
          (res.1.heap.mem p).Logs.indexString StageRun =
            stageLog (st.heap.mem p) StageRun ("command: " ++ runStage.Command)
              StatusSuccess "finished" ∧
          res.1.trace = st.trace ++
            [Event.addLog StageRun StatusRunning "starting...",
              Event.addLog StageRun StatusRunning ("command: " ++ runStage.Command),
              Event.Float64 r, Event.Sleep delay,
              Event.addLog StageRun StatusSuccess "finished",
              Event.stageStatus StageRun StatusSuccess]) ∧
        (failureRate = 0 → res.2 = none) ∧
        (failureRate = 1 → res.2 ≠ none)) ∧
      (∀ (buildStage : BuildStage) (res : ExecState σ × Option Error),
        buildStage.Validate = none →
        res = buildExecFuncConstructor failureRate delay r st p buildStage →
        (r < failureRate →
          res.2 = some (Error.other "failed") ∧
          (res.1.heap.mem p).BuildStatus = StatusFailed ∧
          (res.1.heap.mem p).Logs.indexString StageBuild =
            stageLog (st.heap.mem p) StageBuild
              ("dockerfile path: " ++ buildStage.DockerfilePath) StatusFailed "failed" ∧
          res.1.trace = st.trace ++
            [Event.addLog StageBuild StatusRunning "starting...",
              Event.addLog StageBuild StatusRunning
                ("dockerfile path: " ++ buildStage.DockerfilePath),
              Event.Float64 r, Event.addLog StageBuild StatusFailed "failed",
              Event.stageStatus StageBuild StatusFailed]) ∧
        (¬ r < failureRate →
          res.2 = none ∧
          (res.1.heap.mem p).BuildStatus = StatusSuccess ∧
          (res.1.heap.mem p).Logs.indexString StageBuild =
            stageLog (st.heap.mem p) StageBuild
              ("dockerfile path: " ++ buildStage.DockerfilePath) StatusSuccess "finished" ∧
          res.1.trace = st.trace ++
            [Event.addLog StageBuild StatusRunning "starting...",
              Event.addLog StageBuild StatusRunning
                ("dockerfile path: " ++ buildStage.DockerfilePath),
              Event.Float64 r, Event.Sleep delay,
              Event.addLog StageBuild StatusSuccess "finished",
              Event.stageStatus StageBuild StatusSuccess]) ∧
        (failureRate = 0 → res.2 = none) ∧
        (failureRate = 1 → res.2 ≠ none)) ∧
      (∀ (deployStage : DeployStage) (res : ExecState σ × Option Error),
        deployStage.Validate = none →
        res = deployExecFuncConstructor failureRate delay r st p deployStage →
        (r < failureRate →
          res.2 = some (Error.other "failed") ∧
          (res.1.heap.mem p).DeployStatus = StatusFailed ∧
          (res.1.heap.mem p).Logs.indexString StageDeploy =
            stageLog (st.heap.mem p) StageDeploy
              ("deploying to cluster name: " ++ deployStage.ClusterName) StatusFailed "failed" ∧
          res.1.trace = st.trace ++
            [Event.addLog StageDeploy StatusRunning "starting...",
              Event.addLog StageDeploy StatusRunning
                ("deploying to cluster name: " ++ deployStage.ClusterName),
              Event.Float64 r, Event.addLog StageDeploy StatusFailed "failed",
              Event.stageStatus StageDeploy StatusFailed]) ∧
        (¬ r < failureRate →
          res.2 = none ∧
          (res.1.heap.mem p).DeployStatus = StatusSuccess ∧
          (res.1.heap.mem p).Logs.indexString StageDeploy =
            stageLog (st.heap.mem p) StageDeploy
              ("deploying to cluster name: " ++ deployStage.ClusterName) StatusSuccess
              "finished" ∧
          res.1.trace = st.trace ++
            [Event.addLog StageDeploy StatusRunning "starting...",
              Event.addLog StageDeploy StatusRunning
                ("deploying to cluster name: " ++ deployStage.ClusterName),
              Event.Float64 r, Event.Sleep delay,
              Event.addLog StageDeploy StatusSuccess "finished",
              Event.stageStatus StageDeploy StatusSuccess]) ∧
        (failureRate = 0 → res.2 = none) ∧
        (failureRate = 1 → res.2 ≠ none)) := by
  refine ⟨?_, ?_, ?_⟩
  · intro runStage res hv hres
    subst hres
    refine ⟨?_, ?_, ?_, ?_⟩
    · intro hlt
      simp [runExecFuncConstructor, hv, hlt, addLog, GoMap.indexString_set, stageLog,
        String.append_assoc]
    · intro hge
      simp [runExecFuncConstructor, hv, hge, addLog, GoMap.indexString_set, stageLog,
        String.append_assoc]
    · intro h0
      have hge : ¬ r < failureRate := by rw [h0]; exact not_lt.mpr hr0
      simp [runExecFuncConstructor, hv, hge]
    · intro h1
      have hlt : r < failureRate := by rw [h1]; exact hr1
      simp [runExecFuncConstructor, hv, hlt]
  · intro buildStage res hv hres
    subst hres
    refine ⟨?_, ?_, ?_, ?_⟩
    · intro hlt
      simp [buildExecFuncConstructor, hv, hlt, addLog, GoMap.indexString_set, stageLog,
        String.append_assoc]
    · intro hge
      simp [buildExecFuncConstructor, hv, hge, addLog, GoMap.indexString_set, stageLog,
        String.append_assoc]
    · intro h0
      have hge : ¬ r < failureRate := by rw [h0]; exact not_lt.mpr hr0
      simp [buildExecFuncConstructor, hv, hge]
    · intro h1
      have hlt : r < failureRate := by rw [h1]; exact hr1
      simp [buildExecFuncConstructor, hv, hlt]
  · intro deployStage res hv hres
    subst hres
    refine ⟨?_, ?_, ?_, ?_⟩
    · intro hlt
      simp [deployExecFuncConstructor, hv, hlt, addLog, GoMap.indexString_set, stageLog,
        String.append_assoc]
    · intro hge
      simp [deployExecFuncConstructor, hv, hge, addLog, GoMap.indexString_set, stageLog,
        String.append_assoc]
    · intro h0
      have hge : ¬ r < failureRate := by rw [h0]; exact not_lt.mpr hr0
      simp [deployExecFuncConstructor, hv, hge]
    · intro h1
      have hlt : r < failureRate := by rw [h1]; exact hr1
      simp [deployExecFuncConstructor, hv, hlt]

/-- With failure rate 1 and the draw 0 the run executor fails the valid run stage
of the test pipeline. -/
theorem stage_executors_on_valid_stage_witness :
    (0 : ℚ) ≤ 0 ∧ (0 : ℚ) < 1 ∧
      (runExecFuncConstructor 1 10000000 0
        ({ heap := firstTrigger.heap, executor := firstTrigger.executor, trace := [],
           clock := 0 } : ExecState MemoryStore) 3
        { Name := StageRun, Command := "go test ./...", ContOnError := false,
          Validator := none }).2 = some (Error.other "failed") :=
  ⟨by decide, by decide,
    (((stage_executors_on_valid_stage 1 10000000 0
      ({ heap := firstTrigger.heap, executor := firstTrigger.executor, trace := [],
         clock := 0 } : ExecState MemoryStore) 3 (by decide) (by decide)).1
      { Name := StageRun, Command := "go test ./...", ContOnError := false, Validator := none }
      _ rfl rfl).1 (by decide)).1⟩

/-! ## Validation of stages -/

/-- C23: for each stage kind `Validate()` is this reference: without a validator
it returns no error whatever the fields are; with a validator it returns what
the validator returns on the stage; and the default validators return an error
exactly when a required field is empty (run: `Command`; build:
`DockerfilePath`; deploy: `ClusterName` or `ManifestPath`). -/
theorem Validate_equals_reference :
    ((∀ s : RunStage, s.Validator = none → s.Validate = none) ∧
      (∀ (s : RunStage) (validator : RunStageFields → Option Error),
        s.Validator = some validator → s.Validate = validator s.toRunStageFields) ∧
      (∀ f : RunStageFields, defaultRunStageValidator f ≠ none ↔ f.Command = "")) ∧
    ((∀ s : BuildStage, s.Validator = none → s.Validate = none) ∧
      (∀ (s : BuildStage) (validator : BuildStageFields → Option Error),
        s.Validator = some validator → s.Validate = validator s.toBuildStageFields) ∧
      (∀ f : BuildStageFields, defaultBuildStageValidator f ≠ none ↔ f.DockerfilePath = "")) ∧
    ((∀ s : DeployStage, s.Validator = none → s.Validate = none) ∧
      (∀ (s : DeployStage) (validator : DeployStageFields → Option Error),
        s.Validator = some validator → s.Validate = validator s.toDeployStageFields) ∧
      (∀ f : DeployStageFields,
        defaultDeployStageValidator f ≠ none ↔ (f.ClusterName = "" ∨ f.ManifestPath = ""))) := by
  refine ⟨⟨?_, ?_, ?_⟩, ⟨?_, ?_, ?_⟩, ⟨?_, ?_, ?_⟩⟩
  · intro s hs
    simp [RunStage.Validate, hs]
  · intro s validator hs
    simp [RunStage.Validate, hs]
  · intro f
    by_cases hc : f.Command = "" <;> simp [defaultRunStageValidator, hc]
  · intro s hs
    simp [BuildStage.Validate, hs]
  · intro s validator hs
    simp [BuildStage.Validate, hs]
  · intro f
    by_cases hc : f.DockerfilePath = "" <;> simp [defaultBuildStageValidator, hc]
  · intro s hs
    simp [DeployStage.Validate, hs]
  · intro s validator hs
    simp [DeployStage.Validate, hs]
  · intro f
    by_cases hc : f.ClusterName = "" <;> by_cases hm : f.ManifestPath = "" <;>
      simp [defaultDeployStageValidator, hc, hm]

/-- The three rows of `TestRunStage_Validate`: no validator, the default validator
on an empty command, the default validator on a command. -/
theorem Validate_equals_reference_witness :
    ({ Name := StageRun, Command := "", ContOnError := false, Validator := none } :
        RunStage).Validate = none ∧
      (NewRunStage StageRun "" false).Validate =
        defaultRunStageValidator (NewRunStage StageRun "" false).toRunStageFields ∧
      defaultRunStageValidator (NewRunStage StageRun "" false).toRunStageFields ≠ none ∧
      defaultRunStageValidator (NewRunStage StageRun "echo 'hello'" false).toRunStageFields =
        none :=
  ⟨Validate_equals_reference.1.1 _ rfl,
    Validate_equals_reference.1.2.1 (NewRunStage StageRun "" false) defaultRunStageValidator rfl,
    (Validate_equals_reference.1.2.2 (NewRunStage StageRun "" false).toRunStageFields).2 rfl,
    by decide⟩

/-- C22 fails as stated: the run stage that `NewPipeline` builds has an empty
command and no validator, `Validate()` returns no error on it, and the run
stage executor (failure rate 0) runs it to success; so not every `RunStage` with
an empty `Command` fails validation. -/
theorem empty_command_passes_without_validator :
    (NewPipeline "pipeline-1" "github.com/test/repo").Stages.get? StageRun =
        some (Stage.run
          { Name := StageRun, Command := "", ContOnError := false, Validator := none }) ∧
      ({ Name := StageRun, Command := "", ContOnError := false, Validator := none } :
        RunStage).Validate = none ∧
      (runExecFuncConstructor 0 10000000 0
        ({ heap := firstTrigger.heap, executor := firstTrigger.executor, trace := [],
           clock := 0 } : ExecState MemoryStore) 3
        { Name := StageRun, Command := "", ContOnError := false, Validator := none }).2 = none ∧
      ¬ ∀ s : RunStage, s.Command = "" → s.Validate ≠ none := by
  refine ⟨rfl, rfl, by decide, ?_⟩
  intro hall
  exact hall { Name := StageRun, Command := "", ContOnError := false, Validator := none } rfl rfl

/-- C22 as amended: a stage that carries the default validator, as
`NewRunStage`, `NewBuildStage` and `NewDeployStage` build it, fails validation
when a required field is empty (run: `Command`; build: `DockerfilePath`;
deploy: `ClusterName` or `ManifestPath`).  So the `createPipeline` handler
answers such a request with status 400 and leaves the store as it is, the
`updatePipeline` handler does the same for a stored pipeline, and the stage
executor of such a stage returns an error and sets the status of its stage to
failed. -/
theorem default_validator_rejects_empty_field :
    (∀ (name command : String) (continueOnError : Bool), command = "" →
        (NewRunStage name command continueOnError).Validate ≠ none) ∧
      (∀ (name dockerfilePath : String) (continueOnError : Bool), dockerfilePath = "" →
        (NewBuildStage name dockerfilePath continueOnError).Validate ≠ none) ∧
      (∀ (name clusterName manifestPath : String) (continueOnError : Bool),
        clusterName = "" ∨ manifestPath = "" →
        (NewDeployStage name clusterName manifestPath continueOnError).Validate ≠ none) ∧
      (∀ (s : MemoryStore) (uuid : String) (req : http.PipelineRequest),
        req.Stages.RunStage.Command = "" ∨ req.Stages.BuildStage.DockerfilePath = "" ∨
          req.Stages.DeployStage.ClusterName = "" ∨ req.Stages.DeployStage.ManifestPath = "" →
        ∃ message, http.createPipeline s uuid req = (s, http.Response.error 400 message)) ∧
      (∀ (s : MemoryStore) (id : String) (req : http.PipelineRequest) (pipeline : Pipeline),
        s.GetPipeline id = .ok pipeline →
        req.Stages.RunStage.Command = "" ∨ req.Stages.BuildStage.DockerfilePath = "" ∨
          req.Stages.DeployStage.ClusterName = "" ∨ req.Stages.DeployStage.ManifestPath = "" →
        ∃ message, http.updatePipeline s id req = (s, http.Response.error 400 message)) ∧
      (∀ (σ : Type) (failureRate : ℚ) (delay : Int) (r : ℚ) (st : ExecState σ) (p : Ptr),
        (∀ (name command : String) (continueOnError : Bool), command = "" →
          (runExecFuncConstructor failureRate delay r st p
            (NewRunStage name command continueOnError)).2 ≠ none ∧
          ((runExecFuncConstructor failureRate delay r st p
            (NewRunStage name command continueOnError)).1.heap.mem p).RunStatus =
              StatusFailed) ∧
        (∀ (name dockerfilePath : String) (continueOnError : Bool), dockerfilePath = "" →
          (buildExecFuncConstructor failureRate delay r st p
            (NewBuildStage name dockerfilePath continueOnError)).2 ≠ none ∧
          ((buildExecFuncConstructor failureRate delay r st p
            (NewBuildStage name dockerfilePath continueOnError)).1.heap.mem p).BuildStatus =
              StatusFailed) ∧
        (∀ (name clusterName manifestPath : String) (continueOnError : Bool),
          clusterName = "" ∨ manifestPath = "" →
          (deployExecFuncConstructor failureRate delay r st p
            (NewDeployStage name clusterName manifestPath continueOnError)).2 ≠ none ∧
          ((deployExecFuncConstructor failureRate delay r st p
            (NewDeployStage name clusterName manifestPath continueOnError)).1.heap.mem
              p).DeployStatus = StatusFailed)) := by
  have hrun : ∀ (name command : String) (continueOnError : Bool), command = "" →
      (NewRunStage name command continueOnError).Validate =
        some (Error.other "command is required for run stage") := by
    intro name command continueOnError hc
    simp [NewRunStage, RunStage.Validate, defaultRunStageValidator, hc]
  have hbuild : ∀ (name dockerfilePath : String) (continueOnError : Bool),
      dockerfilePath = "" →
      (NewBuildStage name dockerfilePath continueOnError).Validate =
        some (Error.other "dockerfile path is required for build stage") := by
    intro name dockerfilePath continueOnError hc
    simp [NewBuildStage, BuildStage.Validate, defaultBuildStageValidator, hc]
  have hdeploy : ∀ (name clusterName manifestPath : String) (continueOnError : Bool),
      clusterName = "" ∨ manifestPath = "" →
      ∃ err, (NewDeployStage name clusterName manifestPath continueOnError).Validate =
        some err := by
    intro name clusterName manifestPath continueOnError hc
    by_cases h1 : clusterName = ""
    · refine ⟨Error.other "cluster name is required for deploy stage", ?_⟩
      simp [NewDeployStage, DeployStage.Validate, defaultDeployStageValidator, h1]
    · have h2 : manifestPath = "" := hc.resolve_left h1
      refine ⟨Error.other "manifest path is required for deploy stage", ?_⟩
      simp [NewDeployStage, DeployStage.Validate, defaultDeployStageValidator, h1, h2]
  have hreject : ∀ req : http.PipelineRequest,
      req.Stages.RunStage.Command = "" ∨ req.Stages.BuildStage.DockerfilePath = "" ∨
        req.Stages.DeployStage.ClusterName = "" ∨ req.Stages.DeployStage.ManifestPath = "" →
      (∃ err, (NewRunStage StageRun req.Stages.RunStage.Command
          req.Stages.RunStage.ContinueOnErr).Validate = some err) ∨
        (∃ err, (NewBuildStage StageBuild req.Stages.BuildStage.DockerfilePath
          req.Stages.BuildStage.ContinueOnErr).Validate = some err) ∨
        (∃ err, (NewDeployStage StageDeploy req.Stages.DeployStage.ClusterName
          req.Stages.DeployStage.ManifestPath req.Stages.DeployStage.ContinueOnErr).Validate =
            some err) := by
    intro req hreq
    rcases hreq with h | h | h | h
    · exact Or.inl ⟨_, hrun _ _ _ h⟩
    · exact Or.inr (Or.inl ⟨_, hbuild _ _ _ h⟩)
    · exact Or.inr (Or.inr (hdeploy _ _ _ _ (Or.inl h)))
    · exact Or.inr (Or.inr (hdeploy _ _ _ _ (Or.inr h)))
  refine ⟨?_, ?_, ?_, ?_, ?_, ?_⟩
  · intro name command continueOnError hc
    rw [hrun _ _ _ hc]; simp
  · intro name dockerfilePath continueOnError hc
    rw [hbuild _ _ _ hc]; simp
  · intro name clusterName manifestPath continueOnError hc
    obtain ⟨err, herr⟩ := hdeploy name clusterName manifestPath continueOnError hc
    rw [herr]; simp
  · intro s uuid req hreq
    unfold http.createPipeline
    simp only
    cases hr : (NewRunStage StageRun req.Stages.RunStage.Command
        req.Stages.RunStage.ContinueOnErr).Validate with
    | some err => exact ⟨_, rfl⟩
    | none =>
      cases hb : (NewBuildStage StageBuild req.Stages.BuildStage.DockerfilePath
          req.Stages.BuildStage.ContinueOnErr).Validate with
      | some err => exact ⟨_, rfl⟩
      | none =>
        cases hd : (NewDeployStage StageDeploy req.Stages.DeployStage.ClusterName
            req.Stages.DeployStage.ManifestPath req.Stages.DeployStage.ContinueOnErr).Validate with
        | some err => exact ⟨_, rfl⟩
        | none =>
          rcases hreject req hreq with ⟨err, h⟩ | ⟨err, h⟩ | ⟨err, h⟩
          · rw [hr] at h; cases h
          · rw [hb] at h; cases h
          · rw [hd] at h; cases h
  · intro s id req pipeline hget hreq
    unfold http.updatePipeline
    simp only [hget]
    cases hr : (NewRunStage StageRun req.Stages.RunStage.Command
        req.Stages.RunStage.ContinueOnErr).Validate with
    | some err => exact ⟨_, rfl⟩
    | none =>
      cases hb : (NewBuildStage StageBuild req.Stages.BuildStage.DockerfilePath
          req.Stages.BuildStage.ContinueOnErr).Validate with
      | some err => exact ⟨_, rfl⟩
      | none =>
        cases hd : (NewDeployStage StageDeploy req.Stages.DeployStage.ClusterName
            req.Stages.DeployStage.ManifestPath req.Stages.DeployStage.ContinueOnErr).Validate with
        | some err => exact ⟨_, rfl⟩
        | none =>
          rcases hreject req hreq with ⟨err, h⟩ | ⟨err, h⟩ | ⟨err, h⟩
          · rw [hr] at h; cases h
          · rw [hb] at h; cases h
          · rw [hd] at h; cases h
  · intro σ failureRate delay r st p
    refine ⟨?_, ?_, ?_⟩
    · intro name command continueOnError hc
      simp [runExecFuncConstructor, hrun _ _ _ hc]
    · intro name dockerfilePath continueOnError hc
      simp [buildExecFuncConstructor, hbuild _ _ _ hc]
    · intro name clusterName manifestPath continueOnError hc
      obtain ⟨err, herr⟩ := hdeploy name clusterName manifestPath continueOnError hc
      simp [deployExecFuncConstructor, herr]

/-- A request without a command for the run stage is answered with status 400 and
the store stays empty. -/
theorem default_validator_rejects_empty_field_witness :
    emptyCommandRequest.Stages.RunStage.Command = "" ∧
      ∃ message, http.createPipeline NewMemoryStore "pipeline-1" emptyCommandRequest =
        (NewMemoryStore, http.Response.error 400 message) :=
  ⟨rfl,
    default_validator_rejects_empty_field.2.2.2.1 NewMemoryStore "pipeline-1"
      emptyCommandRequest (Or.inl rfl)⟩

/-! ## The memory store -/

theorem Is_self (err : Error) : err.Is err = true := by
  cases err <;> simp [Error.Is]

theorem Is_wrap (sentinel : Error) (msg : String) :
    (Error.wrap sentinel msg).Is sentinel = true := by
  simp [Error.Is, Is_self]

/-- C26: in the memory store, `CreatePipeline` with an ID that is not stored returns
no error and `GetPipeline` with that ID then returns the created pipeline; with
an ID that is stored it returns an error that is `ErrAlreadyExists` and the store
is unchanged.  The same holds for `CreatePipelineRun` and `GetPipelineRun`. -/
theorem MemoryStore_create_then_get :
    (∀ (s : MemoryStore) (pipeline : Pipeline), s.pipelines.get? pipeline.ID = none →
        (s.CreatePipeline pipeline).2 = none ∧
        (s.CreatePipeline pipeline).1.GetPipeline pipeline.ID = .ok pipeline) ∧
      (∀ (s : MemoryStore) (pipeline stored : Pipeline),
        s.pipelines.get? pipeline.ID = some stored →
        (∃ err, (s.CreatePipeline pipeline).2 = some err ∧ err.Is Error.ErrAlreadyExists = true) ∧
        (s.CreatePipeline pipeline).1 = s ∧
        (s.CreatePipeline pipeline).1.GetPipeline pipeline.ID = .ok stored) ∧
      (∀ (s : MemoryStore) (h : Heap) (pipelineRun : Ptr),
        s.pipelineRuns.get? (h.mem pipelineRun).ID = none →
        (s.CreatePipelineRun h pipelineRun).2 = none ∧
        (s.CreatePipelineRun h pipelineRun).1.GetPipelineRun (h.mem pipelineRun).ID =
          .ok pipelineRun) ∧
      (∀ (s : MemoryStore) (h : Heap) (pipelineRun stored : Ptr),
        s.pipelineRuns.get? (h.mem pipelineRun).ID = some stored →
        (∃ err, (s.CreatePipelineRun h pipelineRun).2 = some err ∧
          err.Is Error.ErrAlreadyExists = true) ∧
        (s.CreatePipelineRun h pipelineRun).1 = s ∧
        (s.CreatePipelineRun h pipelineRun).1.GetPipelineRun (h.mem pipelineRun).ID =
          .ok stored) := by
  refine ⟨?_, ?_, ?_, ?_⟩
  · intro s pipeline hnew
    simp [MemoryStore.CreatePipeline, hnew, MemoryStore.GetPipeline, GoMap.get?_set]
  · intro s pipeline stored hold
    simp [MemoryStore.CreatePipeline, hold, MemoryStore.GetPipeline, Is_wrap]
  · intro s h pipelineRun hnew
    simp [MemoryStore.CreatePipelineRun, hnew, MemoryStore.GetPipelineRun, GoMap.get?_set]
  · intro s h pipelineRun stored hold
    simp [MemoryStore.CreatePipelineRun, hold, MemoryStore.GetPipelineRun, Is_wrap]

/-- The test pipeline is created in an empty store and found there; creating it
again fails. -/
theorem MemoryStore_create_then_get_witness :
    NewMemoryStore.pipelines.get? testPipeline.ID = none ∧
      (NewMemoryStore.CreatePipeline testPipeline).2 = none ∧
      (NewMemoryStore.CreatePipeline testPipeline).1.GetPipeline testPipeline.ID =
        .ok testPipeline ∧
      (NewMemoryStore.CreatePipeline testPipeline).1.pipelines.get? testPipeline.ID =
        some testPipeline ∧
      ((NewMemoryStore.CreatePipeline testPipeline).1.CreatePipeline testPipeline).1 =
        (NewMemoryStore.CreatePipeline testPipeline).1 :=
  ⟨rfl, (MemoryStore_create_then_get.1 NewMemoryStore testPipeline rfl).1,
    (MemoryStore_create_then_get.1 NewMemoryStore testPipeline rfl).2, rfl,
    (MemoryStore_create_then_get.2.1 (NewMemoryStore.CreatePipeline testPipeline).1 testPipeline
      testPipeline rfl).2.1⟩

/-- C27: in the memory store, `GetPipeline`, `UpdatePipeline`, `DeletePipeline`,
`GetPipelineRun` and `UpdatePipelineRun` on an ID that is not stored return an
error that is `ErrNotFound` and leave the store unchanged (the two getters do
not write at all); after a `DeletePipeline(id)` that returned no error,
`GetPipeline(id)` returns an error that is `ErrNotFound` and `GetPipeline` of
every other ID returns what it returned before. -/
theorem MemoryStore_not_found :
    (∀ (s : MemoryStore) (id : String), s.pipelines.get? id = none →
        ∃ err, s.GetPipeline id = .error err ∧ err.Is Error.ErrNotFound = true) ∧
      (∀ (s : MemoryStore) (pipeline : Pipeline), s.pipelines.get? pipeline.ID = none →
        ∃ err, s.UpdatePipeline pipeline = (s, some err) ∧ err.Is Error.ErrNotFound = true) ∧
      (∀ (s : MemoryStore) (id : String), s.pipelines.get? id = none →
        ∃ err, s.DeletePipeline id = (s, some err) ∧ err.Is Error.ErrNotFound = true) ∧
      (∀ (s : MemoryStore) (id : String), s.pipelineRuns.get? id = none →
        ∃ err, s.GetPipelineRun id = .error err ∧ err.Is Error.ErrNotFound = true) ∧
      (∀ (s : MemoryStore) (h : Heap) (run : Ptr), s.pipelineRuns.get? (h.mem run).ID = none →
        ∃ err, s.UpdatePipelineRun h run = (s, some err) ∧ err.Is Error.ErrNotFound = true) ∧
      (∀ (s : MemoryStore) (id : String), (s.DeletePipeline id).2 = none →
        (∃ err, (s.DeletePipeline id).1.GetPipeline id = .error err ∧
          err.Is Error.ErrNotFound = true) ∧
        ∀ id' : String, id' ≠ id →
          (s.DeletePipeline id).1.GetPipeline id' = s.GetPipeline id') := by
  refine ⟨?_, ?_, ?_, ?_, ?_, ?_⟩
  · intro s id hid
    simp [MemoryStore.GetPipeline, hid, Is_wrap]
  · intro s pipeline hid
    simp [MemoryStore.UpdatePipeline, hid, Is_wrap]
  · intro s id hid
    simp [MemoryStore.DeletePipeline, hid, Is_wrap]
  · intro s id hid
    simp [MemoryStore.GetPipelineRun, hid, Is_wrap]
  · intro s h run hid
    simp [MemoryStore.UpdatePipelineRun, hid, Is_wrap]
  · intro s id hdel
    cases hid : s.pipelines.get? id with
    | none => simp [MemoryStore.DeletePipeline, hid] at hdel
    | some stored =>
      refine ⟨?_, ?_⟩
      · simp [MemoryStore.DeletePipeline, hid, MemoryStore.GetPipeline, GoMap.get?_delete,
          Is_wrap]
      · intro id' hne
        simp [MemoryStore.DeletePipeline, hid, MemoryStore.GetPipeline, GoMap.get?_delete, hne]

/-- The store of the test pipeline: an unknown ID is not found, and after the
test pipeline is deleted it is not found either. -/
theorem MemoryStore_not_found_witness :
    pipelineStore.pipelines.get? "pipeline-2" = none ∧
      (∃ err, pipelineStore.GetPipeline "pipeline-2" = .error err ∧
        err.Is Error.ErrNotFound = true) ∧
      (pipelineStore.DeletePipeline "test-pipeline").2 = none ∧
      ∃ err, (pipelineStore.DeletePipeline "test-pipeline").1.GetPipeline "test-pipeline" =
        .error err ∧ err.Is Error.ErrNotFound = true :=
  ⟨rfl, MemoryStore_not_found.1 pipelineStore "pipeline-2" rfl, rfl,
    (MemoryStore_not_found.2.2.2.2.2 pipelineStore "test-pipeline" rfl).1⟩

/-! ## The counts and the length of the queue -/

/-- A key that is not in an entry list is not found and `delete` removes nothing. -/
theorem GoMap.lookup_of_not_mem (l : List (String × Int)) (k : String)
    (hk : k ∉ l.map (fun entry => entry.1)) :
    GoMap.lookup l k = none ∧ l.filter (fun e => decide (e.1 ≠ k)) = l := by
  induction l with
  | nil => exact ⟨rfl, rfl⟩
  | cons e rest ih =>
    obtain ⟨k', v⟩ := e
    simp only [List.map_cons, List.mem_cons, not_or] at hk
    obtain ⟨hne, hrest⟩ := hk
    have hne' : ¬ k' = k := fun h => hne h.symm
    obtain ⟨ih1, ih2⟩ := ih hrest
    refine ⟨?_, ?_⟩
    · simp [GoMap.lookup, hne', ih1]
    · rw [List.filter_cons, if_pos (by simpa using hne'), ih2]

/-- With one entry per key, the values sum to the values under the other keys
plus the value read at `k`. -/
theorem GoMap.sum_split (l : List (String × Int)) (k : String)
    (hnd : (l.map (fun entry => entry.1)).Nodup) :
    (l.map (fun entry => entry.2)).sum =
      ((l.filter (fun e => decide (e.1 ≠ k))).map (fun entry => entry.2)).sum +
        (GoMap.lookup l k).getD 0 := by
  induction l with
  | nil => rfl
  | cons e rest ih =>
    obtain ⟨k', v⟩ := e
    simp only [List.map_cons, List.nodup_cons] at hnd
    obtain ⟨hnot, hrest⟩ := hnd
    by_cases hk : k' = k
    · subst hk
      obtain ⟨h1, h2⟩ := GoMap.lookup_of_not_mem rest k' hnot
      rw [List.filter_cons, if_neg (by simp), h2]
      simp only [List.map_cons, List.sum_cons, GoMap.lookup, if_true, Option.getD_some]
      omega
    · rw [List.filter_cons, if_pos (by simpa using hk)]
      simp only [List.map_cons, List.sum_cons, GoMap.lookup, if_neg hk]
      rw [ih hrest]
      omega

theorem GoMap.nodup_delete (m : GoMap Int) (k : String)
    (hnd : (m.entries.map (fun entry => entry.1)).Nodup) :
    ((m.delete k).entries.map (fun entry => entry.1)).Nodup ∧
      k ∉ (m.delete k).entries.map (fun entry => entry.1) := by
  refine ⟨?_, ?_⟩
  · exact List.Nodup.sublist (List.Sublist.map _ (List.filter_sublist _)) hnd
  · simp [GoMap.delete]

theorem GoMap.nodup_set (m : GoMap Int) (k : String) (v : Int)
    (hnd : (m.entries.map (fun entry => entry.1)).Nodup) :
    ((m.set k v).entries.map (fun entry => entry.1)).Nodup := by
  have hd := GoMap.nodup_delete m k hnd
  simp only [GoMap.set, List.map_cons, List.nodup_cons]
  exact ⟨hd.2, hd.1⟩

theorem GoMap.sum_delete (m : GoMap Int) (k : String)
    (hnd : (m.entries.map (fun entry => entry.1)).Nodup) :
    ((m.delete k).entries.map (fun entry => entry.2)).sum =
      (m.entries.map (fun entry => entry.2)).sum - m.index k := by
  have hs := GoMap.sum_split m.entries k hnd
  simp only [GoMap.delete, GoMap.index, GoMap.get?]
  omega

theorem GoMap.sum_set (m : GoMap Int) (k : String) (v : Int)
    (hnd : (m.entries.map (fun entry => entry.1)).Nodup) :
    ((m.set k v).entries.map (fun entry => entry.2)).sum =
      (m.entries.map (fun entry => entry.2)).sum - m.index k + v := by
  have hs := GoMap.sum_delete m k hnd
  simp only [GoMap.set, List.map_cons, List.sum_cons]
  omega

/-- One entry per pipeline, and the counts sum to the length of the queue. -/
theorem sumCounts_step (h : Heap) (q : queue) (op : Op)
    (hnd : (q.pipelineCounts.entries.map (fun entry => entry.1)).Nodup)
    (hsum : sumCounts q = (q.queue.length : Int)) :
    ((step h q op).1.pipelineCounts.entries.map (fun entry => entry.1)).Nodup ∧
      sumCounts (step h q op).1 = ((step h q op).1.queue.length : Int) := by
  cases op with
  | enqueue item =>
    rcases Enqueue_cases h q item with ⟨_, he⟩ | ⟨_, _, he⟩ | ⟨_, _, he⟩
    · simp only [step, he]; exact ⟨hnd, hsum⟩
    · simp only [step, he]; exact ⟨hnd, hsum⟩
    · simp only [step, he]
      refine ⟨GoMap.nodup_set _ _ _ hnd, ?_⟩
      simp only [sumCounts] at hsum ⊢
      rw [GoMap.sum_set _ _ _ hnd]
      simp only [List.length_append, List.length_singleton, Nat.cast_add, Nat.cast_one]
      omega
  | dequeue =>
    cases hq : q.queue with
    | nil =>
      rw [show step h q Op.dequeue = ((Dequeue h q).1, Outcome.dequeue (Dequeue h q).2) from rfl,
        Dequeue_nil h q hq]
      exact ⟨hnd, hsum⟩
    | cons element rest =>
      rw [show step h q Op.dequeue = ((Dequeue h q).1, Outcome.dequeue (Dequeue h q).2) from rfl,
        Dequeue_cons h q element rest hq]
      simp only [sumCounts, hq, List.length_cons, Nat.cast_add, Nat.cast_one] at hsum ⊢
      have hnd1 := GoMap.nodup_set q.pipelineCounts (h.mem element).PipelineID
        (q.pipelineCounts.index (h.mem element).PipelineID - 1) hnd
      have hs1 := GoMap.sum_set q.pipelineCounts (h.mem element).PipelineID
        (q.pipelineCounts.index (h.mem element).PipelineID - 1) hnd
      split
      · rename_i hzero
        refine ⟨(GoMap.nodup_delete _ _ hnd1).1, ?_⟩
        rw [GoMap.sum_delete _ _ hnd1, hzero, hs1]
        omega
      · refine ⟨hnd1, ?_⟩
        rw [hs1]
        omega

theorem sumCounts_runOps (h : Heap) (ops : List Op) (q : queue)
    (hnd : (q.pipelineCounts.entries.map (fun entry => entry.1)).Nodup)
    (hsum : sumCounts q = (q.queue.length : Int)) :
    sumCounts (runOps h q ops).1 = ((runOps h q ops).1.queue.length : Int) := by
  induction ops generalizing q with
  | nil => exact hsum
  | cons op ops ih =>
    exact ih (step h q op).1 (sumCounts_step h q op hnd hsum).1 (sumCounts_step h q op hnd hsum).2

/-- C29: in every state reached by `Enqueue` and `Dequeue` calls from a queue made
by `newQueue`, for every pipeline ID `p` the value `pipelineCounts[p]` (0 when
absent) is the number of queued runs whose `PipelineID` is `p`; the values of
`pipelineCounts` sum to the length of the queue, and no count is negative. -/
theorem pipelineCounts_count_queued_runs (h : Heap) (N M : Int) (ops : List Op) :
    (∀ p : String,
        (runOps h (newQueue N M) ops).1.pipelineCounts.index p =
          (queuedFor h (runOps h (newQueue N M) ops).1 p : Int)) ∧
      sumCounts (runOps h (newQueue N M) ops).1 =
        ((runOps h (newQueue N M) ops).1.queue.length : Int) ∧
      ∀ p : String, 0 ≤ (runOps h (newQueue N M) ops).1.pipelineCounts.index p := by
  have hc := countsMatch_runOps h ops (newQueue N M) (countsMatch_newQueue h N M)
  have hidx := countsMatch_index h _ hc
  refine ⟨hidx, ?_, ?_⟩
  · exact sumCounts_runOps h ops (newQueue N M) (by simp [newQueue, GoMap.empty])
      (by simp [sumCounts, newQueue, GoMap.empty])
  · intro p
    rw [hidx p]
    exact Int.natCast_nonneg _

/-! ## Traces only grow -/

theorem runExec_extends {σ : Type} (failureRate : ℚ) (delay : Int) (r : ℚ) (st : ExecState σ)
    (p : Ptr) (runStage : RunStage) :
    st.trace <+: (runExecFuncConstructor failureRate delay r st p runStage).1.trace := by
  unfold runExecFuncConstructor
  split
  · simp
  · split <;> simp [addLog, List.append_assoc]

theorem buildExec_extends {σ : Type} (failureRate : ℚ) (delay : Int) (r : ℚ) (st : ExecState σ)
    (p : Ptr) (buildStage : BuildStage) :
    st.trace <+: (buildExecFuncConstructor failureRate delay r st p buildStage).1.trace := by
  unfold buildExecFuncConstructor
  split
  · simp
  · split <;> simp [addLog, List.append_assoc]

theorem deployExec_extends {σ : Type} (failureRate : ℚ) (delay : Int) (r : ℚ) (st : ExecState σ)
    (p : Ptr) (deployStage : DeployStage) :
    st.trace <+: (deployExecFuncConstructor failureRate delay r st p deployStage).1.trace := by
  unfold deployExecFuncConstructor
  split
  · simp
  · split <;> simp [addLog, List.append_assoc]

theorem executeDeployStage_extends {σ : Type} (S : Store σ) (inp : Inputs) (p : Ptr)
    (pipeline : Pipeline) (st : ExecState σ) :
    st.trace <+: (executeDeployStage S inp p pipeline st).1.trace := by
  unfold executeDeployStage
  split
  · rename_i ds hds
    have E := deployExec_extends st.executor.failureRate st.executor.delay inp.randDeploy
      { st with trace := st.trace ++ [Event.stageExecutor StageDeploy] } p ds
    have E' : st.trace <+: (deployExecFuncConstructor st.executor.failureRate
        st.executor.delay inp.randDeploy
        { st with trace := st.trace ++ [Event.stageExecutor StageDeploy] } p ds).1.trace :=
      (List.prefix_append _ _).trans E
    simp only
    split <;>
      simpa [updatePipelineRun, setUpdatedAt, setStatus, List.append_assoc] using
        E'.trans (List.prefix_append _ _)
  · exact List.prefix_refl _

theorem executeBuildStage_extends {σ : Type} (S : Store σ) (inp : Inputs) (p : Ptr)
    (pipeline : Pipeline) (st : ExecState σ) :
    st.trace <+: (executeBuildStage S inp p pipeline st).1.trace := by
  unfold executeBuildStage
  split
  · rename_i bs hbs
    have E := buildExec_extends st.executor.failureRate st.executor.delay inp.randBuild
      { st with trace := st.trace ++ [Event.stageExecutor StageBuild] } p bs
    have E' : st.trace <+: (buildExecFuncConstructor st.executor.failureRate
        st.executor.delay inp.randBuild
        { st with trace := st.trace ++ [Event.stageExecutor StageBuild] } p bs).1.trace :=
      (List.prefix_append _ _).trans E
    simp only
    split
    · split
      · simpa [updatePipelineRun, setUpdatedAt, setStatus, List.append_assoc] using
          E'.trans (List.prefix_append _ _)
      · refine List.IsPrefix.trans ?_ (executeDeployStage_extends S inp p pipeline _)
        simpa [persistStage, updatePipelineRun, setUpdatedAt, List.append_assoc] using
          E'.trans (List.prefix_append _ _)
    · refine List.IsPrefix.trans ?_ (executeDeployStage_extends S inp p pipeline _)
      simpa [persistStage, updatePipelineRun, setUpdatedAt, List.append_assoc] using
        E'.trans (List.prefix_append _ _)
  · exact List.prefix_refl _

/-- The stages start with the assignment of the status running. -/
theorem executeStages_extends {σ : Type} (S : Store σ) (inp : Inputs) (p : Ptr)
    (pipeline : Pipeline) (st : ExecState σ) :
    st.trace ++ [Event.Status StatusRunning] <+:
      (executeStages S inp p pipeline st).1.trace := by
  unfold executeStages
  simp only
  split
  · rename_i rs hrs
    have E := runExec_extends (setStatus st p StatusRunning).executor.failureRate
      (setStatus st p StatusRunning).executor.delay inp.randRun
      { setStatus st p StatusRunning with
        trace := (setStatus st p StatusRunning).trace ++ [Event.stageExecutor StageRun] } p rs
    have E' : st.trace ++ [Event.Status StatusRunning] <+:
        (runExecFuncConstructor (setStatus st p StatusRunning).executor.failureRate
          (setStatus st p StatusRunning).executor.delay inp.randRun
          { setStatus st p StatusRunning with
            trace := (setStatus st p StatusRunning).trace ++ [Event.stageExecutor StageRun] }
          p rs).1.trace :=
      (List.prefix_append _ _).trans E
    split
    · split
      · simpa [updatePipelineRun, setUpdatedAt, setStatus, List.append_assoc] using
          E'.trans (List.prefix_append _ _)
      · refine List.IsPrefix.trans ?_ (executeBuildStage_extends S inp p pipeline _)
        simpa [persistStage, updatePipelineRun, setUpdatedAt, List.append_assoc] using
          E'.trans (List.prefix_append _ _)
    · refine List.IsPrefix.trans ?_ (executeBuildStage_extends S inp p pipeline _)
      simpa [persistStage, updatePipelineRun, setUpdatedAt, List.append_assoc] using
        E'.trans (List.prefix_append _ _)
  · exact List.prefix_refl _

theorem executeWaitLoop_extends {σ : Type} (S : Store σ) (p : Ptr) (pipeline : Pipeline)
    (fuel : Nat) (st st1 : ExecState σ) (b : Bool)
    (hw : executeWaitLoop S p pipeline fuel st = some (st1, b)) : st.trace <+: st1.trace := by
  induction fuel generalizing st with
  | zero => simp [executeWaitLoop] at hw
  | succ fuel ih =>
    unfold executeWaitLoop at hw
    simp only at hw
    split at hw
    · simp only [Option.some.injEq, Prod.mk.injEq] at hw
      obtain ⟨hst, _⟩ := hw
      subst hst
      simp [updatePipelineRun, setStatus, addLog, List.append_assoc]
    · split at hw
      · have h1 := ih _ hw
        refine List.IsPrefix.trans ?_ h1
        simp [addLog, List.append_assoc]
      · simp only [Option.some.injEq, Prod.mk.injEq] at hw
        obtain ⟨hst, _⟩ := hw
        subst hst
        simp

/-! ## When a run waits -/

theorem findRunning_some (runID pipelineID : String) (runs : List PipelineRun)
    (run : PipelineRun) (hfind : findRunning runID pipelineID runs = some run) :
    run ∈ runs ∧ otherRunning runID pipelineID run := by
  induction runs with
  | nil => simp [findRunning] at hfind
  | cons first rest ih =>
    unfold findRunning at hfind
    split at hfind
    · exact ⟨List.mem_cons_of_mem _ (ih hfind).1, (ih hfind).2⟩
    · rename_i hid
      split at hfind
      · rename_i hrun
        simp only [Option.some.injEq] at hfind
        subst hfind
        exact ⟨List.mem_cons_self _ _, hid, hrun.1, hrun.2⟩
      · exact ⟨List.mem_cons_of_mem _ (ih hfind).1, (ih hfind).2⟩

theorem findRunning_eq_none_iff (runID pipelineID : String) (runs : List PipelineRun) :
    findRunning runID pipelineID runs = none ↔
      ∀ run ∈ runs, ¬ otherRunning runID pipelineID run := by
  induction runs with
  | nil => simp [findRunning]
  | cons first rest ih =>
    unfold findRunning
    by_cases hid : first.ID = runID
    · simp [hid, ih, otherRunning]
    · by_cases hrun : first.PipelineID = pipelineID ∧ first.Status = StatusRunning
      · simp [hid, hrun, otherRunning]
      · simp only [if_neg hid, if_neg hrun, ih, List.mem_cons, forall_eq_or_imp]
        constructor
        · intro hrest
          exact ⟨fun hother => hrun ⟨hother.2.1, hother.2.2⟩, hrest⟩
        · intro hall
          exact hall.2

/-- C28: one round of the waiting loop of `execute` whose listing did not fail.
The run waits, that is, it appends a "waiting for previous run" line to its
run-stage log, sleeps a second and goes into the next round (which lists the
runs again), if and only if the listing contains a run with another ID, the ID
of the pipeline as `PipelineID` and `Status` running.  If and only if the
listing contains no such run (only the run itself, runs of other pipelines, or
runs of the pipeline that are pending, success or failed) the loop ends in the
state right after the listing call, with nothing written to the run; `execute`
then goes on to the stages, which begin with the assignment of `Status`
running. -/
theorem waits_iff_other_run_running {σ : Type} (S : Store σ) (inp : Inputs) (p : Ptr)
    (pipeline : Pipeline) (fuel : Nat) (st : ExecState σ)
    (hlist : fatalListingError (S.ListPipelineRuns st.executor.Store st.heap).2.2 = none) :
    ((∃ run ∈ (S.ListPipelineRuns st.executor.Store st.heap).2.1,
          otherRunning (st.heap.mem p).ID pipeline.ID run) ↔
        ∃ runID : String,
          executeWaitLoop S p pipeline (fuel + 1) st =
            executeWaitLoop S p pipeline fuel
              { addLog
                  { st with
                    executor :=
                      { st.executor with
                        Store := (S.ListPipelineRuns st.executor.Store st.heap).1 }
                    trace := st.trace ++ [Event.ListPipelineRuns] }
                  p StageRun StatusPending
                  ("waiting for previous run " ++ runID ++ " to finish") with
                trace := st.trace ++
                  [Event.ListPipelineRuns,
                    Event.addLog StageRun StatusPending
                      ("waiting for previous run " ++ runID ++ " to finish"),
                    Event.Sleep (1 * Second)] }) ∧
      ((¬ ∃ run ∈ (S.ListPipelineRuns st.executor.Store st.heap).2.1,
          otherRunning (st.heap.mem p).ID pipeline.ID run) ↔
        executeWaitLoop S p pipeline (fuel + 1) st =
          some
            ({ st with
                executor :=
                  { st.executor with Store := (S.ListPipelineRuns st.executor.Store st.heap).1 }
                trace := st.trace ++ [Event.ListPipelineRuns] }, true)) ∧
      ∀ (h : Heap) (e : Executor σ),
        (S.GetPipeline e.Store (h.mem p).PipelineID).2 = .ok pipeline →
        fatalListingError
          (S.ListPipelineRuns (S.GetPipeline e.Store (h.mem p).PipelineID).1 h).2.2 = none →
        (¬ ∃ run ∈ (S.ListPipelineRuns (S.GetPipeline e.Store (h.mem p).PipelineID).1 h).2.1,
          otherRunning (h.mem p).ID pipeline.ID run) →
        ∃ (st' : ExecState σ) (c : Completion) (rest : List Event),
          execute S inp (fuel + 1) h e p = some (st', c) ∧
          st'.trace =
            [Event.GetPipeline (h.mem p).PipelineID, Event.ListPipelineRuns,
              Event.Status StatusRunning] ++ rest := by
  have hnone : ∀ (st0 : ExecState σ),
      fatalListingError (S.ListPipelineRuns st0.executor.Store st0.heap).2.2 = none →
      (¬ ∃ run ∈ (S.ListPipelineRuns st0.executor.Store st0.heap).2.1,
        otherRunning (st0.heap.mem p).ID pipeline.ID run) →
      executeWaitLoop S p pipeline (fuel + 1) st0 =
        some
          ({ st0 with
              executor :=
                { st0.executor with
                  Store := (S.ListPipelineRuns st0.executor.Store st0.heap).1 }
              trace := st0.trace ++ [Event.ListPipelineRuns] }, true) := by
    intro st0 hl hno
    have hfind := (findRunning_eq_none_iff (st0.heap.mem p).ID pipeline.ID
      (S.ListPipelineRuns st0.executor.Store st0.heap).2.1).2
      (fun run hrun hother => hno ⟨run, hrun, hother⟩)
    simp [executeWaitLoop, hl, hfind]
  have hsome : (∃ run ∈ (S.ListPipelineRuns st.executor.Store st.heap).2.1,
      otherRunning (st.heap.mem p).ID pipeline.ID run) →
      ∃ run : PipelineRun,
        executeWaitLoop S p pipeline (fuel + 1) st =
          executeWaitLoop S p pipeline fuel
            { addLog
                { st with
                  executor :=
                    { st.executor with
                      Store := (S.ListPipelineRuns st.executor.Store st.heap).1 }
                  trace := st.trace ++ [Event.ListPipelineRuns] }
                p StageRun StatusPending
                ("waiting for previous run " ++ run.ID ++ " to finish") with
              trace := st.trace ++
                [Event.ListPipelineRuns,
                  Event.addLog StageRun StatusPending
                    ("waiting for previous run " ++ run.ID ++ " to finish"),
                  Event.Sleep (1 * Second)] } := by
    rintro ⟨run, hrun, hother⟩
    cases hfind : findRunning (st.heap.mem p).ID pipeline.ID
        (S.ListPipelineRuns st.executor.Store st.heap).2.1 with
    | none =>
      exact absurd hother
        ((findRunning_eq_none_iff _ _ _).1 hfind run hrun)
    | some found =>
      refine ⟨found, ?_⟩
      simp [executeWaitLoop, hlist, hfind, addLog, List.append_assoc]
  have hexcl : ∀ runID : String,
      executeWaitLoop S p pipeline fuel
          { addLog
              { st with
                executor :=
                  { st.executor with
                    Store := (S.ListPipelineRuns st.executor.Store st.heap).1 }
                trace := st.trace ++ [Event.ListPipelineRuns] }
              p StageRun StatusPending
              ("waiting for previous run " ++ runID ++ " to finish") with
            trace := st.trace ++
              [Event.ListPipelineRuns,
                Event.addLog StageRun StatusPending
                  ("waiting for previous run " ++ runID ++ " to finish"),
                Event.Sleep (1 * Second)] } ≠
        some
          ({ st with
              executor :=
                { st.executor with Store := (S.ListPipelineRuns st.executor.Store st.heap).1 }
              trace := st.trace ++ [Event.ListPipelineRuns] }, true) := by
    intro runID heq
    have hlen := (executeWaitLoop_extends S p pipeline fuel _ _ _ heq).length_le
    simp at hlen
  refine ⟨⟨?_, ?_⟩, ⟨?_, ?_⟩, ?_⟩
  · intro hP
    obtain ⟨run, hrun⟩ := hsome hP
    exact ⟨run.ID, hrun⟩
  · rintro ⟨runID, heq⟩
    by_contra hno
    rw [hnone st hlist hno] at heq
    exact hexcl runID heq.symm
  · exact hnone st hlist
  · intro heq hP
    obtain ⟨run, hrun⟩ := hsome hP
    rw [hrun] at heq
    exact hexcl run.ID heq
  · intro h e hget hl hno
    have hw := hnone
      { heap := h, executor := { e with Store := (S.GetPipeline e.Store (h.mem p).PipelineID).1 },
        trace := [Event.GetPipeline (h.mem p).PipelineID], clock := 0 } hl hno
    have hE : execute S inp (fuel + 1) h e p =
        some (executeStages S inp p pipeline
          { heap := h,
            executor :=
              { e with
                Store := (S.ListPipelineRuns (S.GetPipeline e.Store (h.mem p).PipelineID).1
                  h).1 },
            trace := [Event.GetPipeline (h.mem p).PipelineID, Event.ListPipelineRuns],
            clock := 0 }) := by
      unfold execute
      simp only [hget]
      rw [hw]
      rfl
    obtain ⟨rest, hrest⟩ := executeStages_extends S inp p pipeline
      { heap := h,
        executor :=
          { e with
            Store := (S.ListPipelineRuns (S.GetPipeline e.Store (h.mem p).PipelineID).1 h).1 },
        trace := [Event.GetPipeline (h.mem p).PipelineID, Event.ListPipelineRuns],
        clock := 0 }
    exact ⟨_, _, rest, hE, hrest.symm⟩

/-! ## The logs follow the trace -/

theorem logsTrack_event {σ : Type} (p : Ptr) (pipelineID runID stage log0 : String)
    (st : ExecState σ) (ev : Event)
    (hev : ∀ log, logStep pipelineID runID stage log ev = log)
    (ht : logsTrack p pipelineID runID stage log0 st) :
    logsTrack p pipelineID runID stage log0 { st with trace := st.trace ++ [ev] } := by
  obtain ⟨h1, h2, h3⟩ := ht
  exact ⟨h1, h2, by simp [List.foldl_append, hev, h3]⟩

theorem logsTrack_addLog {σ : Type} (p : Ptr) (pipelineID runID stage log0 : String)
    (st : ExecState σ) (stage' status content : String)
    (ht : logsTrack p pipelineID runID stage log0 st) :
    logsTrack p pipelineID runID stage log0 (addLog st p stage' status content) := by
  obtain ⟨h1, h2, h3⟩ := ht
  refine ⟨by simp [addLog, h1], by simp [addLog, h2], ?_⟩
  by_cases hs : stage' = stage
  · subst hs
    simp [addLog, GoMap.indexString_set, List.foldl_append, logStep, h1, h2, h3]
  · have hs' : ¬ stage = stage' := fun h => hs h.symm
    simp [addLog, GoMap.indexString_set, List.foldl_append, logStep, hs, hs', h3]

theorem logsTrack_setStatus {σ : Type} (p : Ptr) (pipelineID runID stage log0 : String)
    (st : ExecState σ) (v : String) (ht : logsTrack p pipelineID runID stage log0 st) :
    logsTrack p pipelineID runID stage log0 (setStatus st p v) := by
  obtain ⟨h1, h2, h3⟩ := ht
  exact ⟨by simp [setStatus, h1], by simp [setStatus, h2],
    by simp [setStatus, List.foldl_append, logStep, h3]⟩

theorem logsTrack_setUpdatedAt {σ : Type} (p : Ptr) (pipelineID runID stage log0 : String)
    (inp : Inputs) (st : ExecState σ) (ht : logsTrack p pipelineID runID stage log0 st) :
    logsTrack p pipelineID runID stage log0 (setUpdatedAt inp st p) := by
  obtain ⟨h1, h2, h3⟩ := ht
  exact ⟨by simp [setUpdatedAt, h1], by simp [setUpdatedAt, h2], by simp [setUpdatedAt, h3]⟩

theorem logsTrack_update {σ : Type} (S : Store σ) (p : Ptr)
    (pipelineID runID stage log0 : String) (st : ExecState σ)
    (ht : logsTrack p pipelineID runID stage log0 st) :
    logsTrack p pipelineID runID stage log0 (updatePipelineRun S st p) := by
  obtain ⟨h1, h2, h3⟩ := ht
  exact ⟨by simp [updatePipelineRun, h1], by simp [updatePipelineRun, h2],
    by simp [updatePipelineRun, List.foldl_append, logStep, h3]⟩

theorem logsTrack_persist {σ : Type} (S : Store σ) (inp : Inputs) (p : Ptr)
    (pipelineID runID stage log0 : String) (st : ExecState σ)
    (ht : logsTrack p pipelineID runID stage log0 st) :
    logsTrack p pipelineID runID stage log0 (persistStage S inp st p) :=
  logsTrack_update S p _ _ _ _ _ (logsTrack_setUpdatedAt p _ _ _ _ inp st ht)

/-- An assignment to a stage status together with its event keeps the logs on
track. -/
theorem logsTrack_stageStatus {σ : Type} (p : Ptr) (pipelineID runID stage log0 : String)
    (st : ExecState σ) (run : PipelineRun) (stage' v : String)
    (hid : run.ID = (st.heap.mem p).ID) (hpid : run.PipelineID = (st.heap.mem p).PipelineID)
    (hlogs : run.Logs = (st.heap.mem p).Logs)
    (ht : logsTrack p pipelineID runID stage log0 st) :
    logsTrack p pipelineID runID stage log0
      { st with
        heap := st.heap.store p run
        trace := st.trace ++ [Event.stageStatus stage' v] } := by
  obtain ⟨h1, h2, h3⟩ := ht
  exact ⟨by simp [hpid, h1], by simp [hid, h2], by simp [hlogs, List.foldl_append, logStep, h3]⟩

theorem logsTrack_runExec {σ : Type} (failureRate : ℚ) (delay : Int) (r : ℚ) (p : Ptr)
    (pipelineID runID stage log0 : String) (st : ExecState σ) (runStage : RunStage)
    (ht : logsTrack p pipelineID runID stage log0 st) :
    logsTrack p pipelineID runID stage log0
      (runExecFuncConstructor failureRate delay r st p runStage).1 := by
  unfold runExecFuncConstructor
  split
  · obtain ⟨h1, h2, h3⟩ := ht
    refine ⟨by simp [h1], by simp [h2], ?_⟩
    by_cases hs : StageRun = stage
    · subst hs
      simp [GoMap.indexString_set, List.foldl_append, logStep]
    · have hs' : ¬ stage = StageRun := fun h => hs h.symm
      simp [GoMap.indexString_set, List.foldl_append, logStep, hs, hs', h3]
  · split
    · exact logsTrack_stageStatus p _ _ _ _ _ _ _ _ rfl rfl rfl
        (logsTrack_addLog p _ _ _ _ _ _ _ _
          (logsTrack_event p _ _ _ _ _ (Event.Float64 r) (fun _ => rfl)
            (logsTrack_addLog p _ _ _ _ _ _ _ _ (logsTrack_addLog p _ _ _ _ _ _ _ _ ht))))
    · exact logsTrack_stageStatus p _ _ _ _ _ _ _ _ rfl rfl rfl
        (logsTrack_addLog p _ _ _ _ _ _ _ _
          (logsTrack_event p _ _ _ _ _ (Event.Sleep delay) (fun _ => rfl)
            (logsTrack_event p _ _ _ _ _ (Event.Float64 r) (fun _ => rfl)
              (logsTrack_addLog p _ _ _ _ _ _ _ _ (logsTrack_addLog p _ _ _ _ _ _ _ _ ht)))))

theorem logsTrack_buildExec {σ : Type} (failureRate : ℚ) (delay : Int) (r : ℚ) (p : Ptr)
    (pipelineID runID stage log0 : String) (st : ExecState σ) (buildStage : BuildStage)
    (ht : logsTrack p pipelineID runID stage log0 st) :
    logsTrack p pipelineID runID stage log0
      (buildExecFuncConstructor failureRate delay r st p buildStage).1 := by
  unfold buildExecFuncConstructor
  split
  · obtain ⟨h1, h2, h3⟩ := ht
    refine ⟨by simp [h1], by simp [h2], ?_⟩
    by_cases hs : StageBuild = stage
    · subst hs
      simp [GoMap.indexString_set, List.foldl_append, logStep]
    · have hs' : ¬ stage = StageBuild := fun h => hs h.symm
      simp [GoMap.indexString_set, List.foldl_append, logStep, hs, hs', h3]
  · split
    · exact logsTrack_stageStatus p _ _ _ _ _ _ _ _ rfl rfl rfl
        (logsTrack_addLog p _ _ _ _ _ _ _ _
          (logsTrack_event p _ _ _ _ _ (Event.Float64 r) (fun _ => rfl)
            (logsTrack_addLog p _ _ _ _ _ _ _ _ (logsTrack_addLog p _ _ _ _ _ _ _ _ ht))))
    · exact logsTrack_stageStatus p _ _ _ _ _ _ _ _ rfl rfl rfl
        (logsTrack_addLog p _ _ _ _ _ _ _ _
          (logsTrack_event p _ _ _ _ _ (Event.Sleep delay) (fun _ => rfl)
            (logsTrack_event p _ _ _ _ _ (Event.Float64 r) (fun _ => rfl)
              (logsTrack_addLog p _ _ _ _ _ _ _ _ (logsTrack_addLog p _ _ _ _ _ _ _ _ ht)))))

theorem logsTrack_deployExec {σ : Type} (failureRate : ℚ) (delay : Int) (r : ℚ) (p : Ptr)
    (pipelineID runID stage log0 : String) (st : ExecState σ) (deployStage : DeployStage)
    (ht : logsTrack p pipelineID runID stage log0 st) :
    logsTrack p pipelineID runID stage log0
      (deployExecFuncConstructor failureRate delay r st p deployStage).1 := by
  unfold deployExecFuncConstructor
  split
  · obtain ⟨h1, h2, h3⟩ := ht
    refine ⟨by simp [h1], by simp [h2], ?_⟩
    by_cases hs : StageDeploy = stage
    · subst hs
      simp [GoMap.indexString_set, List.foldl_append, logStep]
    · have hs' : ¬ stage = StageDeploy := fun h => hs h.symm
      simp [GoMap.indexString_set, List.foldl_append, logStep, hs, hs', h3]
  · split
    · exact logsTrack_stageStatus p _ _ _ _ _ _ _ _ rfl rfl rfl
        (logsTrack_addLog p _ _ _ _ _ _ _ _
          (logsTrack_event p _ _ _ _ _ (Event.Float64 r) (fun _ => rfl)
            (logsTrack_addLog p _ _ _ _ _ _ _ _ (logsTrack_addLog p _ _ _ _ _ _ _ _ ht))))
    · exact logsTrack_stageStatus p _ _ _ _ _ _ _ _ rfl rfl rfl
        (logsTrack_addLog p _ _ _ _ _ _ _ _
          (logsTrack_event p _ _ _ _ _ (Event.Sleep delay) (fun _ => rfl)
            (logsTrack_event p _ _ _ _ _ (Event.Float64 r) (fun _ => rfl)
              (logsTrack_addLog p _ _ _ _ _ _ _ _ (logsTrack_addLog p _ _ _ _ _ _ _ _ ht)))))

theorem logsTrack_deployStage {σ : Type} (S : Store σ) (inp : Inputs) (p : Ptr)
    (pipeline : Pipeline) (pipelineID runID stage log0 : String) (st : ExecState σ)
    (ht : logsTrack p pipelineID runID stage log0 st) :
    logsTrack p pipelineID runID stage log0 (executeDeployStage S inp p pipeline st).1 := by
  unfold executeDeployStage
  split
  · rename_i ds hds
    have E := logsTrack_event p _ _ _ _ _ (Event.stageReturn StageDeploy
        (deployExecFuncConstructor st.executor.failureRate st.executor.delay inp.randDeploy
          { st with trace := st.trace ++ [Event.stageExecutor StageDeploy] } p ds).2)
      (fun _ => rfl)
      (logsTrack_deployExec st.executor.failureRate st.executor.delay inp.randDeploy p _ _ _ _
        _ ds (logsTrack_event p _ _ _ _ st (Event.stageExecutor StageDeploy) (fun _ => rfl) ht))
    simp only
    split
    · exact logsTrack_update S p _ _ _ _ _
        (logsTrack_setUpdatedAt p _ _ _ _ inp _ (logsTrack_setStatus p _ _ _ _ _ _ E))
    · exact logsTrack_update S p _ _ _ _ _
        (logsTrack_setUpdatedAt p _ _ _ _ inp _ (logsTrack_setStatus p _ _ _ _ _ _ E))
  · exact ht

theorem logsTrack_buildStage {σ : Type} (S : Store σ) (inp : Inputs) (p : Ptr)
    (pipeline : Pipeline) (pipelineID runID stage log0 : String) (st : ExecState σ)
    (ht : logsTrack p pipelineID runID stage log0 st) :
    logsTrack p pipelineID runID stage log0 (executeBuildStage S inp p pipeline st).1 := by
  unfold executeBuildStage
  split
  · rename_i bs hbs
    have E := logsTrack_event p _ _ _ _ _ (Event.stageReturn StageBuild
        (buildExecFuncConstructor st.executor.failureRate st.executor.delay inp.randBuild
          { st with trace := st.trace ++ [Event.stageExecutor StageBuild] } p bs).2)
      (fun _ => rfl)
      (logsTrack_buildExec st.executor.failureRate st.executor.delay inp.randBuild p _ _ _ _
        _ bs (logsTrack_event p _ _ _ _ st (Event.stageExecutor StageBuild) (fun _ => rfl) ht))
    simp only
    split
    · split
      · exact logsTrack_update S p _ _ _ _ _
          (logsTrack_setUpdatedAt p _ _ _ _ inp _ (logsTrack_setStatus p _ _ _ _ _ _ E))
      · exact logsTrack_deployStage S inp p pipeline _ _ _ _ _
          (logsTrack_persist S inp p _ _ _ _ _ E)
    · exact logsTrack_deployStage S inp p pipeline _ _ _ _ _
        (logsTrack_persist S inp p _ _ _ _ _ E)
  · exact ht

theorem logsTrack_stages {σ : Type} (S : Store σ) (inp : Inputs) (p : Ptr)
    (pipeline : Pipeline) (pipelineID runID stage log0 : String) (st : ExecState σ)
    (ht : logsTrack p pipelineID runID stage log0 st) :
    logsTrack p pipelineID runID stage log0 (executeStages S inp p pipeline st).1 := by
  have ht0 := logsTrack_setStatus p _ _ _ _ st StatusRunning ht
  unfold executeStages
  simp only
  split
  · rename_i rs hrs
    have E := logsTrack_event p _ _ _ _ _ (Event.stageReturn StageRun
        (runExecFuncConstructor (setStatus st p StatusRunning).executor.failureRate
          (setStatus st p StatusRunning).executor.delay inp.randRun
          { setStatus st p StatusRunning with
            trace := (setStatus st p StatusRunning).trace ++ [Event.stageExecutor StageRun] }
          p rs).2)
      (fun _ => rfl)
      (logsTrack_runExec (setStatus st p StatusRunning).executor.failureRate
        (setStatus st p StatusRunning).executor.delay inp.randRun p _ _ _ _ _ rs
        (logsTrack_event p _ _ _ _ (setStatus st p StatusRunning)
          (Event.stageExecutor StageRun) (fun _ => rfl) ht0))
    split
    · split
      · exact logsTrack_update S p _ _ _ _ _
          (logsTrack_setStatus p _ _ _ _ _ _ (logsTrack_setUpdatedAt p _ _ _ _ inp _ E))
      · exact logsTrack_buildStage S inp p pipeline _ _ _ _ _
          (logsTrack_persist S inp p _ _ _ _ _ (logsTrack_setUpdatedAt p _ _ _ _ inp _ E))
    · exact logsTrack_buildStage S inp p pipeline _ _ _ _ _
        (logsTrack_persist S inp p _ _ _ _ _ E)
  · exact ht0

theorem logsTrack_waitLoop {σ : Type} (S : Store σ) (p : Ptr) (pipeline : Pipeline)
    (pipelineID runID stage log0 : String) (fuel : Nat) (st st1 : ExecState σ) (b : Bool)
    (hw : executeWaitLoop S p pipeline fuel st = some (st1, b))
    (ht : logsTrack p pipelineID runID stage log0 st) :
    logsTrack p pipelineID runID stage log0 st1 := by
  induction fuel generalizing st with
  | zero => simp [executeWaitLoop] at hw
  | succ fuel ih =>
    have ht1 := logsTrack_event p _ _ _ _
      { st with
        executor :=
          { st.executor with Store := (S.ListPipelineRuns st.executor.Store st.heap).1 } }
      Event.ListPipelineRuns (fun _ => rfl) ht
    unfold executeWaitLoop at hw
    simp only at hw
    split at hw
    · simp only [Option.some.injEq, Prod.mk.injEq] at hw
      obtain ⟨hst, _⟩ := hw
      subst hst
      exact logsTrack_update S p _ _ _ _ _
        (logsTrack_setStatus p _ _ _ _ _ _ (logsTrack_addLog p _ _ _ _ _ _ _ _ ht1))
    · split at hw
      · exact ih _ hw
          (logsTrack_event p _ _ _ _ _ (Event.Sleep (1 * Second)) (fun _ => rfl)
            (logsTrack_addLog p _ _ _ _ _ _ _ _ ht1))
      · simp only [Option.some.injEq, Prod.mk.injEq] at hw
        obtain ⟨hst, _⟩ := hw
        subst hst
        exact ht1

/-- At the end of `execute` the log of every stage is what the events of the trace
make of the log at the call. -/
theorem logsTrack_execute {σ : Type} (S : Store σ) (inp : Inputs) (fuel : Nat) (h : Heap)
    (e : Executor σ) (p : Ptr) (st' : ExecState σ) (c : Completion) (stage : String)
    (hexec : execute S inp fuel h e p = some (st', c)) :
    logsTrack p (h.mem p).PipelineID (h.mem p).ID stage ((h.mem p).Logs.indexString stage)
      st' := by
  have ht : logsTrack p (h.mem p).PipelineID (h.mem p).ID stage
      ((h.mem p).Logs.indexString stage)
      ({ heap := h
         executor := { e with Store := (S.GetPipeline e.Store (h.mem p).PipelineID).1 }
         trace := [Event.GetPipeline (h.mem p).PipelineID]
         clock := 0 } : ExecState σ) := ⟨rfl, rfl, rfl⟩
  unfold execute at hexec
  simp only at hexec
  split at hexec
  · simp only [Option.some.injEq, Prod.mk.injEq] at hexec
    obtain ⟨hst, _⟩ := hexec
    subst hst
    exact logsTrack_update S p _ _ _ _ _
      (logsTrack_setStatus p _ _ _ _ _ _ (logsTrack_addLog p _ _ _ _ _ _ _ _ ht))
  · split at hexec
    · cases hexec
    · rename_i st1 hw
      simp only [Option.some.injEq, Prod.mk.injEq] at hexec
      obtain ⟨hst, _⟩ := hexec
      subst hst
      exact logsTrack_waitLoop S p _ _ _ _ _ fuel _ _ _ hw ht
    · rename_i st1 hw
      simp only [Option.some.injEq] at hexec
      have h1 := logsTrack_waitLoop S p _ _ _ _ _ fuel _ _ _ hw ht
      rename_i pipeline _ _
      have h2 := logsTrack_stages S inp p pipeline _ _ _ _ st1 h1
      rw [hexec] at h2
      exact h2

/-- Without an assignment `Logs[stage] = v` in the trace, the events make of a log
that log followed by the appended lines. -/
theorem foldl_logStep_of_no_assignment (pipelineID runID stage : String) (trace : List Event)
    (log0 : String) (hno : ∀ v, Event.Logs stage v ∉ trace) :
    trace.foldl (logStep pipelineID runID stage) log0 =
      log0 ++ appendedTo pipelineID runID stage trace := by
  induction trace generalizing log0 with
  | nil => simp [appendedTo]
  | cons ev rest ih =>
    have hrest : ∀ v, Event.Logs stage v ∉ rest := fun v hv => hno v (List.mem_cons_of_mem _ hv)
    rw [List.foldl_cons, ih _ hrest]
    cases ev with
    | addLog stage' status content =>
      by_cases hs : stage' = stage
      · simp [logStep, appendedTo, hs, String.append_assoc]
      · simp [logStep, appendedTo, hs]
    | Logs stage' v =>
      have hs : ¬ stage' = stage := by
        intro hs
        exact hno v (by rw [hs]; exact List.mem_cons_self _ _)
      simp [logStep, appendedTo, hs]
    | _ => simp [logStep, appendedTo]

/-! ## A stage that passes validation keeps its log -/

theorem noAssign_runExec {σ : Type} (failureRate : ℚ) (delay : Int) (r : ℚ) (p : Ptr)
    (st : ExecState σ) (runStage : RunStage) (stage v : String)
    (hvalid : stage = StageRun → runStage.Validate = none)
    (hmem : Event.Logs stage v ∈
      (runExecFuncConstructor failureRate delay r st p runStage).1.trace) :
    Event.Logs stage v ∈ st.trace := by
  unfold runExecFuncConstructor at hmem
  split at hmem
  · rename_i err herr
    simp at hmem
    rcases hmem with hmem | ⟨hs, _⟩
    · exact hmem
    · rw [hvalid hs] at herr
      cases herr
  · split at hmem <;> simpa [addLog] using hmem

theorem noAssign_buildExec {σ : Type} (failureRate : ℚ) (delay : Int) (r : ℚ) (p : Ptr)
    (st : ExecState σ) (buildStage : BuildStage) (stage v : String)
    (hvalid : stage = StageBuild → buildStage.Validate = none)
    (hmem : Event.Logs stage v ∈
      (buildExecFuncConstructor failureRate delay r st p buildStage).1.trace) :
    Event.Logs stage v ∈ st.trace := by
  unfold buildExecFuncConstructor at hmem
  split at hmem
  · rename_i err herr
    simp at hmem
    rcases hmem with hmem | ⟨hs, _⟩
    · exact hmem
    · rw [hvalid hs] at herr
      cases herr
  · split at hmem <;> simpa [addLog] using hmem

theorem noAssign_deployExec {σ : Type} (failureRate : ℚ) (delay : Int) (r : ℚ) (p : Ptr)
    (st : ExecState σ) (deployStage : DeployStage) (stage v : String)
    (hvalid : stage = StageDeploy → deployStage.Validate = none)
    (hmem : Event.Logs stage v ∈
      (deployExecFuncConstructor failureRate delay r st p deployStage).1.trace) :
    Event.Logs stage v ∈ st.trace := by
  unfold deployExecFuncConstructor at hmem
  split at hmem
  · rename_i err herr
    simp at hmem
    rcases hmem with hmem | ⟨hs, _⟩
    · exact hmem
    · rw [hvalid hs] at herr
      cases herr
  · split at hmem <;> simpa [addLog] using hmem

theorem noAssign_deployStage {σ : Type} (S : Store σ) (inp : Inputs) (p : Ptr)
    (pipeline : Pipeline) (st : ExecState σ) (stage v : String)
    (hvalid : passesValidation pipeline stage)
    (hmem : Event.Logs stage v ∈ (executeDeployStage S inp p pipeline st).1.trace) :
    Event.Logs stage v ∈ st.trace := by
  unfold executeDeployStage at hmem
  split at hmem
  · rename_i ds hds
    have hex : Event.Logs stage v ∈
        (deployExecFuncConstructor st.executor.failureRate st.executor.delay inp.randDeploy
          { st with trace := st.trace ++ [Event.stageExecutor StageDeploy] } p ds).1.trace := by
      simp only at hmem
      split at hmem <;>
        simpa [updatePipelineRun, setUpdatedAt, setStatus] using hmem
    have h0 := noAssign_deployExec _ _ _ _ _ _ _ _ (fun hs => hvalid.2.2 hs ds hds) hex
    simpa using h0
  · exact hmem

theorem noAssign_buildStage {σ : Type} (S : Store σ) (inp : Inputs) (p : Ptr)
    (pipeline : Pipeline) (st : ExecState σ) (stage v : String)
    (hvalid : passesValidation pipeline stage)
    (hmem : Event.Logs stage v ∈ (executeBuildStage S inp p pipeline st).1.trace) :
    Event.Logs stage v ∈ st.trace := by
  unfold executeBuildStage at hmem
  split at hmem
  · rename_i bs hbs
    have hex : Event.Logs stage v ∈
        (buildExecFuncConstructor st.executor.failureRate st.executor.delay inp.randBuild
          { st with trace := st.trace ++ [Event.stageExecutor StageBuild] } p bs).1.trace := by
      simp only at hmem
      split at hmem
      · split at hmem
        · simpa [updatePipelineRun, setUpdatedAt, setStatus] using hmem
        · have h1 := noAssign_deployStage S inp p pipeline _ stage v hvalid hmem
          simpa [persistStage, updatePipelineRun, setUpdatedAt] using h1
      · have h1 := noAssign_deployStage S inp p pipeline _ stage v hvalid hmem
        simpa [persistStage, updatePipelineRun, setUpdatedAt] using h1
    have h0 := noAssign_buildExec _ _ _ _ _ _ _ _ (fun hs => hvalid.2.1 hs bs hbs) hex
    simpa using h0
  · exact hmem

theorem noAssign_stages {σ : Type} (S : Store σ) (inp : Inputs) (p : Ptr)
    (pipeline : Pipeline) (st : ExecState σ) (stage v : String)
    (hvalid : passesValidation pipeline stage)
    (hmem : Event.Logs stage v ∈ (executeStages S inp p pipeline st).1.trace) :
    Event.Logs stage v ∈ st.trace := by
  unfold executeStages at hmem
  simp only at hmem
  split at hmem
  · rename_i rs hrs
    have hex : Event.Logs stage v ∈
        (runExecFuncConstructor (setStatus st p StatusRunning).executor.failureRate
          (setStatus st p StatusRunning).executor.delay inp.randRun
          { setStatus st p StatusRunning with
            trace := (setStatus st p StatusRunning).trace ++ [Event.stageExecutor StageRun] }
          p rs).1.trace := by
      split at hmem
      · split at hmem
        · simpa [updatePipelineRun, setUpdatedAt, setStatus] using hmem
        · have h1 := noAssign_buildStage S inp p pipeline _ stage v hvalid hmem
          simpa [persistStage, updatePipelineRun, setUpdatedAt] using h1
      · have h1 := noAssign_buildStage S inp p pipeline _ stage v hvalid hmem
        simpa [persistStage, updatePipelineRun, setUpdatedAt] using h1
    have h0 := noAssign_runExec _ _ _ _ _ _ _ _ (fun hs => hvalid.1 hs rs hrs) hex
    simpa [setStatus] using h0
  · simpa [setStatus] using hmem

theorem noAssign_waitLoop {σ : Type} (S : Store σ) (p : Ptr) (pipeline : Pipeline)
    (fuel : Nat) (st st1 : ExecState σ) (b : Bool) (stage v : String)
    (hw : executeWaitLoop S p pipeline fuel st = some (st1, b))
    (hmem : Event.Logs stage v ∈ st1.trace) : Event.Logs stage v ∈ st.trace := by
  induction fuel generalizing st with
  | zero => simp [executeWaitLoop] at hw
  | succ fuel ih =>
    unfold executeWaitLoop at hw
    simp only at hw
    split at hw
    · simp only [Option.some.injEq, Prod.mk.injEq] at hw
      obtain ⟨hst, _⟩ := hw
      subst hst
      simpa [updatePipelineRun, setStatus, addLog] using hmem
    · split at hw
      · have h1 := ih _ hw
        simpa [addLog] using h1
      · simp only [Option.some.injEq, Prod.mk.injEq] at hw
        obtain ⟨hst, _⟩ := hw
        subst hst
        simpa using hmem

/-- When the stage of the stored pipeline passes validation, `execute` makes no
assignment `Logs[stage] = v`. -/
theorem noAssign_execute {σ : Type} (S : Store σ) (inp : Inputs) (fuel : Nat) (h : Heap)
    (e : Executor σ) (p : Ptr) (st' : ExecState σ) (c : Completion) (stage v : String)
    (hvalid : ∀ pipeline, (S.GetPipeline e.Store (h.mem p).PipelineID).2 = .ok pipeline →
      passesValidation pipeline stage)
    (hexec : execute S inp fuel h e p = some (st', c)) : Event.Logs stage v ∉ st'.trace := by
  intro hmem
  unfold execute at hexec
  simp only at hexec
  split at hexec
  · simp only [Option.some.injEq, Prod.mk.injEq] at hexec
    obtain ⟨hst, _⟩ := hexec
    subst hst
    simp [updatePipelineRun, setStatus, addLog] at hmem
  · rename_i pipeline hget
    split at hexec
    · cases hexec
    · rename_i st1 hw
      simp only [Option.some.injEq, Prod.mk.injEq] at hexec
      obtain ⟨hst, _⟩ := hexec
      subst hst
      have h1 := noAssign_waitLoop S p pipeline fuel _ _ _ stage v hw hmem
      simp at h1
    · rename_i st1 hw
      simp only [Option.some.injEq] at hexec
      have h2 : Event.Logs stage v ∈ (executeStages S inp p pipeline st1).1.trace := by
        rw [hexec]; exact hmem
      have h1 := noAssign_waitLoop S p pipeline fuel _ _ _ stage v hw
        (noAssign_stages S inp p pipeline st1 stage v (hvalid pipeline hget) h2)
      simp at h1

/-! ## Which log lines are kept -/

/-- C25 fails as stated: the run waits once for a running run of its pipeline,
which appends a "waiting for previous run" line to its run-stage log; then the
run stage fails validation and its executor assigns the error text to
`Logs["run"]`.  When `execute` returns, the run-stage log is that error text
and does not contain the waiting line. -/
theorem waiting_line_lost_on_validation_error :
    execute scriptedStore exampleInputs 2 firstTrigger.heap waitingExecutor 3 =
        some (waitingExecution.1, Completion.returned) ∧
      Event.addLog StageRun StatusPending "waiting for previous run run-0 to finish" ∈
        waitingExecution.1.trace ∧
      (waitingExecution.1.heap.mem 3).Logs.indexString StageRun =
        "command is required for run stage" ∧
      ¬ ∃ pre post : String,
        (waitingExecution.1.heap.mem 3).Logs.indexString StageRun =
          pre ++
            logTmpl "test-pipeline" "run-1" StageRun StatusPending
              "waiting for previous run run-0 to finish" ++ post := by
  refine ⟨rfl, by decide, by decide, ?_⟩
  rintro ⟨pre, post, heq⟩
  have hlog : (waitingExecution.1.heap.mem 3).Logs.indexString StageRun =
      "command is required for run stage" := by decide
  rw [hlog] at heq
  have hlen := congrArg String.length heq
  simp only [String.length_append] at hlen
  have h1 : ("command is required for run stage" : String).length = 33 := by decide
  have h2 : 33 < (logTmpl "test-pipeline" "run-1" StageRun StatusPending
      "waiting for previous run run-0 to finish").length := by decide
  omega

theorem testPipeline_passesValidation (stage : String) : passesValidation testPipeline stage := by
  refine ⟨fun _ rs hrs => ?_, fun _ bs hbs => ?_, fun _ ds hds => ?_⟩
  · have hrs' : some (Stage.run _) = some (Stage.run rs) := hrs
    cases hrs'
    rfl
  · have hbs' : some (Stage.build _) = some (Stage.build bs) := hbs
    cases hbs'
    rfl
  · have hds' : some (Stage.deploy _) = some (Stage.deploy ds) := hds
    cases hds'
    rfl

/-- C25 as amended: in every execution of `execute` and for every stage name, if
the execution makes no assignment `Logs[stage] = v` (the statement by which a
stage executor records a validation error, replacing the log), then when
`execute` ends `Logs[stage]` is `Logs[stage]` at the call followed by all lines
that `addLog` appended for that stage, in order, the "waiting for previous run"
lines of the run-stage log included.  There is no such assignment when the
stage of the stored pipeline passes validation.  `addLog` itself appends its
line to `Logs[stage]` and leaves the logs of the other stages as they are. -/
theorem log_lines_kept_without_assignment {σ : Type} (S : Store σ) (inp : Inputs) (fuel : Nat)
    (h : Heap) (e : Executor σ) (p : Ptr) (st' : ExecState σ) (c : Completion)
    (hexec : execute S inp fuel h e p = some (st', c)) (stage : String) :
    ((∀ v, Event.Logs stage v ∉ st'.trace) →
        (st'.heap.mem p).Logs.indexString stage =
          (h.mem p).Logs.indexString stage ++
            appendedTo (h.mem p).PipelineID (h.mem p).ID stage st'.trace) ∧
      ((∀ pipeline, (S.GetPipeline e.Store (h.mem p).PipelineID).2 = .ok pipeline →
          passesValidation pipeline stage) →
        ∀ v, Event.Logs stage v ∉ st'.trace) ∧
      ∀ (st : ExecState σ) (q : Ptr) (status content : String),
        ((addLog st q stage status content).heap.mem q).Logs.indexString stage =
            (st.heap.mem q).Logs.indexString stage ++
              logTmpl (st.heap.mem q).PipelineID (st.heap.mem q).ID stage status content ∧
          ∀ other : String, other ≠ stage →
            ((addLog st q stage status content).heap.mem q).Logs.get? other =
              (st.heap.mem q).Logs.get? other := by
  refine ⟨?_, ?_, ?_⟩
  · intro hno
    rw [(logsTrack_execute S inp fuel h e p st' c stage hexec).2.2]
    exact foldl_logStep_of_no_assignment _ _ _ _ _ hno
  · intro hvalid v
    exact noAssign_execute S inp fuel h e p st' c stage v hvalid hexec
  · intro st q status content
    refine ⟨by simp [addLog, GoMap.indexString_set], ?_⟩
    intro other hother
    simp [addLog, GoMap.get?_set, hother]

set_option maxRecDepth 8192 in
/-- The run waits once and then runs the valid test pipeline: its run-stage log
at the end is the waiting line followed by the three lines of the run stage. -/
theorem log_lines_kept_without_assignment_witness :
    Event.addLog StageRun StatusPending "waiting for previous run run-0 to finish" ∈
        patientExecution.1.trace ∧
      (patientExecution.1.heap.mem 3).Logs.indexString StageRun =
        (firstTrigger.heap.mem 3).Logs.indexString StageRun ++
          appendedTo "test-pipeline" "run-1" StageRun patientExecution.1.trace ∧
      appendedTo "test-pipeline" "run-1" StageRun patientExecution.1.trace =
        logTmpl "test-pipeline" "run-1" StageRun StatusPending
            "waiting for previous run run-0 to finish" ++
          logTmpl "test-pipeline" "run-1" StageRun StatusRunning "starting..." ++
          logTmpl "test-pipeline" "run-1" StageRun StatusRunning "command: go test ./..." ++
          logTmpl "test-pipeline" "run-1" StageRun StatusSuccess "finished" := by
  have W := log_lines_kept_without_assignment scriptedStore exampleInputs 2 firstTrigger.heap
    patientExecutor 3 patientExecution.1 patientExecution.2 rfl StageRun
  refine ⟨by decide, W.1 (W.2.1 ?_), by decide⟩
  intro pipeline hget
  have hp : testPipeline = pipeline := by
    have hget' : (Except.ok testPipeline : Except Error Pipeline) = .ok pipeline := hget
    cases hget'
    rfl
  rw [← hp]
  exact testPipeline_passesValidation StageRun

/-- The first listing of the script shows the running run `run-0` of the test
pipeline, so run `run-1` waits; the second listing shows it finished, so the
loop ends there. -/
theorem waits_iff_other_run_running_witness :
    fatalListingError
        (scriptedStore.ListPipelineRuns waitingState.executor.Store waitingState.heap).2.2 =
        none ∧
      (∃ run ∈ (scriptedStore.ListPipelineRuns waitingState.executor.Store
          waitingState.heap).2.1,
        otherRunning (waitingState.heap.mem 3).ID (runFailsPipeline false).ID run) ∧
      ∃ runID : String,
        executeWaitLoop scriptedStore 3 (runFailsPipeline false) (1 + 1) waitingState =
          executeWaitLoop scriptedStore 3 (runFailsPipeline false) 1
            { addLog
                { waitingState with
                  executor :=
                    { waitingState.executor with
                      Store := (scriptedStore.ListPipelineRuns waitingState.executor.Store
                        waitingState.heap).1 }
                  trace := waitingState.trace ++ [Event.ListPipelineRuns] }
                3 StageRun StatusPending
                ("waiting for previous run " ++ runID ++ " to finish") with
              trace := waitingState.trace ++
                [Event.ListPipelineRuns,
                  Event.addLog StageRun StatusPending
                    ("waiting for previous run " ++ runID ++ " to finish"),
                  Event.Sleep (1 * Second)] } :=
  ⟨rfl, ⟨runningRun, List.mem_singleton.mpr rfl, by decide, by decide, by decide⟩,
    (waits_iff_other_run_running scriptedStore exampleInputs 3 (runFailsPipeline false) 1
      waitingState rfl).1.1
      ⟨runningRun, List.mem_singleton.mpr rfl, by decide, by decide, by decide⟩⟩

/-! ## The type assertions on stages -/

theorem hasStages_assignStages (pipeline : Pipeline) (req : http.PipelineRequest)
    (runStage : RunStage) (buildStage : BuildStage) (deployStage : DeployStage) :
    hasStages (http.assignStages pipeline req runStage buildStage deployStage) := by
  refine ⟨⟨runStage, ?_⟩, ⟨buildStage, ?_⟩, ⟨deployStage, ?_⟩⟩ <;>
    simp [http.assignStages, GoMap.get?_set, StageRun, StageBuild, StageDeploy]

/-- With the three stages in place no type assertion of `execute` panics. -/
theorem execute_returns_of_hasStages {σ : Type} (S : Store σ) (inp : Inputs) (fuel : Nat)
    (h : Heap) (e : Executor σ) (p : Ptr) (st' : ExecState σ) (c : Completion)
    (hstages : ∀ pipeline, (S.GetPipeline e.Store (h.mem p).PipelineID).2 = .ok pipeline →
      hasStages pipeline)
    (hexec : execute S inp fuel h e p = some (st', c)) : c = Completion.returned := by
  rcases execute_paths S inp fuel h e p st' c hexec with
    ⟨hc, _⟩ | ⟨pipeline, hget, hrest⟩
  · exact hc
  · obtain ⟨⟨rs0, hrs0⟩, ⟨bs0, hbs0⟩, ⟨ds0, hds0⟩⟩ := hstages pipeline hget
    rcases hrest with ⟨_, hno, _⟩ | ⟨rs, r1, hrs, hrest⟩
    · exact absurd hrs0 (hno rs0)
    · rcases hrest with ⟨e1, _, _, hc, _⟩ | ⟨_, hrest⟩
      · exact hc
      · rcases hrest with ⟨_, hno, _⟩ | ⟨bs, r2, hbs, hrest⟩
        · exact absurd hbs0 (hno bs0)
        · rcases hrest with ⟨e2, _, _, hc, _⟩ | ⟨_, hrest⟩
          · exact hc
          · rcases hrest with ⟨_, hno, _⟩ | ⟨r3, hc, _⟩
            · exact absurd hds0 (hno ds0)
            · exact hc

/-- C30 fails as stated in its last part: the stored pipeline `noDeployPipeline`
has no deploy stage, and `execute` on a run of it returns normally, with
`Status` failed, because the run stage fails (validation error, no
continue-on-error) before the deploy stage is reached. -/
theorem execute_returns_without_deploy_stage :
    noDeployPipeline.Stages.get? StageDeploy = none ∧
      (triggerOf noDeployPipeline).executor.Store.GetPipeline "test-pipeline" =
        .ok noDeployPipeline ∧
      execute memoryStore exampleInputs 1 (triggerOf noDeployPipeline).heap
          (triggerOf noDeployPipeline).executor 3 =
        some ((executionOf noDeployPipeline).1, Completion.returned) ∧
      ((executionOf noDeployPipeline).1.heap.mem 3).Status = StatusFailed :=
  ⟨rfl, rfl, rfl, by decide⟩

/-- C30 as amended: every pipeline returned by `NewPipeline`, and every pipeline
after the handlers `createPipeline` and `updatePipeline` have assigned its
stages (so the pipeline that these handlers store), holds a `*RunStage`, a
`*BuildStage` and a `*DeployStage` under `"run"`, `"build"` and `"deploy"`; for
such a pipeline the type assertions of `createPipelineResponse` succeed and
`execute` ends by returning, not by a panic.  For a stored pipeline whose
`Stages` lacks one of the three entries, `execute` either panics at a type
assertion or returns with `Status` failed without having called the executor of
the missing stage (it was stopped earlier by a listing error or by a stage that
failed without continue-on-error); it never ends with `Status` success. -/
theorem stage_assertions_on_built_pipelines {σ : Type} (S : Store σ) (inp : Inputs)
    (fuel : Nat) (h : Heap) (e : Executor σ) (p : Ptr) (st' : ExecState σ) (c : Completion)
    (pipeline : Pipeline)
    (hget : (S.GetPipeline e.Store (h.mem p).PipelineID).2 = .ok pipeline)
    (hexec : execute S inp fuel h e p = some (st', c)) :
    (∀ uuid repository : String, hasStages (NewPipeline uuid repository)) ∧
      (∀ (stored : Pipeline) (req : http.PipelineRequest) (runStage : RunStage)
        (buildStage : BuildStage) (deployStage : DeployStage),
        hasStages (http.assignStages stored req runStage buildStage deployStage)) ∧
      (∀ (s s1 : MemoryStore) (uuid id : String) (req : http.PipelineRequest),
        http.createPipeline s uuid req = (s1, http.Response.json 201 id) →
        ∃ created, s1.GetPipeline id = .ok created ∧ hasStages created) ∧
      (∀ (s s1 : MemoryStore) (id : String) (req : http.PipelineRequest) (updated : Pipeline),
        http.updatePipeline s id req = (s1, http.Response.json 200 updated) →
        s1.GetPipeline updated.ID = .ok updated ∧ hasStages updated) ∧
      (∀ built : Pipeline, hasStages built → http.createPipelineResponse built ≠ none) ∧
      (hasStages pipeline → c = Completion.returned) ∧
      (∀ stage : String, stage = StageRun ∨ stage = StageBuild ∨ stage = StageDeploy →
        pipeline.Stages.get? stage = none →
        c = Completion.panicked ∨
          (c = Completion.returned ∧ (st'.heap.mem p).Status = StatusFailed ∧
            Event.stageExecutor stage ∉ st'.trace)) := by
  refine ⟨?_, hasStages_assignStages, ?_, ?_, ?_, ?_, ?_⟩
  · intro uuid repository
    exact ⟨⟨_, rfl⟩, ⟨_, rfl⟩, ⟨_, rfl⟩⟩
  · intro s s1 uuid id req hcreate
    unfold http.createPipeline at hcreate
    simp only at hcreate
    split at hcreate
    · cases hcreate
    · split at hcreate
      · cases hcreate
      · split at hcreate
        · cases hcreate
        · split at hcreate
          · cases hcreate
          · rename_i s2 hstore
            simp only [Prod.mk.injEq, http.Response.json.injEq, true_and] at hcreate
            obtain ⟨hs, hid⟩ := hcreate
            subst hs
            subst hid
            refine ⟨http.assignStages (NewPipeline uuid req.Repository) req
              (NewRunStage StageRun req.Stages.RunStage.Command
                req.Stages.RunStage.ContinueOnErr)
              (NewBuildStage StageBuild req.Stages.BuildStage.DockerfilePath
                req.Stages.BuildStage.ContinueOnErr)
              (NewDeployStage StageDeploy req.Stages.DeployStage.ClusterName
                req.Stages.DeployStage.ManifestPath req.Stages.DeployStage.ContinueOnErr),
              ?_, hasStages_assignStages _ _ _ _ _⟩
            unfold MemoryStore.CreatePipeline at hstore
            split at hstore
            · cases hstore
            · simp only [Prod.mk.injEq, and_true] at hstore
              subst hstore
              simp [MemoryStore.GetPipeline, GoMap.get?_set]
  · intro s s1 id req updated hupdate
    unfold http.updatePipeline at hupdate
    split at hupdate
    · split at hupdate <;> cases hupdate
    · simp only at hupdate
      split at hupdate
      · cases hupdate
      · split at hupdate
        · cases hupdate
        · split at hupdate
          · cases hupdate
          · split at hupdate
            · cases hupdate
            · rename_i s2 hstore
              simp only [Prod.mk.injEq, http.Response.json.injEq, true_and] at hupdate
              obtain ⟨hs, hid⟩ := hupdate
              subst hs
              subst hid
              refine ⟨?_, hasStages_assignStages _ _ _ _ _⟩
              unfold MemoryStore.UpdatePipeline at hstore
              split at hstore
              · cases hstore
              · simp only [Prod.mk.injEq, and_true] at hstore
                subst hstore
                simp [MemoryStore.GetPipeline, GoMap.get?_set]
  · rintro built ⟨⟨rs, hrs⟩, ⟨bs, hbs⟩, ⟨ds, hds⟩⟩
    simp [http.createPipelineResponse, hrs, hbs, hds]
  · intro hstages
    refine execute_returns_of_hasStages S inp fuel h e p st' c ?_ hexec
    intro pipeline' hget'
    rw [hget] at hget'
    cases hget'
    exact hstages
  · intro stage hstage hmissing
    have hnodeploy : stage = StageDeploy → Event.stageExecutor stage ∉ st'.trace := by
      intro hs
      subst hs
      exact execute_no_deploy_call S inp fuel h e p st' c pipeline hget
        (fun ds hds => by rw [hmissing] at hds; cases hds) hexec
    rcases execute_paths S inp fuel h e p st' c hexec with
      ⟨hc, hk, hs, _⟩ | ⟨pipeline', hget', hrest⟩
    · right
      refine ⟨hc, ?_, ?_⟩
      · have := congrArg RunStatuses.Status hs
        simpa [statusesOf] using this
      · rw [mem_control (Event.stageExecutor stage) _ rfl, hk]
        simp
    · rw [hget] at hget'
      cases hget'
      rcases hrest with ⟨hc, _, _⟩ | ⟨rs, r1, hrs, hrest⟩
      · exact Or.inl hc
      · have hne1 : stage ≠ StageRun := by
          intro hs
          rw [hs, hrs] at hmissing
          cases hmissing
        rcases hrest with ⟨e1, _, _, hc, hk, hs, _⟩ | ⟨_, hrest⟩
        · right
          refine ⟨hc, ?_, ?_⟩
          · have := congrArg RunStatuses.Status hs
            simpa [statusesOf] using this
          · rw [mem_control (Event.stageExecutor stage) _ rfl, hk]
            simp [hne1]
        · rcases hrest with ⟨hc, _, _⟩ | ⟨bs, r2, hbs, hrest⟩
          · exact Or.inl hc
          · have hne2 : stage ≠ StageBuild := by
              intro hs
              rw [hs, hbs] at hmissing
              cases hmissing
            have hs3 : stage = StageDeploy := by
              rcases hstage with hs | hs | hs
              · exact absurd hs hne1
              · exact absurd hs hne2
              · exact hs
            rcases hrest with ⟨e2, _, _, hc, hk, hs, _⟩ | ⟨_, hrest⟩
            · right
              refine ⟨hc, ?_, hnodeploy hs3⟩
              have := congrArg RunStatuses.Status hs
              simpa [statusesOf] using this
            · rcases hrest with ⟨hc, _, _⟩ | ⟨r3, hc, hk, _⟩
              · exact Or.inl hc
              · exfalso
                apply hnodeploy hs3
                rw [mem_control (Event.stageExecutor stage) _ rfl, hk, hs3]
                simp

/-- A new pipeline has its three stages; on the stored pipeline without a deploy
stage whose run stage fails, `execute` returns failed without a call of the
deploy executor; on the test pipeline stored without its deploy stage it
panics. -/
theorem stage_assertions_on_built_pipelines_witness :
    hasStages (NewPipeline "pipeline-1" "github.com/test/repo") ∧
      noDeployPipeline.Stages.get? StageDeploy = none ∧
      ((executionOf noDeployPipeline).2 = Completion.panicked ∨
        ((executionOf noDeployPipeline).2 = Completion.returned ∧
          ((executionOf noDeployPipeline).1.heap.mem 3).Status = StatusFailed ∧
          Event.stageExecutor StageDeploy ∉ (executionOf noDeployPipeline).1.trace)) ∧
      (executionOf testPipelineWithoutDeploy).2 = Completion.panicked := by
  have W := stage_assertions_on_built_pipelines memoryStore exampleInputs 1
    (triggerOf noDeployPipeline).heap (triggerOf noDeployPipeline).executor 3
    (executionOf noDeployPipeline).1 (executionOf noDeployPipeline).2 noDeployPipeline rfl rfl
  exact ⟨W.1 _ _, rfl, W.2.2.2.2.2.2 StageDeploy (Or.inr (Or.inr rfl)) rfl, by decide⟩

/-! ## Workers running concurrently -/

theorem executeStages_eq {σ : Type} (S : Store σ) (inp : Inputs) (p : Ptr) (pipeline : Pipeline)
    (st : ExecState σ) :
    executeStages S inp p pipeline st =
      executeRunStage S inp p pipeline (setStatus st p StatusRunning) := rfl

theorem System.run_append {σ : Type} (S : Store σ) (inp : Nat → Inputs) (sys : System σ)
    (a b : List Thread) :
    System.run S inp sys (a ++ b) = System.run S inp (System.run S inp sys a) b := by
  induction a generalizing sys with
  | nil => rfl
  | cons t rest ih => exact ih _

/-- A worker alone in the waiting loop takes the rounds of `executeWaitLoop`. -/
theorem System.run_waitLoop {σ : Type} (S : Store σ) (inp : Inputs) (p : Ptr)
    (pipeline : Pipeline) (fuel : Nat) (st st1 : ExecState σ) (b : Bool)
    (runChan pending : Option Ptr)
    (hw : executeWaitLoop S p pipeline fuel st = some (st1, b)) :
    ∃ n : Nat,
      System.run S (fun _ => inp)
          { state := st, runChan := runChan, pending := pending,
            workers := [Location.listing p pipeline] }
          (List.replicate n (Thread.worker 0)) =
        { state := st1, runChan := runChan, pending := pending,
          workers := [if b = true then Location.start p pipeline else Location.idle] } := by
  induction fuel generalizing st with
  | zero => simp [executeWaitLoop] at hw
  | succ fuel ih =>
    unfold executeWaitLoop at hw
    simp only at hw
    split at hw
    · rename_i err herr
      simp only [Option.some.injEq, Prod.mk.injEq] at hw
      obtain ⟨hst, hb⟩ := hw
      subst hst
      subst hb
      refine ⟨1, ?_⟩
      simp [System.run, System.step, workerStep, herr]
    · rename_i hfatal
      split at hw
      · rename_i run hrun
        obtain ⟨n, hn⟩ := ih _ hw
        refine ⟨n + 1, ?_⟩
        rw [List.replicate_succ]
        simp only [System.run]
        rw [← hn]
        congr 1
        simp [System.step, workerStep, hfatal, hrun]
      · rename_i hrun
        simp only [Option.some.injEq, Prod.mk.injEq] at hw
        obtain ⟨hst, hb⟩ := hw
        subst hst
        subst hb
        refine ⟨1, ?_⟩
        simp [System.run, System.step, workerStep, hfatal, hrun]

/-- A single worker that has received the run `p` and takes its steps alone does
what `execute` does: it reaches the state in which `execute` ends, and is idle
again after a return and crashed after a panic. -/
theorem System.run_alone {σ : Type} (S : Store σ) (inp : Inputs) (fuel : Nat) (h : Heap)
    (e : Executor σ) (p : Ptr) (st' : ExecState σ) (c : Completion)
    (runChan pending : Option Ptr)
    (hexec : execute S inp fuel h e p = some (st', c)) :
    ∃ n : Nat,
      System.run S (fun _ => inp)
          { state := { heap := h, executor := e, trace := [], clock := 0 },
            runChan := runChan, pending := pending, workers := [Location.lookup p] }
          (List.replicate n (Thread.worker 0)) =
        { state := st', runChan := runChan, pending := pending,
          workers := [if c = Completion.returned then Location.idle else Location.crashed] } := by
  unfold execute at hexec
  simp only at hexec
  split at hexec
  · rename_i err herr
    simp only [Option.some.injEq, Prod.mk.injEq] at hexec
    obtain ⟨hst, hc⟩ := hexec
    subst hst
    subst hc
    refine ⟨1, ?_⟩
    simp [System.run, System.step, workerStep, herr]
  · rename_i pipeline hget
    have hfirst : System.run S (fun _ => inp)
        { state := { heap := h, executor := e, trace := [], clock := 0 },
          runChan := runChan, pending := pending, workers := [Location.lookup p] }
        [Thread.worker 0] =
        { state :=
            { heap := h
              executor := { e with Store := (S.GetPipeline e.Store (h.mem p).PipelineID).1 }
              trace := [Event.GetPipeline (h.mem p).PipelineID]
              clock := 0 },
          runChan := runChan, pending := pending,
          workers := [Location.listing p pipeline] } := by
      simp [System.run, System.step, workerStep, hget]
    split at hexec
    · cases hexec
    · rename_i st1 hw
      simp only [Option.some.injEq, Prod.mk.injEq] at hexec
      obtain ⟨hst, hc⟩ := hexec
      subst hst
      subst hc
      obtain ⟨n, hn⟩ := System.run_waitLoop S inp p pipeline fuel _ _ _ runChan pending hw
      refine ⟨1 + n, ?_⟩
      rw [List.replicate_add, System.run_append]
      simp only [List.replicate_one]
      rw [hfirst, hn]
      simp
    · rename_i st1 hw
      simp only [Option.some.injEq] at hexec
      obtain ⟨n, hn⟩ := System.run_waitLoop S inp p pipeline fuel _ _ _ runChan pending hw
      refine ⟨1 + n + 2, ?_⟩
      rw [List.replicate_add, System.run_append, List.replicate_add, System.run_append]
      simp only [List.replicate_one]
      rw [hfirst, hn]
      rw [executeStages_eq] at hexec
      cases c <;>
        simp [System.run, System.step, workerStep, hexec, List.replicate]

/-- C24, on the code: two runs of the test pipeline are admitted (runs 3 and 4) and
the executor has two workers.  Along `raceSchedule` the event loop hands run 3
to worker 0 and run 4 to worker 1, each worker gets the pipeline and lists the
runs while the other run is still pending, so neither waits; then worker 0
assigns `Status` running to run 3 and worker 1 assigns it to run 4.  After 10
steps both runs are pending, after 11 steps run 3 is running, and after 12
steps both runs of the pipeline carry `Status` running: the second run reaches
running while the first has no terminal status. -/
theorem two_runs_of_one_pipeline_both_running :
    firstTrigger.run = some 3 ∧ firstTrigger.err = none ∧
      secondTrigger.run = some 4 ∧ secondTrigger.err = none ∧
      secondTrigger.executor.workers = 2 ∧
      (secondTrigger.heap.mem 3).PipelineID = (secondTrigger.heap.mem 4).PipelineID ∧
      (secondTrigger.heap.mem 3).ID ≠ (secondTrigger.heap.mem 4).ID ∧
      raceSchedule.length = 12 ∧
      statusesAt (raceAfter 10) [3, 4] = [StatusPending, StatusPending] ∧
      statusesAt (raceAfter 11) [3, 4] = [StatusRunning, StatusPending] ∧
      statusesAt (raceAfter 12) [3, 4] = [StatusRunning, StatusRunning] := by
  decide

end Stagerunner
